import Mathlib

/-!
# LeechCore RPC client: a shallow embedding of `leechrpcclient.c`

Conventions of the embedding.

* Machine integers are natural numbers.  A `DWORD` store that can exceed 32 bits is
  written with an explicit `% 4294967296`; `size_t` arithmetic is the 64-bit
  arithmetic of the x64 build, in which the sums and products of the source
  (a 32-bit value times a `sizeof`) cannot wrap.
* A buffer that the client allocates or receives is a list of bytes.  Reading past the
  end of a list yields `0`.
* A message buffer is seen through the typed views the source casts it to
  (`LEECHRPC_MSG_HDR`, `LEECHRPC_MSG_DATA`, `LEECHRPC_MSG_BIN`, `LEECHRPC_MSG_OPEN`).
* A `CHAR` array is the list of its bytes; the string it holds is `cstr`, its bytes up
  to the first NUL.  String literals are written as lists of character codes.
* `Env.LocalAlloc` gives the stale content of a block that is allocated without being
  cleared.
* The headers `leechrpc.h` and `leechcore.h` are not part of the sources at hand:
  every constant, `sizeof` and struct image they define is a field of `Layout`.
* `LeechRPC_Compress` and `LeechRPC_Decompress` live outside this file of the
  repository: they are the fields of `Env`.
* The operating system and the peer are scripted in `World`: the answers the RPC
  runtime will give, the outcomes of `WriteFile`, the deliveries of `ReadFile`.
  `World.trace` records the calls made to the compression adapter and to the
  transports.
* Allocation (`LocalAlloc`) succeeds.
* The memory of the caller that the scatter functions reach is typed: `Memory.scatter`
  gives the `MEM_SCATTER` behind a pointer, `Memory.byte` the byte at an address.  Two
  different pointers point to two structs apart, and no struct overlaps the bytes of a
  buffer.  An array `PPMEM_SCATTER` is the list of the pointers it holds: two entries
  may hold the same pointer, and the buffers of two descriptors may share bytes.
* The keepalive worker is observed round by round: one round of its loop is one tick
  (`Sleep(100)`), and the values its tests of the stop flag read are given as a list.
* `ReadScatter_loop_reads` lists the reads that the scatter-read loop makes in the
  payload of a response, beside the memory `ReadScatter_loop` computes.
* `LeechRpc_Open` is called with a non-null `ppLcCreateErrorInfo`.
-/

namespace LeechRpc

/-- Byte buffers. -/
abbrev Bytes := List Nat

/-- The common message header `LEECHRPC_MSG_HDR`. -/
structure LEECHRPC_MSG_HDR where
  dwMagic : Nat := 0
  cbMsg : Nat := 0
  tpMsg : Nat := 0
  fMsgResult : Bool := false
  dwRpcClientID : Nat := 0
  flags : Nat := 0
deriving DecidableEq, Repr

/-- The configuration record `LC_CONFIG`: the fields the client names, and the bytes
of all its other fields in `other`. -/
structure LC_CONFIG where
  dwVersion : Nat := 0
  szDevice : Bytes := []
  szRemote : Bytes := []
  pfn_printf_opt : Nat := 0
  szDeviceName : Bytes := []
  fRemote : Bool := false
  fRemoteDisableCompress : Bool := false
  other : Bytes := []
deriving DecidableEq, Repr

/-- A message buffer, seen through the views the source casts it to: the header,
the fields of `LEECHRPC_MSG_DATA` / `LEECHRPC_MSG_BIN` the client touches
(`qwData[0]`, `qwData[1]`, `cbDecompress`, `cb` and the payload `pb`), and those of
`LEECHRPC_MSG_OPEN` (`fValidOpen`, `cfg`, and in `errorinfo` the bytes of the buffer
from the field `errorinfo` to its end). -/
structure LEECHRPC_MSG extends LEECHRPC_MSG_HDR where
  qwData0 : Nat := 0
  qwData1 : Nat := 0
  cbDecompress : Nat := 0
  cb : Nat := 0
  pb : Bytes := []
  fValidOpen : Bool := false
  cfg : LC_CONFIG := {}
  errorinfo : Bytes := []
deriving DecidableEq, Repr

/-- The wire image of a `MEM_SCATTER` as the client reads it back from a response:
`version`, `f` and `qwA`. -/
structure MEM_SCATTER_VIEW where
  version : Nat := 0
  f : Bool := false
  qwA : Nat := 0
deriving DecidableEq, Repr

/-- A scatter descriptor `MEM_SCATTER`; `pb` is the address of the caller's buffer. -/
structure MEM_SCATTER where
  version : Nat := 0
  f : Bool := false
  qwA : Nat := 0
  cb : Nat := 0
  pb : Nat := 0
deriving DecidableEq, Repr

/-- The memory of the caller, as far as the scatter functions reach it: `scatter p` is
the `MEM_SCATTER` the pointer `p` (a `PMEM_SCATTER`) points to, `byte a` the byte at the
address `a`. -/
structure Memory where
  scatter : Nat → MEM_SCATTER
  byte : Nat → Nat

/-- Everything the missing headers define: constants, sizes and struct images. -/
structure Layout where
  LEECHRPC_MSGMAGIC : Nat
  LEECHRPC_MSGTYPE_MAX : Nat
  LEECHRPC_FLAG_NOCOMPRESS : Nat
  LEECHRPC_MSGTYPE_PING_REQ : Nat
  LEECHRPC_MSGTYPE_PING_RSP : Nat
  LEECHRPC_MSGTYPE_OPEN_REQ : Nat
  LEECHRPC_MSGTYPE_OPEN_RSP : Nat
  LEECHRPC_MSGTYPE_CLOSE_REQ : Nat
  LEECHRPC_MSGTYPE_CLOSE_RSP : Nat
  LEECHRPC_MSGTYPE_READSCATTER_REQ : Nat
  LEECHRPC_MSGTYPE_READSCATTER_RSP : Nat
  LEECHRPC_MSGTYPE_WRITESCATTER_REQ : Nat
  LEECHRPC_MSGTYPE_WRITESCATTER_RSP : Nat
  LEECHRPC_MSGTYPE_GETOPTION_REQ : Nat
  LEECHRPC_MSGTYPE_GETOPTION_RSP : Nat
  LEECHRPC_MSGTYPE_SETOPTION_REQ : Nat
  LEECHRPC_MSGTYPE_SETOPTION_RSP : Nat
  LEECHRPC_MSGTYPE_COMMAND_REQ : Nat
  LEECHRPC_MSGTYPE_COMMAND_RSP : Nat
  LEECHRPC_MSGTYPE_KEEPALIVE_REQ : Nat
  LEECHRPC_MSGTYPE_KEEPALIVE_RSP : Nat
  sizeof_LEECHRPC_MSG_HDR : Nat
  sizeof_LEECHRPC_MSG_OPEN : Nat
  sizeof_LEECHRPC_MSG_DATA : Nat
  sizeof_LEECHRPC_MSG_BIN : Nat
  /-- The header view of the first `sizeof(LEECHRPC_MSG_HDR)` bytes of a message. -/
  viewHDR : Bytes → LEECHRPC_MSG_HDR
  /-- The body views of the bytes that follow the header (the header part of the
  result is not used). -/
  viewEXT : Bytes → LEECHRPC_MSG
  sizeof_MEM_SCATTER : Nat
  MEM_SCATTER_VERSION : Nat
  /-- The macro `MEM_SCATTER_ADDR_ISVALID`, on the address `qwA`;
  `MEM_SCATTER_ADDR_ISINVALID` is its negation. -/
  MEM_SCATTER_ADDR_ISVALID : Nat → Bool
  /-- The `sizeof(MEM_SCATTER)` bytes of a descriptor in memory. -/
  imageMEM : MEM_SCATTER → Bytes
  /-- The fields read through a `PMEM_SCATTER` cast onto payload bytes. -/
  viewMEM : Bytes → MEM_SCATTER_VIEW
  LC_CMD_AGENT_VFS_LIST : Nat
  LC_CMD_AGENT_VFS_READ : Nat
  LC_CMD_AGENT_VFS_WRITE : Nat
  LC_CMD_AGENT_VFS_RSP_VERSION : Nat
  sizeof_LC_CMD_AGENT_VFS_RSP : Nat
  /-- Byte offset of `dwVersion` in `LC_CMD_AGENT_VFS_RSP`. -/
  VFS_RSP_dwVersion : Nat
  /-- Byte offset of `cbReadWrite` in `LC_CMD_AGENT_VFS_RSP`. -/
  VFS_RSP_cbReadWrite : Nat
  /-- Byte offset of `cb` in `LC_CMD_AGENT_VFS_RSP`. -/
  VFS_RSP_cb : Nat
  LC_CONFIG_VERSION : Nat
  LC_CONFIG_ERRORINFO_VERSION : Nat
  sizeof_LC_CONFIG_ERRORINFO : Nat
  /-- Byte offset of `dwVersion` in `LC_CONFIG_ERRORINFO`. -/
  ERRORINFO_dwVersion : Nat
  /-- Byte offset of `cbStruct` in `LC_CONFIG_ERRORINFO`. -/
  ERRORINFO_cbStruct : Nat
  /-- Byte offset of `cwszUserText` in `LC_CONFIG_ERRORINFO`. -/
  ERRORINFO_cwszUserText : Nat
  /-- Byte offset of the array `wszUserText` in `LC_CONFIG_ERRORINFO`. -/
  ERRORINFO_wszUserText : Nat

/-- What the client calls outside this file: the two entry points of the compression
adapter, the heap, the string splitters of `util.c` and the number parsers of the C
runtime. -/
structure Env where
  /-- The message `LeechRPC_Compress(&ctx->Compress, pMsg, fCompressDisable)`
  leaves in place of `pMsg`. -/
  LeechRPC_Compress : LEECHRPC_MSG → Bool → LEECHRPC_MSG
  /-- The message `LeechRPC_Decompress` allocates, `none` when it fails. -/
  LeechRPC_Decompress : LEECHRPC_MSG → Option LEECHRPC_MSG
  /-- The stale bytes found in a block of the given size returned by
  `LocalAlloc(0, _)`, which does not clear it. -/
  LocalAlloc : Nat → Bytes
  /-- The three strings `Util_Split3(sz, chDelimiter, _, &sz1, &sz2, &sz3)` points its
  out-parameters to; `none` is a null pointer. -/
  Util_Split3 : Bytes → Nat → Option Bytes × Option Bytes × Option Bytes
  /-- The two strings `Util_Split2(sz, chDelimiter, _, &sz1, &sz2)` points its
  out-parameters to; `none` is a null pointer. -/
  Util_Split2 : Bytes → Nat → Option Bytes × Option Bytes
  /-- The value of `atoi` on a string, as the `DWORD` it is stored in. -/
  atoi : Bytes → Nat
  /-- The value of `_atoi64` on a string, as the `HANDLE` it is cast to. -/
  _atoi64 : Bytes → Nat

/-- Calls that leave the request engine. -/
inductive Event where
  /-- The call `LeechRPC_Compress(_, msg, fCompressDisable)`. -/
  | compress (msg : LEECHRPC_MSG) (fCompressDisable : Bool)
  /-- The message handed to a transport: `LeechRpc_ReservedSubmitCommand` when
  `fIsRpc`, `LeechRPC_SubmitCommand_Pipe` otherwise. -/
  | transport (fIsRpc : Bool) (msg : LEECHRPC_MSG)
  /-- The call `LeechRPC_Decompress(_, msg, _)`. -/
  | decompress (msg : LEECHRPC_MSG)
deriving DecidableEq, Repr

/-- The surroundings of the client. -/
structure World where
  /-- Outcomes of the successive calls of `LeechRpc_ReservedSubmitCommand`: `none`
  is an error status or a runtime fault, `some (cbMsgOut, ppMsgOut)` a return
  with these two out-parameters. -/
  rpcReplies : List (Option (Nat × Option LEECHRPC_MSG)) := []
  /-- Outcomes of the successive calls of `WriteFile` on the write handle. -/
  pipeWrites : List Bool := []
  /-- What the successive calls of `ReadFile` find on the read handle. -/
  pipeReads : List Bytes := []
  trace : List Event := []
  /-- The status `RpcStringBindingComposeA` returns. -/
  rpcStatusCompose : Nat := 0
  /-- The status `RpcBindingFromStringBindingA` returns. -/
  rpcStatusBinding : Nat := 0
  /-- The status `RpcBindingSetAuthInfoExA` returns. -/
  rpcStatusAuth : Nat := 0
  /-- The result of `LeechRPC_CompressInitialize`. -/
  fCompressInitialize : Bool := false
  /-- The `DWORD` that `Util_GenRandom` writes. -/
  random : Nat := 0
deriving DecidableEq, Repr

/-- The session record `LEECHRPC_CLIENT_CONTEXT` behind `ctxLC->hDevice`. -/
structure LEECHRPC_CLIENT_CONTEXT where
  fIsRpc : Bool := false
  hPipeMem_Rd : Nat := 0
  hPipeMem_Wr : Nat := 0
  fHousekeeperThread : Bool := false
  fHousekeeperThreadIsRunning : Bool := false
  fAllowInsecure : Bool := false
  /-- The string held by `szRemoteSPN`. -/
  szRemoteSPN : Bytes := []
  /-- The string held by `szTcpAddr`. -/
  szTcpAddr : Bytes := []
  /-- The number `_itoa_s` writes to `szTcpPort` in decimal. -/
  szTcpPort : Nat := 0
  /-- Whether `hRPC` is a binding handle (non-null). -/
  hRPC : Bool := false
  /-- Whether `szStringBinding` is a string binding (non-null). -/
  szStringBinding : Bool := false
deriving DecidableEq, Repr

/-- The fields of the device context `LC_CONTEXT` the client uses; `hDevice = none`
is the null handle. -/
structure LC_CONTEXT where
  hDevice : Option LEECHRPC_CLIENT_CONTEXT := none
  Rpc_fCompress : Bool := false
  Rpc_dwRpcClientId : Nat := 0
  Config : LC_CONFIG := {}
  fMultiThread : Bool := false
  /-- Whether the six slots `pfnClose`, `pfnReadScatter`, `pfnWriteScatter`,
  `pfnGetOption`, `pfnSetOption` and `pfnCommand` hold the functions of this client. -/
  pfnDeviceStub : Bool := false
deriving DecidableEq, Repr

/-! ## Pipe transport -/

/-- The loop of `Util_GetBytesPipe(hPipe_Rd, pb, cb)`: `acc` holds the `cbReadTotal`
bytes read so far, the list argument what the next calls of `ReadFile` deliver
(`ReadFile` fails once nothing is left).  The result is the return value, the
bytes read and the deliveries left. -/
def Util_GetBytesPipe (cb : Nat) : List Bytes → Bytes → Bool × Bytes × List Bytes
  | [], acc => (decide (cb = acc.length), acc, [])
  | d :: rest, acc =>
    if acc.length < cb then
      if d.length ≤ cb - acc.length then Util_GetBytesPipe cb rest (acc ++ d)
      else (true, acc ++ d.take (cb - acc.length), d.drop (cb - acc.length) :: rest)
    else (decide (cb = acc.length), acc, d :: rest)

/-- The function `LeechRPC_SubmitCommand_Pipe`: `none` is the `fail` exit, `some (cbMsgOut, pMsgOut)`
the success exit.  (Both out-pointers are non-null at the only call site.) -/
def LeechRPC_SubmitCommand_Pipe (L : Layout) (ctx : LEECHRPC_CLIENT_CONTEXT) (w : World)
    (_pMsgIn : LEECHRPC_MSG) : World × Option (Nat × LEECHRPC_MSG) :=
  -- 1: write contents to pipe
  if ctx.hPipeMem_Wr = 0 then (w, none) else
  match w.pipeWrites with
  | [] => (w, none)
  | fWrite :: ws =>
    let w1 := { w with pipeWrites := ws }
    if fWrite = false then (w1, none) else
    -- 2: read resulting contents : header
    let rH := Util_GetBytesPipe L.sizeof_LEECHRPC_MSG_HDR w1.pipeReads []
    let w2 := { w1 with pipeReads := rH.2.2 }
    if rH.1 = false then (w2, none) else
    let Hdr := L.viewHDR rH.2.1
    if Hdr.dwMagic ≠ L.LEECHRPC_MSGMAGIC ∨ Hdr.cbMsg > 0x04000000 then (w2, none) else
    -- 3: read resulting contents : data
    if Hdr.cbMsg > L.sizeof_LEECHRPC_MSG_HDR then
      let rB := Util_GetBytesPipe (Hdr.cbMsg - L.sizeof_LEECHRPC_MSG_HDR) w2.pipeReads []
      let w3 := { w2 with pipeReads := rB.2.2 }
      if rB.1 = false then (w3, none)
      else (w3, some (Hdr.cbMsg, { L.viewEXT rB.2.1 with toLEECHRPC_MSG_HDR := Hdr }))
    else (w2, some (Hdr.cbMsg, { L.viewEXT [] with toLEECHRPC_MSG_HDR := Hdr }))

/-! ## Request engine -/

/-- Lines 83-106 of `LeechRPC_SubmitCommand`: stamp magic and result flag, set
`cbMsg` from the message type, run the compression adapter on the three binary
requests.  `none` is the `default: return FALSE`. -/
def LeechRPC_SubmitCommand_prepare (L : Layout) (E : Env) (ctxLC : LC_CONTEXT) (w : World)
    (pMsgIn : LEECHRPC_MSG) : Option (World × LEECHRPC_MSG) :=
  let m0 := { pMsgIn with dwMagic := L.LEECHRPC_MSGMAGIC, fMsgResult := true }
  if m0.tpMsg = L.LEECHRPC_MSGTYPE_PING_REQ ∨ m0.tpMsg = L.LEECHRPC_MSGTYPE_CLOSE_REQ
      ∨ m0.tpMsg = L.LEECHRPC_MSGTYPE_KEEPALIVE_REQ then
    some (w, { m0 with cbMsg := L.sizeof_LEECHRPC_MSG_HDR })
  else if m0.tpMsg = L.LEECHRPC_MSGTYPE_OPEN_REQ then
    some (w, { m0 with cbMsg := L.sizeof_LEECHRPC_MSG_OPEN })
  else if m0.tpMsg = L.LEECHRPC_MSGTYPE_GETOPTION_REQ
      ∨ m0.tpMsg = L.LEECHRPC_MSGTYPE_SETOPTION_REQ then
    some (w, { m0 with cbMsg := L.sizeof_LEECHRPC_MSG_DATA })
  else if m0.tpMsg = L.LEECHRPC_MSGTYPE_READSCATTER_REQ
      ∨ m0.tpMsg = L.LEECHRPC_MSGTYPE_WRITESCATTER_REQ
      ∨ m0.tpMsg = L.LEECHRPC_MSGTYPE_COMMAND_REQ then
    let m1 := { m0 with cbMsg := (L.sizeof_LEECHRPC_MSG_BIN + m0.cb) % 4294967296 }
    some ({ w with trace := w.trace ++ [Event.compress m1 (!ctxLC.Rpc_fCompress)] },
          E.LeechRPC_Compress m1 (!ctxLC.Rpc_fCompress))
  else none

/-- Lines 107-127 of `LeechRPC_SubmitCommand`: stamp client id and flags and call the
transport of the session.  `none` is a transport failure (`*ppMsgOut = NULL; return
FALSE`), `some (cbMsgOut, *ppMsgOut)` what the transport handed back. -/
def LeechRPC_SubmitCommand_dispatch (L : Layout) (ctxLC : LC_CONTEXT)
    (ctx : LEECHRPC_CLIENT_CONTEXT) (w : World) (pMsgIn : LEECHRPC_MSG) :
    World × Option (Nat × Option LEECHRPC_MSG) :=
  if ctx.fIsRpc then
    -- RPC connection method:
    let m := { pMsgIn with dwRpcClientID := ctxLC.Rpc_dwRpcClientId,
                           flags := if ctxLC.Rpc_fCompress then 0 else L.LEECHRPC_FLAG_NOCOMPRESS }
    let w1 := { w with trace := w.trace ++ [Event.transport true m] }
    match w1.rpcReplies with
    | [] => (w1, none)
    | none :: rs => ({ w1 with rpcReplies := rs }, none)
    | some r :: rs => ({ w1 with rpcReplies := rs }, some r)
  else
    -- PIPE connection method:
    let m := { pMsgIn with dwRpcClientID := ctxLC.Rpc_dwRpcClientId,
                           flags := L.LEECHRPC_FLAG_NOCOMPRESS }
    let w1 := { w with trace := w.trace ++ [Event.transport false m] }
    match LeechRPC_SubmitCommand_Pipe L ctx w1 m with
    | (w2, none) => (w2, none)
    | (w2, some (cbMsgOut, pMsgOut)) => (w2, some (cbMsgOut, some pMsgOut))

/-- Lines 83-127 of `LeechRPC_SubmitCommand`: everything up to the return of the
transport.  `none`: nothing was sent (a message type outside the switch; the model has
no run with a null `hDevice`, which the source dereferences). -/
def LeechRPC_SubmitCommand_send (L : Layout) (E : Env) (ctxLC : LC_CONTEXT) (w : World)
    (pMsgIn : LEECHRPC_MSG) : Option (World × Option (Nat × Option LEECHRPC_MSG)) :=
  match LeechRPC_SubmitCommand_prepare L E ctxLC w pMsgIn with
  | none => none
  | some (w1, m) =>
    match ctxLC.hDevice with
    | none => none
    | some ctx => some (LeechRPC_SubmitCommand_dispatch L ctxLC ctx w1 m)

/-- The envelope test of lines 129-131 on what the transport handed back. -/
def LeechRPC_SubmitCommand_fOK (L : Layout) (cbMsgOut : Nat) (m : LEECHRPC_MSG)
    (tpMsgRsp : Nat) : Bool :=
  (decide (cbMsgOut ≥ L.sizeof_LEECHRPC_MSG_HDR) && decide (m.dwMagic = L.LEECHRPC_MSGMAGIC))
  && (decide (m.tpMsg ≤ L.LEECHRPC_MSGTYPE_MAX) && decide (m.cbMsg = cbMsgOut)
      && decide (cbMsgOut < 0x10000000))
  && (m.fMsgResult && decide (m.tpMsg = tpMsgRsp))

/-- Lines 128-166 of `LeechRPC_SubmitCommand`: the checks on the untrusted response.
The result is the return value and `*ppMsgOut`. -/
def LeechRPC_SubmitCommand_verify (L : Layout) (E : Env) (w : World) (cbMsgOut : Nat)
    (ppMsgOut : Option LEECHRPC_MSG) (tpMsgRsp : Nat) : World × Bool × Option LEECHRPC_MSG :=
  match ppMsgOut with
  | none => (w, false, none)
  | some m =>
    if LeechRPC_SubmitCommand_fOK L cbMsgOut m tpMsgRsp then
      if m.tpMsg = L.LEECHRPC_MSGTYPE_PING_RSP ∨ m.tpMsg = L.LEECHRPC_MSGTYPE_CLOSE_RSP
          ∨ m.tpMsg = L.LEECHRPC_MSGTYPE_KEEPALIVE_RSP
          ∨ m.tpMsg = L.LEECHRPC_MSGTYPE_SETOPTION_RSP then
        if m.cbMsg = L.sizeof_LEECHRPC_MSG_HDR then (w, true, some m) else (w, false, none)
      else if m.tpMsg = L.LEECHRPC_MSGTYPE_OPEN_RSP then
        if m.cbMsg ≥ L.sizeof_LEECHRPC_MSG_OPEN then (w, true, some m) else (w, false, none)
      else if m.tpMsg = L.LEECHRPC_MSGTYPE_GETOPTION_RSP then
        if m.cbMsg = L.sizeof_LEECHRPC_MSG_DATA then (w, true, some m) else (w, false, none)
      else if m.tpMsg = L.LEECHRPC_MSGTYPE_READSCATTER_RSP
          ∨ m.tpMsg = L.LEECHRPC_MSGTYPE_WRITESCATTER_RSP
          ∨ m.tpMsg = L.LEECHRPC_MSGTYPE_COMMAND_RSP then
        if m.cbMsg = L.sizeof_LEECHRPC_MSG_BIN + m.cb then
          if m.cbDecompress ≠ 0 then
            let w1 := { w with trace := w.trace ++ [Event.decompress m] }
            match E.LeechRPC_Decompress m with
            | none => (w1, false, none)
            | some pMsgOutDecompress => (w1, true, some pMsgOutDecompress)
          else (w, true, some m)
        else (w, false, none)
      else (w, false, none)
    else (w, false, none)

/-- The function `LeechRPC_SubmitCommand`.  The result is the world afterwards, the return
value and `*ppMsgOut` (which every caller initialises to `NULL`). -/
def LeechRPC_SubmitCommand (L : Layout) (E : Env) (ctxLC : LC_CONTEXT) (w : World)
    (pMsgIn : LEECHRPC_MSG) (tpMsgRsp : Nat) : World × Bool × Option LEECHRPC_MSG :=
  match LeechRPC_SubmitCommand_send L E ctxLC w pMsgIn with
  | none => (w, false, none)
  | some (w1, none) => (w1, false, none)
  | some (w1, some (cbMsgOut, ppMsgOut)) =>
    LeechRPC_SubmitCommand_verify L E w1 cbMsgOut ppMsgOut tpMsgRsp

/-! ## Reading and writing bytes -/

/-- The `n` bytes of `b` from offset `off` on (`0` past the end of `b`). -/
def readBytes (b : Bytes) (off n : Nat) : Bytes :=
  (b.drop off).take n ++ List.replicate (n - ((b.drop off).take n).length) 0

/-- The buffer `dst` after `memcpy(dst, src, n)`, where `src` is the memory from the source
pointer on. -/
def memcpy (dst src : Bytes) (n : Nat) : Bytes :=
  readBytes src 0 n ++ dst.drop n

/-- The byte `b[i]`. -/
def rdBYTE (b : Bytes) (i : Nat) : Nat := b.getD i 0

/-- The little-endian `DWORD` at offset `off`. -/
def rdDWORD (b : Bytes) (off : Nat) : Nat :=
  (rdBYTE b off + 256 * rdBYTE b (off + 1) + 65536 * rdBYTE b (off + 2)
    + 16777216 * rdBYTE b (off + 3)) % 4294967296

/-- The little-endian `QWORD` at offset `off`. -/
def rdQWORD (b : Bytes) (off : Nat) : Nat :=
  (rdDWORD b off + 4294967296 * rdDWORD b (off + 4)) % 18446744073709551616

/-- The eight little-endian bytes of a 64-bit value. -/
def bytesQWORD (v : Nat) : Bytes :=
  (List.range 8).map (fun i => v / 256 ^ i % 256)

/-- The buffer `b` after an eight-byte store of `v` at offset `off`: the positions before
`off` and from `off + 8` on keep their bytes. -/
def wrQWORD (b : Bytes) (off v : Nat) : Bytes :=
  readBytes b 0 off ++ bytesQWORD v ++ b.drop (off + 8)

/-- The `n` bytes of the caller's memory from the address `a` on. -/
def readMem (byte : Nat → Nat) (a n : Nat) : Bytes :=
  (List.range n).map (fun i => byte (a + i))

/-- The bytes of the caller's memory after `memcpy(dst, src, n)`, where `dst` is an
address and `src` the memory from the source pointer on. -/
def memcpy_to (byte : Nat → Nat) (dst : Nat) (src : Bytes) (n : Nat) : Nat → Nat :=
  fun a => if dst ≤ a ∧ a < dst + n then rdBYTE src (a - dst) else byte a

/-- The structs of the caller's memory after a store of `v` through the pointer `p`. -/
def wrMEM (scatter : Nat → MEM_SCATTER) (p : Nat) (v : MEM_SCATTER) : Nat → MEM_SCATTER :=
  fun q => if q = p then v else scatter q

/-- A block of `n` bytes fresh from `LocalAlloc(0, n)`. -/
def freshBlock (E : Env) (n : Nat) : Bytes := readBytes (E.LocalAlloc n) 0 n

/-! ## Scatter read -/

/-- The test `!pMEM->f && MEM_SCATTER_ADDR_ISVALID(pMEM)`. -/
def MEM_pending (L : Layout) (m : MEM_SCATTER) : Bool :=
  !m.f && L.MEM_SCATTER_ADDR_ISVALID m.qwA

/-- The test `(pMEM_Src->version != MEM_SCATTER_VERSION) || (pMEM_Src->cb > 0x1000)`. -/
def MEM_invalid (L : Layout) (m : MEM_SCATTER) : Bool :=
  decide (m.version ≠ L.MEM_SCATTER_VERSION) || decide (m.cb > 0x1000)

/-- The `DWORD` accumulator `cbTotal` after the loop of lines 328-335, which only reads
the descriptors: the argument is the list of the structs `*ppMEMs[i]`. -/
def ReadScatter_cbTotal (L : Layout) (ppMEMs : List MEM_SCATTER) : Nat :=
  ppMEMs.foldl (fun cbTotal m => if MEM_pending L m then (cbTotal + m.cb) % 4294967296
    else cbTotal) 0

/-- The bytes written through `pMEM_Dst` by the loop of lines 328-335, for the list of the
structs `*ppMEMs[i]`. -/
def ReadScatter_payload (L : Layout) : List MEM_SCATTER → Bytes
  | [] => []
  | m :: ms =>
    if MEM_pending L m then L.imageMEM m ++ ReadScatter_payload L ms
    else ReadScatter_payload L ms

/-- The request of lines 324-337 of `LeechRPC_ReadScatter_Impl` (the block is
zero-initialised), for the list of the structs `*ppMEMs[i]`. -/
def ReadScatter_request (L : Layout) (ppMEMs : List MEM_SCATTER) : LEECHRPC_MSG :=
  let cValidMEMs := (ppMEMs.filter (MEM_pending L)).length
  { tpMsg := L.LEECHRPC_MSGTYPE_READSCATTER_REQ
    cb := (cValidMEMs * L.sizeof_MEM_SCATTER) % 4294967296
    pb := ReadScatter_payload L ppMEMs
    qwData0 := cValidMEMs
    qwData1 := ReadScatter_cbTotal L ppMEMs }

/-- The descriptor `((PMEM_SCATTER)pMsgRsp->pb)[k]` of a response. -/
def rspMEM (L : Layout) (pMsgRsp : LEECHRPC_MSG) (k : Nat) : MEM_SCATTER_VIEW :=
  L.viewMEM (readBytes pMsgRsp.pb (k * L.sizeof_MEM_SCATTER) L.sizeof_MEM_SCATTER)

/-- The loop of lines 344-355 on the pointers `ppMEMs[i]` still to visit: `k` counts the
response descriptors consumed (`pMEM_Src` is `&((PMEM_SCATTER)pMsgRsp->pb)[k]`),
`cbOffset` is the `DWORD` cursor.  Every round reads `*ppMEMs[i]` from the memory the
earlier rounds left.  A `break` returns the memory as it is. -/
def ReadScatter_loop (L : Layout) (pMsgRsp : LEECHRPC_MSG) :
    List Nat → Nat → Nat → Memory → Memory
  | [], _, _, M => M
  | p :: rest, k, cbOffset, M =>
    let pMEM_Dst := M.scatter p
    if pMEM_Dst.f || !L.MEM_SCATTER_ADDR_ISVALID pMEM_Dst.qwA then
      ReadScatter_loop L pMsgRsp rest k cbOffset M
    else
      let pMEM_Src := rspMEM L pMsgRsp k
      -- sanity check
      if pMEM_Src.version ≠ L.MEM_SCATTER_VERSION ∨ pMEM_Src.qwA ≠ pMEM_Dst.qwA
          ∨ pMEM_Dst.cb > (pMsgRsp.cb + 4294967296 - cbOffset) % 4294967296 then
        M
      else if pMEM_Src.f then
        let scatter1 := wrMEM M.scatter p { pMEM_Dst with f := pMEM_Src.f }
        let byte1 := memcpy_to M.byte pMEM_Dst.pb (pMsgRsp.pb.drop cbOffset) pMEM_Dst.cb
        ReadScatter_loop L pMsgRsp rest (k + 1) ((cbOffset + pMEM_Dst.cb) % 4294967296)
          { scatter := scatter1, byte := byte1 }
      else
        let scatter1 := wrMEM M.scatter p { pMEM_Dst with f := pMEM_Src.f }
        ReadScatter_loop L pMsgRsp rest (k + 1) cbOffset { scatter := scatter1, byte := M.byte }

/-- The function `LeechRPC_ReadScatter_Impl` on the array `ppMEMs` of `cMEMs = ppMEMs.length`
pointers of a chunk.  The loops of lines 316-335 only read the descriptors: they see the
list `ppMEMs.map M.scatter` of the structs behind the pointers.  The result is the world
and the memory afterwards. -/
def LeechRPC_ReadScatter_Impl (L : Layout) (E : Env) (ctxLC : LC_CONTEXT) (w : World)
    (M : Memory) (ppMEMs : List Nat) : World × Memory :=
  -- 0: sanity check incoming data and count valid non-already finished MEMs
  if (ppMEMs.map M.scatter).any (MEM_invalid L) then (w, M) else
  let cValidMEMs := ((ppMEMs.map M.scatter).filter (MEM_pending L)).length
  -- 1: prepare message to send; 2: transmit & get result
  match LeechRPC_SubmitCommand L E ctxLC w (ReadScatter_request L (ppMEMs.map M.scatter))
      L.LEECHRPC_MSGTYPE_READSCATTER_RSP with
  | (w1, true, some pMsgRsp) =>
    if pMsgRsp.qwData0 ≠ cValidMEMs ∨ pMsgRsp.cb < cValidMEMs * L.sizeof_MEM_SCATTER then
      (w1, M)
    else
      (w1, ReadScatter_loop L pMsgRsp ppMEMs 0
        ((cValidMEMs * L.sizeof_MEM_SCATTER) % 4294967296) M)
  | (w1, _, _) => (w1, M)

/-- A read that the loop of lines 344-355 makes in the payload of the response. -/
inductive PayloadRead where
  /-- The read of the descriptor `((PMEM_SCATTER)pMsgRsp->pb)[k]` for the sanity check of
  line 348, which subtracts the cursor `cbOffset` from `pMsgRsp->cb`. -/
  | descriptor (k cbOffset : Nat)
  /-- The `memcpy` of line 351: `cb` bytes from `pMsgRsp->pb + cbOffset`. -/
  | copy (cbOffset cb : Nat)
deriving DecidableEq, Repr

/-- The reads of the payload made by the loop of lines 344-355, in order; the arguments
are those of `ReadScatter_loop`, and the memory is threaded as it is there. -/
def ReadScatter_loop_reads (L : Layout) (pMsgRsp : LEECHRPC_MSG) :
    List Nat → Nat → Nat → Memory → List PayloadRead
  | [], _, _, _ => []
  | p :: rest, k, cbOffset, M =>
    let pMEM_Dst := M.scatter p
    if pMEM_Dst.f || !L.MEM_SCATTER_ADDR_ISVALID pMEM_Dst.qwA then
      ReadScatter_loop_reads L pMsgRsp rest k cbOffset M
    else
      let pMEM_Src := rspMEM L pMsgRsp k
      -- sanity check
      if pMEM_Src.version ≠ L.MEM_SCATTER_VERSION ∨ pMEM_Src.qwA ≠ pMEM_Dst.qwA
          ∨ pMEM_Dst.cb > (pMsgRsp.cb + 4294967296 - cbOffset) % 4294967296 then
        [PayloadRead.descriptor k cbOffset]
      else if pMEM_Src.f then
        let scatter1 := wrMEM M.scatter p { pMEM_Dst with f := pMEM_Src.f }
        let byte1 := memcpy_to M.byte pMEM_Dst.pb (pMsgRsp.pb.drop cbOffset) pMEM_Dst.cb
        PayloadRead.descriptor k cbOffset :: PayloadRead.copy cbOffset pMEM_Dst.cb
          :: ReadScatter_loop_reads L pMsgRsp rest (k + 1)
              ((cbOffset + pMEM_Dst.cb) % 4294967296) { scatter := scatter1, byte := byte1 }
      else
        let scatter1 := wrMEM M.scatter p { pMEM_Dst with f := pMEM_Src.f }
        PayloadRead.descriptor k cbOffset
          :: ReadScatter_loop_reads L pMsgRsp rest (k + 1) cbOffset
              { scatter := scatter1, byte := M.byte }

/-- The reads that `LeechRPC_ReadScatter_Impl` makes in the payload of the response, in
order: none unless the loop of lines 344-355 is reached. -/
def LeechRPC_ReadScatter_Impl_reads (L : Layout) (E : Env) (ctxLC : LC_CONTEXT) (w : World)
    (M : Memory) (ppMEMs : List Nat) : List PayloadRead :=
  if (ppMEMs.map M.scatter).any (MEM_invalid L) then [] else
  let cValidMEMs := ((ppMEMs.map M.scatter).filter (MEM_pending L)).length
  match LeechRPC_SubmitCommand L E ctxLC w (ReadScatter_request L (ppMEMs.map M.scatter))
      L.LEECHRPC_MSGTYPE_READSCATTER_RSP with
  | (_, true, some pMsgRsp) =>
    if pMsgRsp.qwData0 ≠ cValidMEMs ∨ pMsgRsp.cb < cValidMEMs * L.sizeof_MEM_SCATTER then []
    else ReadScatter_loop_reads L pMsgRsp ppMEMs 0
      ((cValidMEMs * L.sizeof_MEM_SCATTER) % 4294967296) M
  | (_, _, _) => []

/-- The function `LeechRPC_ReadScatter`: the loop `while(cMEMs)` over chunks of at most `0x1000`
pointers; every chunk finds the memory the chunks before it left. -/
def LeechRPC_ReadScatter (L : Layout) (E : Env) (ctxLC : LC_CONTEXT) (w : World)
    (M : Memory) (ppMEMs : List Nat) : World × Memory :=
  if _h : ppMEMs.length = 0 then (w, M) else
    let cMEMsChunk := min ppMEMs.length 0x1000
    let r := LeechRPC_ReadScatter_Impl L E ctxLC w M (ppMEMs.take cMEMsChunk)
    LeechRPC_ReadScatter L E ctxLC r.1 r.2 (ppMEMs.drop cMEMsChunk)
termination_by ppMEMs.length
decreasing_by
  simp only [List.length_drop]
  omega

/-! ## Scatter write -/

/-- The descriptor images written through `pReqWrMEM + i` by the loop of lines 389-395, for
the list of the structs `*ppMEMs[i]`. -/
def WriteScatter_descriptors (L : Layout) : List MEM_SCATTER → Bytes
  | [] => []
  | pMEM :: ms => L.imageMEM pMEM ++ WriteScatter_descriptors L ms

/-- The bytes written through `pbReqWrData` by the loop of lines 389-395: each
`memcpy(pbReqWrData, pMEM->pb, pMEM->cb)` is followed by `pbReqWrData += pMEM->cb`;
`byte` is the memory the buffers are read from. -/
def WriteScatter_data (byte : Nat → Nat) : List MEM_SCATTER → Bytes
  | [] => []
  | pMEM :: ms => readMem byte pMEM.pb pMEM.cb ++ WriteScatter_data byte ms

/-- The request of lines 381-395 of `LeechRPC_WriteScatter_Impl`, for the structs `ppMEMs`
behind the pointers of the chunk: the header is cleared, the payload of `cbReqData` bytes
keeps its stale content wherever the loop does not write. -/
def WriteScatter_request (L : Layout) (E : Env) (byte : Nat → Nat) (ppMEMs : List MEM_SCATTER) :
    LEECHRPC_MSG :=
  let cMEMs := ppMEMs.length
  let cbReqData := (cMEMs * (L.sizeof_MEM_SCATTER + 0x1000)) % 4294967296
  let written := WriteScatter_descriptors L ppMEMs ++ WriteScatter_data byte ppMEMs
  { tpMsg := L.LEECHRPC_MSGTYPE_WRITESCATTER_REQ
    qwData0 := cMEMs
    cb := cbReqData
    pb := written ++ (freshBlock E cbReqData).drop written.length }

/-- The loop of lines 401-403: `ppMEMs[i]->f = pfRsp[i] ? TRUE : FALSE` from index `i` on,
on the structs of the memory. -/
def WriteScatter_results (pMsgRsp : LEECHRPC_MSG) :
    List Nat → Nat → (Nat → MEM_SCATTER) → (Nat → MEM_SCATTER)
  | [], _, scatter => scatter
  | p :: ps, i, scatter =>
    WriteScatter_results pMsgRsp ps (i + 1)
      (wrMEM scatter p { scatter p with f := decide (rdDWORD pMsgRsp.pb (4 * i) ≠ 0) })

/-- The function `LeechRPC_WriteScatter_Impl` on the array `ppMEMs` of `cMEMs = ppMEMs.length`
pointers of a chunk.  The loop of lines 389-395 only reads the descriptors and their
buffers.  The result is the world and the memory afterwards. -/
def LeechRPC_WriteScatter_Impl (L : Layout) (E : Env) (ctxLC : LC_CONTEXT) (w : World)
    (M : Memory) (ppMEMs : List Nat) : World × Memory :=
  -- 1: prepare message to send
  if (ppMEMs.map M.scatter).any (fun pMEM => decide (pMEM.cb > 0x1000)) then (w, M) else
  -- 2: transmit
  match LeechRPC_SubmitCommand L E ctxLC w
      (WriteScatter_request L E M.byte (ppMEMs.map M.scatter))
      L.LEECHRPC_MSGTYPE_WRITESCATTER_RSP with
  | (w1, true, some pMsgRsp) =>
    -- 3: parse result (1 BOOL per cMEM)
    if pMsgRsp.cb < ppMEMs.length * 4 then (w1, M)
    else (w1, { scatter := WriteScatter_results pMsgRsp ppMEMs 0 M.scatter, byte := M.byte })
  | (w1, _, _) => (w1, M)

/-- The function `LeechRPC_WriteScatter`: the loop `while(cMEMs)` over chunks of at most `0x1000`
pointers; every chunk finds the memory the chunks before it left. -/
def LeechRPC_WriteScatter (L : Layout) (E : Env) (ctxLC : LC_CONTEXT) (w : World)
    (M : Memory) (ppMEMs : List Nat) : World × Memory :=
  if _h : ppMEMs.length = 0 then (w, M) else
    let cMEMsChunk := min ppMEMs.length 0x1000
    let r := LeechRPC_WriteScatter_Impl L E ctxLC w M (ppMEMs.take cMEMsChunk)
    LeechRPC_WriteScatter L E ctxLC r.1 r.2 (ppMEMs.drop cMEMsChunk)
termination_by ppMEMs.length
decreasing_by
  simp only [List.length_drop]
  omega

/-! ## Agent commands and the check of untrusted VFS responses -/

/-- The constant `__VFS_FILELISTBLOB_VERSION`. -/
def __VFS_FILELISTBLOB_VERSION : Nat := 0xf88f0001

/-- The size `sizeof(__VFS_FILELISTBLOB_ENTRY)`: two `ULONG64` and 32 bytes. -/
def sizeof_VFS_FILELISTBLOB_ENTRY : Nat := 48

/-- The size `sizeof(__VFS_FILELISTBLOB)`: four `DWORD`, the 8-byte union and eight `DWORD`;
`FileEntry` starts at this offset. -/
def sizeof_VFS_FILELISTBLOB : Nat := 56

/-- The function `LeechRPC_Command_VerifyUntrustedVfsRsp`.  The result is the return value and the
message afterwards (the function stores into `pVfs->uszMultiText`).  `pRsp->pb` starts
`sizeof(LC_CMD_AGENT_VFS_RSP)` bytes into the payload; the blob fields are at the offsets
of the struct `__VFS_FILELISTBLOB`: `dwVersion` 0, `cbStruct` 4, `cFileEntry` 8,
`cbMultiText` 12, `uszMultiText` 16. -/
def LeechRPC_Command_VerifyUntrustedVfsRsp (L : Layout) (fCMD : Nat) (pMsgRsp : LEECHRPC_MSG) :
    Bool × LEECHRPC_MSG :=
  -- 1: general
  if pMsgRsp.cb < L.sizeof_LC_CMD_AGENT_VFS_RSP then (false, pMsgRsp) else
  let pRsp_dwVersion := rdDWORD pMsgRsp.pb L.VFS_RSP_dwVersion
  let pRsp_cbReadWrite := rdDWORD pMsgRsp.pb L.VFS_RSP_cbReadWrite
  let pRsp_cb := rdDWORD pMsgRsp.pb L.VFS_RSP_cb
  let pRsp_pb := L.sizeof_LC_CMD_AGENT_VFS_RSP
  if pRsp_dwVersion ≠ L.LC_CMD_AGENT_VFS_RSP_VERSION then (false, pMsgRsp) else
  if pMsgRsp.cb ≠ L.sizeof_LC_CMD_AGENT_VFS_RSP + pRsp_cb then (false, pMsgRsp) else
  -- 2: specific
  if fCMD = L.LC_CMD_AGENT_VFS_READ then (decide (pRsp_cbReadWrite = pRsp_cb), pMsgRsp)
  else if fCMD = L.LC_CMD_AGENT_VFS_WRITE then (decide (0 = pRsp_cb), pMsgRsp)
  else if fCMD = L.LC_CMD_AGENT_VFS_LIST then
    if pRsp_cb < sizeof_VFS_FILELISTBLOB then (false, pMsgRsp) else
    if rdBYTE pMsgRsp.pb (pRsp_pb + (pRsp_cb - 1)) ≠ 0 then (false, pMsgRsp) else
    let pVfs_dwVersion := rdDWORD pMsgRsp.pb pRsp_pb
    let pVfs_cbStruct := rdDWORD pMsgRsp.pb (pRsp_pb + 4)
    let pVfs_cFileEntry := rdDWORD pMsgRsp.pb (pRsp_pb + 8)
    let pVfs_cbMultiText := rdDWORD pMsgRsp.pb (pRsp_pb + 12)
    if pVfs_dwVersion ≠ __VFS_FILELISTBLOB_VERSION ∨ pRsp_cb ≠ pVfs_cbStruct
        ∨ pVfs_cbMultiText = 0 then (false, pMsgRsp) else
    if pRsp_cb ≠ sizeof_VFS_FILELISTBLOB + pVfs_cFileEntry * sizeof_VFS_FILELISTBLOB_ENTRY
        + pVfs_cbMultiText then (false, pMsgRsp) else
    if rdBYTE pMsgRsp.pb (pRsp_pb + (sizeof_VFS_FILELISTBLOB
        + pVfs_cFileEntry * sizeof_VFS_FILELISTBLOB_ENTRY)) ≠ 0 then (false, pMsgRsp) else
    let pb1 := wrQWORD pMsgRsp.pb (pRsp_pb + 16)
      (sizeof_VFS_FILELISTBLOB + pVfs_cFileEntry * sizeof_VFS_FILELISTBLOB_ENTRY)
    let pMsgRsp1 := { pMsgRsp with pb := pb1 }
    if (List.range pVfs_cFileEntry).all (fun i =>
        decide (rdQWORD pb1 (pRsp_pb + sizeof_VFS_FILELISTBLOB
          + i * sizeof_VFS_FILELISTBLOB_ENTRY) < rdDWORD pb1 (pRsp_pb + 12)))
    then (true, pMsgRsp1) else (false, pMsgRsp1)
  else (false, pMsgRsp)

/-- The request of lines 532-540 of `LeechRPC_Command`. -/
def Command_request (L : Layout) (E : Env) (fCMD cbDataIn : Nat) (pbDataIn : Option Bytes) :
    LEECHRPC_MSG :=
  { tpMsg := L.LEECHRPC_MSGTYPE_COMMAND_REQ
    cb := cbDataIn
    qwData0 := fCMD
    qwData1 := 0
    pb := match pbDataIn with
      | some d => memcpy (freshBlock E cbDataIn) d cbDataIn
      | none => freshBlock E cbDataIn }

/-- The result of `LeechRPC_Command`: the world afterwards, the return value and the
content of the two out-parameters. -/
structure CommandResult where
  world : World
  result : Bool
  pbDataOut : Option (Option Bytes)
  cbDataOut : Option Nat

/-- The function `LeechRPC_Command`.  `pbDataIn = none` is a null input pointer.  For each of the
out-parameters `ppbDataOut` and `pcbDataOut`, `none` is a null pointer and `some v` a
pointer to a variable that holds `v` at the call. -/
def LeechRPC_Command (L : Layout) (E : Env) (ctxLC : LC_CONTEXT) (w : World)
    (fCMD cbDataIn : Nat) (pbDataIn : Option Bytes)
    (ppbDataOut : Option (Option Bytes)) (pcbDataOut : Option Nat) : CommandResult :=
  -- 1: prepare message to send
  if pbDataIn = none ∧ cbDataIn ≠ 0 then
    { world := w, result := false, pbDataOut := ppbDataOut, cbDataOut := pcbDataOut }
  else
  -- 2: transmit & get result
  let r := LeechRPC_SubmitCommand L E ctxLC w (Command_request L E fCMD cbDataIn pbDataIn)
    L.LEECHRPC_MSGTYPE_COMMAND_RSP
  let fail : CommandResult :=
    { world := r.1, result := false, pbDataOut := ppbDataOut,
      cbDataOut := pcbDataOut.map (fun _ => 0) }
  match r.2 with
  | (true, some pMsgRsp) =>
    let v := if fCMD = L.LC_CMD_AGENT_VFS_LIST ∨ fCMD = L.LC_CMD_AGENT_VFS_READ
          ∨ fCMD = L.LC_CMD_AGENT_VFS_WRITE
      then LeechRPC_Command_VerifyUntrustedVfsRsp L fCMD pMsgRsp
      else (true, pMsgRsp)
    if v.1 then
      { world := r.1, result := true,
        pbDataOut := ppbDataOut.map (fun _ => some (readBytes v.2.pb 0 v.2.cb)),
        cbDataOut := pcbDataOut.map (fun _ => v.2.cb) }
    else fail
  | _ => fail

/-! ## Open and close -/

/-- The string a `CHAR` array holds: its bytes up to the first NUL. -/
def cstr (a : Bytes) : Bytes := a.takeWhile (fun c => decide (c ≠ 0))

/-- The lower-case form of a character, as the C runtime folds the case of the
letters `A` to `Z`. -/
def tolower (c : Nat) : Nat := if 65 ≤ c ∧ c ≤ 90 then c + 32 else c

/-- The comparison `_stricmp(sz1, sz2)`: `0` when the two strings are equal up to case;
only the test against `0` is used. -/
def _stricmp (sz1 sz2 : Bytes) : Nat :=
  if (cstr sz1).map tolower = (cstr sz2).map tolower then 0 else 1

/-- The comparison `_strnicmp(sz1, sz2, n)`: `0` when the first `n` characters of the two
strings are equal up to case; only the test against `0` is used. -/
def _strnicmp (sz1 sz2 : Bytes) (n : Nat) : Nat :=
  if ((cstr sz1).take n).map tolower = ((cstr sz2).take n).map tolower then 0 else 1

/-- The array `dst` after `strncpy_s(dst, sizeof(dst), src, _TRUNCATE)`: as much of the
string of `src` as fits, then a NUL; the bytes behind it are kept. -/
def strncpy_s (dst src : Bytes) : Bytes :=
  if dst.length = 0 then dst
  else (cstr src).take (dst.length - 1) ++ [0]
    ++ dst.drop (((cstr src).take (dst.length - 1)).length + 1)

/-- The buffer `b` after a two-byte store of `v` at offset `off`. -/
def wrWORD (b : Bytes) (off v : Nat) : Bytes :=
  readBytes b 0 off ++ [v % 256, v / 256 % 256] ++ b.drop (off + 2)

/-- The literal `"rpc"`. -/
def sz_rpc : Bytes := [114, 112, 99]

/-- The literal `"pipe"`. -/
def sz_pipe : Bytes := [112, 105, 112, 101]

/-- The literal `"insecure"`. -/
def sz_insecure : Bytes := [105, 110, 115, 101, 99, 117, 114, 101]

/-- The literal `"nocompress"`. -/
def sz_nocompress : Bytes := [110, 111, 99, 111, 109, 112, 114, 101, 115, 115]

/-- The literal `"port="`. -/
def sz_port : Bytes := [112, 111, 114, 116, 61]

/-- The literal `"existingremote"`. -/
def sz_existingremote : Bytes :=
  [101, 120, 105, 115, 116, 105, 110, 103, 114, 101, 109, 111, 116, 101]

/-- The function `LeechRPC_Ping`: the world afterwards and the return value. -/
def LeechRPC_Ping (L : Layout) (E : Env) (ctxLC : LC_CONTEXT) (w : World) : World × Bool :=
  let r := LeechRPC_SubmitCommand L E ctxLC w { tpMsg := L.LEECHRPC_MSGTYPE_PING_REQ }
    L.LEECHRPC_MSGTYPE_PING_RSP
  (r.1, r.2.1)

/-- The function `LeechRPC_RpcClose`. -/
def LeechRPC_RpcClose (ctx : LEECHRPC_CLIENT_CONTEXT) : LEECHRPC_CLIENT_CONTEXT :=
  { ctx with hRPC := false, szStringBinding := false }

/-- The function `LeechRPC_Close`.  With a null `hDevice` it returns at once; otherwise it
stops the keepalive loop, submits a `CLOSE_REQ`, closes the handles of the session,
frees it and sets `hDevice` to null. -/
def LeechRPC_Close (L : Layout) (E : Env) (ctxLC : LC_CONTEXT) (w : World) :
    LC_CONTEXT × World :=
  match ctxLC.hDevice with
  | none => (ctxLC, w)
  | some ctx =>
    let ctx1 := { ctx with fHousekeeperThread := false }
    let r := LeechRPC_SubmitCommand L E { ctxLC with hDevice := some ctx1 } w
      { tpMsg := L.LEECHRPC_MSGTYPE_CLOSE_REQ } L.LEECHRPC_MSGTYPE_CLOSE_RSP
    ({ ctxLC with hDevice := none }, r.1)

/-- The function `LeechRPC_RpcInitialize`: the session afterwards and the return value. -/
def LeechRPC_RpcInitialize (ctx : LEECHRPC_CLIENT_CONTEXT) (w : World) :
    LEECHRPC_CLIENT_CONTEXT × Bool :=
  let ctx0 := LeechRPC_RpcClose ctx
  if w.rpcStatusCompose ≠ 0 then (LeechRPC_RpcClose ctx0, false) else
  let ctx1 := { ctx0 with szStringBinding := true }
  if w.rpcStatusBinding ≠ 0 then (LeechRPC_RpcClose ctx1, false) else
  let ctx2 := { ctx1 with hRPC := true }
  if ctx2.fAllowInsecure = false ∧ w.rpcStatusAuth ≠ 0 then (LeechRPC_RpcClose ctx2, false) else
  ({ ctx2 with fIsRpc := true }, true)

/-- Lines 600-610 of `LeechRpc_Open`: the options of the third argument.  The state of
the loop is `(ctxLC->Rpc.fCompress, dwPort)`; a null string is read as an empty one. -/
def LeechRpc_Open_options (E : Env) (szArg3 : Bytes) (fCompress : Bool) : Bool × Nat :=
  if szArg3.headD 0 ≠ 0 then
    let szOpt := E.Util_Split3 szArg3 44
    [szOpt.1, szOpt.2.1, szOpt.2.2].foldl
      (fun st o =>
        (if _stricmp sz_nocompress (o.getD []) = 0 then false else st.1,
         if _strnicmp sz_port (o.getD []) 5 = 0 then E.atoi ((o.getD []).drop 5) else st.2))
      (fCompress, 0)
  else (fCompress, 0)

/-- Lines 584-622 of `LeechRpc_Open`, the branch of the device name `rpc`: the
context, the world and whether the branch got through (`false` is `goto fail`). -/
def LeechRpc_Open_rpc (L : Layout) (E : Env) (ctxLC : LC_CONTEXT)
    (ctx : LEECHRPC_CLIENT_CONTEXT) (w : World) : LC_CONTEXT × World × Bool :=
  -- RPC SPECIFIC INITIALIZATION BELOW:
  let ctxLC1 := { ctxLC with Rpc_fCompress := !ctxLC.Config.fRemoteDisableCompress }
  let a := E.Util_Split3 (ctxLC.Config.szRemote.drop 6) 58
  match a.1, a.2.1 with
  | some szArg1, some szArg2 =>
    if szArg1.headD 0 = 0 ∨ szArg2.headD 0 = 0 then (ctxLC1, w, false) else
    let ctx1 := if _stricmp sz_insecure szArg1 = 0 then { ctx with fAllowInsecure := true }
                else { ctx with szRemoteSPN := cstr szArg1 }
    let ctx2 := { ctx1 with szTcpAddr := cstr szArg2 }
    let o := LeechRpc_Open_options E (a.2.2.getD []) ctxLC1.Rpc_fCompress
    let ctxLC2 := { ctxLC1 with Rpc_fCompress := o.1 }
    let dwPort := if o.2 = 0 then 28473 else o.2
    let ctx3 := { ctx2 with szTcpPort := dwPort }
    let i := LeechRPC_RpcInitialize ctx3 w
    let ctxLC3 := { ctxLC2 with hDevice := some i.1 }
    if i.2 = false then (ctxLC3, w, false) else
    let p := LeechRPC_Ping L E ctxLC3 w
    (ctxLC3, p.1, p.2)
  | _, _ => (ctxLC1, w, false)

/-- Lines 623-636 of `LeechRpc_Open`, the branch of the device name `pipe`. -/
def LeechRpc_Open_pipe (L : Layout) (E : Env) (ctxLC : LC_CONTEXT)
    (ctx : LEECHRPC_CLIENT_CONTEXT) (w : World) : LC_CONTEXT × World × Bool :=
  -- PIPE SPECIFIC INITIALIZATION BELOW:
  let a := E.Util_Split2 (ctxLC.Config.szRemote.drop 7) 58
  match a.1, a.2 with
  | some szArg1, some szArg2 =>
    let ctx1 := { ctx with hPipeMem_Rd := E._atoi64 szArg1, hPipeMem_Wr := E._atoi64 szArg2 }
    let ctxLC1 := { ctxLC with hDevice := some ctx1 }
    if ctx1.hPipeMem_Rd = 0 ∨ ctx1.hPipeMem_Wr = 0 then (ctxLC1, w, false) else
    let p := LeechRPC_Ping L E ctxLC1 w
    if p.2 = false then (ctxLC1, p.1, false) else
    ({ ctxLC1 with Rpc_fCompress := false }, p.1, true)
  | _, _ => (ctxLC, w, false)

/-- Lines 581-638 of `LeechRpc_Open`: the session is allocated, zeroed and stored in
`hDevice`, then set up by the branch of the device name. -/
def LeechRpc_Open_transport (L : Layout) (E : Env) (ctxLC : LC_CONTEXT) (w : World) :
    LC_CONTEXT × World × Bool :=
  let ctxLC0 := { ctxLC with hDevice := some {} }
  if _stricmp ctxLC0.Config.szDeviceName sz_rpc = 0 then LeechRpc_Open_rpc L E ctxLC0 {} w
  else if _stricmp ctxLC0.Config.szDeviceName sz_pipe = 0 then LeechRpc_Open_pipe L E ctxLC0 {} w
  else (ctxLC0, w, false)

/-- The loop of lines 641-644 from index `i` on, with `fuel` rounds left. -/
def LeechRpc_Open_existingremote_loop : Nat → Nat → Bytes → Bytes
  | 0, _, szDevice => szDevice
  | fuel + 1, i, szDevice =>
    if i < szDevice.length then
      if szDevice.getD i 0 = 0 then szDevice.set (i - 6) (szDevice.getD i 0)
      else LeechRpc_Open_existingremote_loop fuel (i + 1) (szDevice.set (i - 6) (szDevice.getD i 0))
    else szDevice

/-- Lines 640-645 of `LeechRpc_Open` on the array `ctxLC->Config.szDevice`; the loop
runs from 14 to the end of the array at most. -/
def LeechRpc_Open_existingremote (szDevice : Bytes) : Bytes :=
  if _strnicmp szDevice sz_existingremote 14 = 0 then
    LeechRpc_Open_existingremote_loop (szDevice.length - 14) 14 szDevice
  else szDevice

/-- Lines 640-650 of `LeechRpc_Open`: the device string is rewritten, compression is
initialised when it is still wanted, and a client id is drawn. -/
def LeechRpc_Open_negotiate (ctxLC : LC_CONTEXT) (w : World) : LC_CONTEXT :=
  let fCompress := ctxLC.Rpc_fCompress && w.fCompressInitialize
  { ctxLC with
    Rpc_fCompress := fCompress,
    Rpc_dwRpcClientId := w.random,
    Config := { ctxLC.Config with
      szDevice := LeechRpc_Open_existingremote ctxLC.Config.szDevice,
      fRemoteDisableCompress := ctxLC.Config.fRemoteDisableCompress && !fCompress } }

/-- Lines 651-654 of `LeechRpc_Open`: the request `MsgReq`. -/
def LeechRpc_Open_request (L : Layout) (ctxLC : LC_CONTEXT) : LEECHRPC_MSG :=
  { tpMsg := L.LEECHRPC_MSGTYPE_OPEN_REQ,
    cfg := { ctxLC.Config with
      szRemote := List.replicate ctxLC.Config.szRemote.length 0,
      pfn_printf_opt := 0 } }

/-- Lines 660-665 of `LeechRpc_Open`: the value stored in `*ppLcCreateErrorInfo` for a
response that is not a valid open; `none` leaves it `NULL`. -/
def LeechRpc_Open_errorinfo (L : Layout) (pMsgRsp : LEECHRPC_MSG) : Option Bytes :=
  let cbStruct := rdDWORD pMsgRsp.errorinfo L.ERRORINFO_cbStruct
  let cwszUserText := rdDWORD pMsgRsp.errorinfo L.ERRORINFO_cwszUserText
  if rdDWORD pMsgRsp.errorinfo L.ERRORINFO_dwVersion = L.LC_CONFIG_ERRORINFO_VERSION
      ∧ cbStruct < pMsgRsp.cbMsg
      ∧ cwszUserText * 2 + L.sizeof_LC_CONFIG_ERRORINFO < cbStruct then
    some (memcpy (List.replicate cbStruct 0)
      (wrWORD pMsgRsp.errorinfo (L.ERRORINFO_wszUserText + 2 * cwszUserText) 0) cbStruct)
  else none

/-- What `LeechRpc_Open` leaves behind. -/
structure OpenResult where
  ctxLC : LC_CONTEXT
  world : World
  /-- The return value. -/
  result : Bool
  /-- The value of `*ppLcCreateErrorInfo`; `none` is `NULL`. -/
  errorInfo : Option Bytes
deriving DecidableEq, Repr

/-- The label `fail` of `LeechRpc_Open`. -/
def LeechRpc_Open_fail (L : Layout) (E : Env) (ctxLC : LC_CONTEXT) (w : World)
    (errorInfo : Option Bytes) : OpenResult :=
  { ctxLC := (LeechRPC_Close L E ctxLC w).1, world := (LeechRPC_Close L E ctxLC w).2,
    result := false, errorInfo := errorInfo }

/-- Lines 659-696 of `LeechRpc_Open`: what is done with the response to the open
request.  The keepalive thread that line 680 starts runs beside the caller. -/
def LeechRpc_Open_finish (L : Layout) (E : Env) (ctxLC : LC_CONTEXT) (w : World)
    (pMsgRsp : LEECHRPC_MSG) : OpenResult :=
  if pMsgRsp.fValidOpen = false then
    LeechRpc_Open_fail L E ctxLC w (LeechRpc_Open_errorinfo L pMsgRsp)
  -- sanity check positive result from remote service
  else if pMsgRsp.cfg.dwVersion ≠ L.LC_CONFIG_VERSION then LeechRpc_Open_fail L E ctxLC w none
  else
    let ctxLC1 :=
      if ctxLC.Rpc_fCompress = true ∧ pMsgRsp.cfg.fRemoteDisableCompress = true then
        { ctxLC with Config := { ctxLC.Config with fRemoteDisableCompress := true },
                     Rpc_fCompress := false }
      else ctxLC
    -- all ok - initialize this rpc device stub.
    let cfgRsp := { pMsgRsp.cfg with
      szRemote := strncpy_s pMsgRsp.cfg.szRemote ctxLC1.Config.szRemote }
    { ctxLC := { ctxLC1 with
        Config := { cfgRsp with pfn_printf_opt := ctxLC1.Config.pfn_printf_opt, fRemote := true },
        fMultiThread := match ctxLC1.hDevice with
          | some ctx => ctx.fIsRpc
          | none => false,
        pfnDeviceStub := true },
      world := w, result := true, errorInfo := none }

/-- The function `LeechRpc_Open`, called with a non-null `ppLcCreateErrorInfo`. -/
def LeechRpc_Open (L : Layout) (E : Env) (ctxLC : LC_CONTEXT) (w : World) : OpenResult :=
  match LeechRpc_Open_transport L E ctxLC w with
  | (ctxLC1, w1, false) => LeechRpc_Open_fail L E ctxLC1 w1 none
  | (ctxLC1, w1, true) =>
    -- call open on the remote service
    match LeechRPC_SubmitCommand L E (LeechRpc_Open_negotiate ctxLC1 w1) w1
        (LeechRpc_Open_request L (LeechRpc_Open_negotiate ctxLC1 w1))
        L.LEECHRPC_MSGTYPE_OPEN_RSP with
    | (w2, true, some pMsgRsp) =>
      LeechRpc_Open_finish L E (LeechRpc_Open_negotiate ctxLC1 w1) w2 pMsgRsp
    | (w2, _, _) => LeechRpc_Open_fail L E (LeechRpc_Open_negotiate ctxLC1 w1) w2 none

/-! ## Keepalive worker -/

/-- One round of the loop of `LeechRPC_KeepaliveThreadClient` (lines 194-204) on the
`DWORD` counter `c` and the world: the counter is incremented, a `KEEPALIVE_REQ` is
submitted when it is a multiple of `10 * 15`, its result is dropped; `Sleep(100)` is
one tick of the clock. -/
def LeechRPC_KeepaliveThreadClient_round (L : Layout) (E : Env) (ctxLC : LC_CONTEXT)
    (s : Nat × World) : Nat × World :=
  if (s.1 + 1) % 4294967296 % (10 * 15) = 0 then
    -- send keepalive every 15s
    ((s.1 + 1) % 4294967296,
     (LeechRPC_SubmitCommand L E ctxLC s.2 { tpMsg := L.LEECHRPC_MSGTYPE_KEEPALIVE_REQ }
        L.LEECHRPC_MSGTYPE_KEEPALIVE_RSP).1)
  else ((s.1 + 1) % 4294967296, s.2)

/-- The loop `while(ctx->fHousekeeperThread)` of `LeechRPC_KeepaliveThreadClient`.  The
list holds the values that the successive tests of the flag read (another thread clears
the flag).  The result tells whether the loop is still running when the list ends, and
gives the counter and the world. -/
def LeechRPC_KeepaliveThreadClient_loop (L : Layout) (E : Env) (ctxLC : LC_CONTEXT) :
    List Bool → Nat × World → Bool × Nat × World
  | [], s => (true, s)
  | false :: _, s => (false, s)
  | true :: fs, s =>
    LeechRPC_KeepaliveThreadClient_loop L E ctxLC fs
      (LeechRPC_KeepaliveThreadClient_round L E ctxLC s)

/-- The function `LeechRPC_KeepaliveThreadClient`, observed as far as the readings
`fHousekeeperThread` of the flag go (the model has no run with a null `hDevice`, which
the source dereferences). -/
def LeechRPC_KeepaliveThreadClient (L : Layout) (E : Env) (ctxLC : LC_CONTEXT) (w : World)
    (fHousekeeperThread : List Bool) : LC_CONTEXT × World :=
  match ctxLC.hDevice with
  | none => (ctxLC, w)
  | some ctx =>
    let ctx1 : LEECHRPC_CLIENT_CONTEXT :=
      { ctx with fHousekeeperThread := true, fHousekeeperThreadIsRunning := true }
    let r := LeechRPC_KeepaliveThreadClient_loop L E { ctxLC with hDevice := some ctx1 }
      fHousekeeperThread (0, w)
    let ctx2 : LEECHRPC_CLIENT_CONTEXT :=
      { ctx with fHousekeeperThread := r.1, fHousekeeperThreadIsRunning := r.1 }
    ({ ctxLC with hDevice := some ctx2 }, r.2.2)

/-! ## Reference notions used to state the properties -/

/-- The nine request kinds of the switch at the head of `LeechRPC_SubmitCommand`. -/
def requestKinds (L : Layout) : List Nat :=
  [L.LEECHRPC_MSGTYPE_PING_REQ, L.LEECHRPC_MSGTYPE_CLOSE_REQ, L.LEECHRPC_MSGTYPE_KEEPALIVE_REQ,
   L.LEECHRPC_MSGTYPE_OPEN_REQ, L.LEECHRPC_MSGTYPE_GETOPTION_REQ,
   L.LEECHRPC_MSGTYPE_SETOPTION_REQ, L.LEECHRPC_MSGTYPE_READSCATTER_REQ,
   L.LEECHRPC_MSGTYPE_WRITESCATTER_REQ, L.LEECHRPC_MSGTYPE_COMMAND_REQ]

/-- The nine response kinds of the switch at the end of `LeechRPC_SubmitCommand`.  An `enum`
gives them distinct values, without which the `switch` would not compile. -/
def responseKinds (L : Layout) : List Nat :=
  [L.LEECHRPC_MSGTYPE_PING_RSP, L.LEECHRPC_MSGTYPE_CLOSE_RSP, L.LEECHRPC_MSGTYPE_KEEPALIVE_RSP,
   L.LEECHRPC_MSGTYPE_SETOPTION_RSP, L.LEECHRPC_MSGTYPE_OPEN_RSP,
   L.LEECHRPC_MSGTYPE_GETOPTION_RSP, L.LEECHRPC_MSGTYPE_READSCATTER_RSP,
   L.LEECHRPC_MSGTYPE_WRITESCATTER_RSP, L.LEECHRPC_MSGTYPE_COMMAND_RSP]

/-- A binary request as `LeechRPC_SubmitCommand` hands it to the compression adapter: magic,
result flag and `cbMsg` are stamped. -/
def stampBin (L : Layout) (m : LEECHRPC_MSG) : LEECHRPC_MSG :=
  { m with dwMagic := L.LEECHRPC_MSGMAGIC, fMsgResult := true,
           cbMsg := (L.sizeof_LEECHRPC_MSG_BIN + m.cb) % 4294967296 }

/-- A prepared request as `LeechRPC_SubmitCommand` hands it to the transport of the session:
client id and flags are stamped. -/
def stampWire (L : Layout) (ctxLC : LC_CONTEXT) (ctx : LEECHRPC_CLIENT_CONTEXT)
    (m : LEECHRPC_MSG) : LEECHRPC_MSG :=
  { m with dwRpcClientID := ctxLC.Rpc_dwRpcClientId,
           flags := if ctx.fIsRpc = true ∧ ctxLC.Rpc_fCompress = true then 0
                    else L.LEECHRPC_FLAG_NOCOMPRESS }

/-- The events one call of `LeechRPC_SubmitCommand` with the binary request `req` adds to the
trace before the transport returns: one call of the compression adapter, one message
handed to the transport. -/
def binRequestEvents (L : Layout) (E : Env) (ctxLC : LC_CONTEXT) (ctx : LEECHRPC_CLIENT_CONTEXT)
    (req : LEECHRPC_MSG) : List Event :=
  [Event.compress (stampBin L req) (!ctxLC.Rpc_fCompress),
   Event.transport ctx.fIsRpc
     (stampWire L ctxLC ctx (E.LeechRPC_Compress (stampBin L req) (!ctxLC.Rpc_fCompress)))]

/-- Events that are calls of the decoder. -/
def Event.isDecompress : Event → Bool
  | Event.decompress _ => true
  | _ => false

/-- The number of pending descriptors before position `i`: the index of the response
descriptor that is aligned with input `i`. -/
def pendingBefore (L : Layout) (ms : List MEM_SCATTER) (i : Nat) : Nat :=
  ((ms.take i).filter (MEM_pending L)).length

/-- The sum of the lengths of the descriptors before position `i`. -/
def dataOffset (ms : List MEM_SCATTER) (i : Nat) : Nat :=
  ((ms.take i).map (fun m => m.cb)).sum

/-- The `j`-th slice of 4096 pointers of an array. -/
def sliceAt (ms : List Nat) (j : Nat) : List Nat :=
  (ms.drop (4096 * j)).take 4096

/-- The slices of an array of `N` pointers: `ceil(N / 4096)` of them. -/
def slices (ms : List Nat) : List (List Nat) :=
  (List.range ((ms.length + 4095) / 4096)).map (sliceAt ms)

/-- Running a per-chunk routine on every chunk of a list of chunks, one after the other,
whatever the earlier runs did: every run starts in the world and the memory that the
run before it left. -/
def runChunks (impl : World → Memory → List Nat → World × Memory) :
    World → Memory → List (List Nat) → World × Memory
  | w, M, [] => (w, M)
  | w, M, c :: cs => runChunks impl (impl w M c).1 (impl w M c).2 cs

/-- The buffers of two descriptors share no byte: one of them is empty, or one ends
before the other begins. -/
def MEM_disjoint (m n : MEM_SCATTER) : Prop :=
  m.cb = 0 ∨ n.cb = 0 ∨ m.pb + m.cb ≤ n.pb ∨ n.pb + n.cb ≤ m.pb

/-- Two entries `p` and `q` of an array of pointers do not interfere in a scatter read:
when one of them points to a pending descriptor, they are different pointers and the
buffers of their descriptors share no byte. -/
def MEM_separate (L : Layout) (scatter : Nat → MEM_SCATTER) (p q : Nat) : Prop :=
  MEM_pending L (scatter p) = true ∨ MEM_pending L (scatter q) = true →
    p ≠ q ∧ MEM_disjoint (scatter p) (scatter q)

instance MEM_disjoint.decidable (m n : MEM_SCATTER) : Decidable (MEM_disjoint m n) :=
  inferInstanceAs (Decidable (m.cb = 0 ∨ n.cb = 0 ∨ m.pb + m.cb ≤ n.pb ∨ n.pb + n.cb ≤ m.pb))

instance MEM_separate.decidable (L : Layout) (scatter : Nat → MEM_SCATTER) (p q : Nat) :
    Decidable (MEM_separate L scatter p q) :=
  inferInstanceAs (Decidable (MEM_pending L (scatter p) = true
    ∨ MEM_pending L (scatter q) = true → p ≠ q ∧ MEM_disjoint (scatter p) (scatter q)))

/-- The envelope of a response as the specification lists it: non-null, length equal to
the bytes received, magic, kind at most `MAX_KIND`, length below 256 MiB, `ok` set, kind
equal to the expected one. -/
def EnvelopeOK (L : Layout) (cbMsgOut : Nat) (ppMsgOut : Option LEECHRPC_MSG) (tpMsgRsp : Nat) :
    Prop :=
  ∃ m, ppMsgOut = some m ∧ m.cbMsg = cbMsgOut ∧ m.dwMagic = L.LEECHRPC_MSGMAGIC
    ∧ m.tpMsg ≤ L.LEECHRPC_MSGTYPE_MAX ∧ m.cbMsg < 268435456 ∧ m.fMsgResult = true
    ∧ m.tpMsg = tpMsgRsp

/-- The size rule of a response by kind, as the specification lists it: the kind is one of
the nine response kinds, and the length is the one its kind asks for. -/
def SizeByKindOK (L : Layout) (m : LEECHRPC_MSG) : Prop :=
  m.tpMsg ∈ responseKinds L
  ∧ ((m.tpMsg = L.LEECHRPC_MSGTYPE_PING_RSP ∨ m.tpMsg = L.LEECHRPC_MSGTYPE_CLOSE_RSP
      ∨ m.tpMsg = L.LEECHRPC_MSGTYPE_KEEPALIVE_RSP ∨ m.tpMsg = L.LEECHRPC_MSGTYPE_SETOPTION_RSP)
    → m.cbMsg = L.sizeof_LEECHRPC_MSG_HDR)
  ∧ (m.tpMsg = L.LEECHRPC_MSGTYPE_OPEN_RSP → L.sizeof_LEECHRPC_MSG_OPEN ≤ m.cbMsg)
  ∧ (m.tpMsg = L.LEECHRPC_MSGTYPE_GETOPTION_RSP → m.cbMsg = L.sizeof_LEECHRPC_MSG_DATA)
  ∧ ((m.tpMsg = L.LEECHRPC_MSGTYPE_READSCATTER_RSP ∨ m.tpMsg = L.LEECHRPC_MSGTYPE_WRITESCATTER_RSP
      ∨ m.tpMsg = L.LEECHRPC_MSGTYPE_COMMAND_RSP)
    → m.cbMsg = L.sizeof_LEECHRPC_MSG_BIN + m.cb)

/-- The checks of the specification on a `VFS_LIST` response payload `pb` of `cb` bytes,
in its words: the inner buffer is what follows the `LC_CMD_AGENT_VFS_RSP` header, and
`inner_cb` is the `cb` field of that header. -/
def VfsListOK (L : Layout) (cb : Nat) (pb : Bytes) : Prop :=
  let inner := pb.drop L.sizeof_LC_CMD_AGENT_VFS_RSP
  let inner_cb := rdDWORD pb L.VFS_RSP_cb
  let cFileEntry := rdDWORD inner 8
  let cbMultiText := rdDWORD inner 12
  L.sizeof_LC_CMD_AGENT_VFS_RSP ≤ cb
  ∧ rdDWORD pb L.VFS_RSP_dwVersion = L.LC_CMD_AGENT_VFS_RSP_VERSION
  ∧ cb = L.sizeof_LC_CMD_AGENT_VFS_RSP + inner_cb
  ∧ sizeof_VFS_FILELISTBLOB ≤ inner_cb
  ∧ rdBYTE inner (inner_cb - 1) = 0
  ∧ rdDWORD inner 0 = __VFS_FILELISTBLOB_VERSION
  ∧ inner_cb = rdDWORD inner 4
  ∧ 0 < cbMultiText
  ∧ inner_cb = sizeof_VFS_FILELISTBLOB + cFileEntry * sizeof_VFS_FILELISTBLOB_ENTRY + cbMultiText
  ∧ rdBYTE inner (sizeof_VFS_FILELISTBLOB + cFileEntry * sizeof_VFS_FILELISTBLOB_ENTRY) = 0
  ∧ ∀ i, i < cFileEntry →
      rdQWORD inner (sizeof_VFS_FILELISTBLOB + i * sizeof_VFS_FILELISTBLOB_ENTRY) < cbMultiText

/-- The checks of the specification that are common to the three VFS commands: `cb`
covers the `LC_CMD_AGENT_VFS_RSP` header, the version is right, and `cb` is the header
plus `inner_cb`, the `cb` field of that header. -/
def VfsCommonOK (L : Layout) (cb : Nat) (pb : Bytes) : Prop :=
  L.sizeof_LC_CMD_AGENT_VFS_RSP ≤ cb
  ∧ rdDWORD pb L.VFS_RSP_dwVersion = L.LC_CMD_AGENT_VFS_RSP_VERSION
  ∧ cb = L.sizeof_LC_CMD_AGENT_VFS_RSP + rdDWORD pb L.VFS_RSP_cb

/-- The number of bytes a call has taken from the read handle. -/
def pipeConsumed (w w1 : World) : Nat :=
  w.pipeReads.flatten.length - w1.pipeReads.flatten.length

/-- A header-only request of kind `tp` as `LeechRPC_SubmitCommand` hands it to the
transport layer: magic, result flag and the length of a header are stamped. -/
def stampHdr (L : Layout) (tp : Nat) : LEECHRPC_MSG :=
  { tpMsg := tp, dwMagic := L.LEECHRPC_MSGMAGIC, fMsgResult := true,
    cbMsg := L.sizeof_LEECHRPC_MSG_HDR }

/-- Whether `nocompress` is one of the up to three options of the option string
`szArg3`, up to case. -/
def optionNocompress (E : Env) (szArg3 : Bytes) : Bool :=
  decide (szArg3.headD 0 ≠ 0)
    && [(E.Util_Split3 szArg3 44).1, (E.Util_Split3 szArg3 44).2.1,
        (E.Util_Split3 szArg3 44).2.2].any
          (fun o => decide ((cstr (o.getD [])).map tolower = sz_nocompress))

/-- The option string of a remote descriptor `rpc://spn:host:options`. -/
def remoteOptions (E : Env) (szRemote : Bytes) : Bytes :=
  (E.Util_Split3 (szRemote.drop 6) 58).2.2.getD []

/-- The number of ticks among the first `n` ticks of the keepalive worker at which its
32-bit counter is a multiple of 150: 28633116 in every full turn of the counter (the
multiples of 150 below `2 ^ 32`, zero included), and those met in the current turn. -/
def keepaliveTicks (n : Nat) : Nat :=
  n / 4294967296 * 28633116 + n % 4294967296 / 150

/-- The bounds of the specification for a read of a response payload of `cb` bytes that
begins with `count_valid` descriptors: a descriptor read is one of these descriptors and
is made with a cursor between the end of the descriptors and `cb`; a copied range begins
behind the descriptors, ends inside the payload and has at most 4096 bytes. -/
def PayloadRead.InBounds (L : Layout) (count_valid cb : Nat) : PayloadRead → Prop
  | PayloadRead.descriptor k cursor =>
    k < count_valid ∧ (k + 1) * L.sizeof_MEM_SCATTER ≤ count_valid * L.sizeof_MEM_SCATTER
      ∧ count_valid * L.sizeof_MEM_SCATTER ≤ cb
      ∧ count_valid * L.sizeof_MEM_SCATTER ≤ cursor ∧ cursor ≤ cb
  | PayloadRead.copy cursor length =>
    count_valid * L.sizeof_MEM_SCATTER ≤ cursor ∧ cursor + length ≤ cb ∧ length ≤ 4096

/-- A session whose two keepalive flags, `fHousekeeperThread` and
`fHousekeeperThreadIsRunning`, both have the value `f`. -/
def housekeeper (ctx : LEECHRPC_CLIENT_CONTEXT) (f : Bool) : LEECHRPC_CLIENT_CONTEXT :=
  { ctx with fHousekeeperThread := f, fHousekeeperThreadIsRunning := f }

/-! ## A concrete layout, used to evaluate the definitions -/

/-- The four little-endian bytes of a 32-bit value. -/
def bytesDWORD (v : Nat) : Bytes :=
  (List.range 4).map (fun i => v / 256 ^ i % 256)

/-- A string up to the first delimiter `ch`, and what follows that delimiter. -/
def sampleSplit (sz : Bytes) (ch : Nat) : Bytes × Bytes :=
  ((cstr sz).takeWhile (fun c => decide (c ≠ ch)),
   ((cstr sz).dropWhile (fun c => decide (c ≠ ch))).drop 1)

/-- The number written in decimal at the head of a string. -/
def sampleAtoi (sz : Bytes) : Nat :=
  ((cstr sz).takeWhile (fun c => decide (48 ≤ c ∧ c ≤ 57))).foldl
    (fun n c => 10 * n + (c - 48)) 0

/-- A layout with a 24-byte header (magic, length, kind, result, client id, flags), a
binary body of two `QWORD` slots, `cbDecompress` and `cb`, and a 128-byte `MEM_SCATTER`
(version, `f`, `qwA`, the pointer `pb`, `cb`, stack); the stack is written as zero
bytes.  The body of an open message is `fValidOpen`, a configuration
record of 68 bytes (version, `fRemote`, `fRemoteDisableCompress`, the callback slot,
16 bytes of `szDevice`, 24 of `szRemote`, 8 of `szDeviceName`) and the error
information: version, `cbStruct`, 16 reserved `DWORD`s, `fUserInputRequest`,
`cwszUserText`, and the text from offset 80 on. -/
def sampleLayout : Layout where
  LEECHRPC_MSGMAGIC := 0xd05a2666
  LEECHRPC_MSGTYPE_MAX := 18
  LEECHRPC_FLAG_NOCOMPRESS := 1
  LEECHRPC_MSGTYPE_PING_REQ := 1
  LEECHRPC_MSGTYPE_PING_RSP := 2
  LEECHRPC_MSGTYPE_OPEN_REQ := 3
  LEECHRPC_MSGTYPE_OPEN_RSP := 4
  LEECHRPC_MSGTYPE_CLOSE_REQ := 5
  LEECHRPC_MSGTYPE_CLOSE_RSP := 6
  LEECHRPC_MSGTYPE_READSCATTER_REQ := 7
  LEECHRPC_MSGTYPE_READSCATTER_RSP := 8
  LEECHRPC_MSGTYPE_WRITESCATTER_REQ := 9
  LEECHRPC_MSGTYPE_WRITESCATTER_RSP := 10
  LEECHRPC_MSGTYPE_GETOPTION_REQ := 11
  LEECHRPC_MSGTYPE_GETOPTION_RSP := 12
  LEECHRPC_MSGTYPE_SETOPTION_REQ := 13
  LEECHRPC_MSGTYPE_SETOPTION_RSP := 14
  LEECHRPC_MSGTYPE_COMMAND_REQ := 15
  LEECHRPC_MSGTYPE_COMMAND_RSP := 16
  LEECHRPC_MSGTYPE_KEEPALIVE_REQ := 17
  LEECHRPC_MSGTYPE_KEEPALIVE_RSP := 18
  sizeof_LEECHRPC_MSG_HDR := 24
  sizeof_LEECHRPC_MSG_OPEN := 176
  sizeof_LEECHRPC_MSG_DATA := 40
  sizeof_LEECHRPC_MSG_BIN := 48
  viewHDR := fun b =>
    { dwMagic := rdDWORD b 0, cbMsg := rdDWORD b 4, tpMsg := rdDWORD b 8,
      fMsgResult := decide (rdDWORD b 12 ≠ 0), dwRpcClientID := rdDWORD b 16,
      flags := rdDWORD b 20 }
  viewEXT := fun b =>
    { qwData0 := rdQWORD b 0, qwData1 := rdQWORD b 8, cbDecompress := rdDWORD b 16,
      cb := rdDWORD b 20, pb := b.drop 24,
      fValidOpen := decide (rdDWORD b 0 ≠ 0),
      cfg :=
        { dwVersion := rdDWORD b 4, fRemote := decide (rdDWORD b 8 ≠ 0),
          fRemoteDisableCompress := decide (rdDWORD b 12 ≠ 0), pfn_printf_opt := rdQWORD b 16,
          szDevice := readBytes b 24 16, szRemote := readBytes b 40 24,
          szDeviceName := readBytes b 64 8 },
      errorinfo := b.drop 72 }
  sizeof_MEM_SCATTER := 128
  MEM_SCATTER_VERSION := 0xc0fe0002
  MEM_SCATTER_ADDR_ISVALID := fun qwA => decide (qwA ≠ 18446744073709551615)
  imageMEM := fun m =>
    bytesDWORD m.version ++ bytesDWORD (if m.f then 1 else 0) ++ bytesQWORD m.qwA
      ++ bytesQWORD m.pb ++ bytesDWORD m.cb ++ List.replicate 100 0
  viewMEM := fun b =>
    { version := rdDWORD b 0, f := decide (rdDWORD b 4 ≠ 0), qwA := rdQWORD b 8 }
  LC_CMD_AGENT_VFS_LIST := 0x8000000300000000
  LC_CMD_AGENT_VFS_READ := 0x8000000400000000
  LC_CMD_AGENT_VFS_WRITE := 0x8000000500000000
  LC_CMD_AGENT_VFS_RSP_VERSION := 0xf6660001
  sizeof_LC_CMD_AGENT_VFS_RSP := 24
  VFS_RSP_dwVersion := 0
  VFS_RSP_cbReadWrite := 8
  VFS_RSP_cb := 20
  LC_CONFIG_VERSION := 0xc0fd0002
  LC_CONFIG_ERRORINFO_VERSION := 0xc0fe0002
  sizeof_LC_CONFIG_ERRORINFO := 80
  ERRORINFO_dwVersion := 0
  ERRORINFO_cbStruct := 4
  ERRORINFO_cwszUserText := 76
  ERRORINFO_wszUserText := 80

/-- An environment in which the compression adapter leaves every message plain, no
message can be decoded, fresh blocks hold zero bytes, strings are split at the first
delimiters and numbers are read in decimal. -/
def sampleEnv : Env where
  LeechRPC_Compress := fun m _ => { m with cbDecompress := 0 }
  LeechRPC_Decompress := fun _ => none
  LocalAlloc := fun _ => []
  Util_Split3 := fun sz ch =>
    (some (sampleSplit sz ch).1, some (sampleSplit (sampleSplit sz ch).2 ch).1,
     some (sampleSplit (sampleSplit sz ch).2 ch).2)
  Util_Split2 := fun sz ch => (some (sampleSplit sz ch).1, some (sampleSplit sz ch).2)
  atoi := sampleAtoi
  _atoi64 := sampleAtoi

/-- An open RPC session without compression. -/
def sampleRpcCtx : LC_CONTEXT :=
  { hDevice := some { fIsRpc := true }, Rpc_fCompress := false, Rpc_dwRpcClientId := 7 }

/-- A well-formed `PING_RSP` of 24 bytes. -/
def samplePingRsp : LEECHRPC_MSG :=
  { dwMagic := 0xd05a2666, cbMsg := 24, tpMsg := 2, fMsgResult := true }

/-- A `GETOPTION_REQ` for option 5. -/
def sampleGetOptionReq : LEECHRPC_MSG :=
  { tpMsg := 11, qwData0 := 5 }

/-- A well-formed `GETOPTION_RSP` of 40 bytes carrying the value 99. -/
def sampleGetOptionRsp : LEECHRPC_MSG :=
  { dwMagic := 0xd05a2666, cbMsg := 40, tpMsg := 12, fMsgResult := true, qwData0 := 99 }

/-- A well-formed `VFS_LIST` response: the 24-byte `LC_CMD_AGENT_VFS_RSP` header followed by
a blob of one entry (name offset 1) and the three text bytes `0, 'a', 0`. -/
def sampleVfsListRsp : LEECHRPC_MSG :=
  { dwMagic := 0xd05a2666, cbMsg := 179, tpMsg := 16, fMsgResult := true, cb := 131,
    pb := bytesDWORD 0xf6660001 ++ List.replicate 16 0 ++ bytesDWORD 107
      ++ bytesDWORD 0xf88f0001 ++ bytesDWORD 107 ++ bytesDWORD 1 ++ bytesDWORD 3
      ++ List.replicate 40 0
      ++ bytesQWORD 1 ++ List.replicate 40 0
      ++ [0, 97, 0] }

/-- A pending descriptor of the valid version for `cb` bytes at `qwA`, whose buffer is at
the address `0x200000 + qwA`. -/
def sampleMem (qwA cb : Nat) : MEM_SCATTER :=
  { version := 0xc0fe0002, f := false, qwA := qwA, cb := cb, pb := 0x200000 + qwA }

/-- A memory that holds the structs `ms` at the addresses `0x10000`, `0x10100`,
`0x10200`, ... (a zeroed struct at any other address) and the bytes `byte`. -/
def sampleMemory (ms : List MEM_SCATTER) (byte : Nat → Nat) : Memory :=
  { scatter := fun p =>
      if 0x10000 ≤ p ∧ p % 0x100 = 0 then ms.getD ((p - 0x10000) / 0x100) {} else {},
    byte := byte }

/-- The bytes of a memory in which each pair `(qwA, data)` of the list puts the bytes
`data` at the address `0x200000 + qwA`; every other byte is zero. -/
def sampleBytes : List (Nat × Bytes) → Nat → Nat
  | [], _ => 0
  | (qwA, data) :: rest, a =>
    if 0x200000 + qwA ≤ a ∧ a < 0x200000 + qwA + data.length then
      data.getD (a - (0x200000 + qwA)) 0
    else sampleBytes rest a

/-- A `READSCATTER_RSP` that echoes the descriptors `ds` and carries the payload `data`. -/
def sampleReadRsp (ds : List MEM_SCATTER) (data : Bytes) : LEECHRPC_MSG :=
  { dwMagic := 0xd05a2666, cbMsg := 48 + (128 * ds.length + data.length), tpMsg := 8,
    fMsgResult := true, qwData0 := ds.length, cb := 128 * ds.length + data.length,
    pb := (ds.map sampleLayout.imageMEM).flatten ++ data }

/-- A world in which the RPC runtime answers the next call with the message `rsp`. -/
def sampleWorld (rsp : LEECHRPC_MSG) : World :=
  { rpcReplies := [some (rsp.cbMsg, some rsp)] }

/-- Three small reads of 1, 2 and 1 bytes. -/
def sampleMixed : List MEM_SCATTER :=
  [sampleMem 0x1000 1, sampleMem 0x2000 2, sampleMem 0x3000 1]

/-- A zeroed memory that holds the three structs of `sampleMixed` at `0x10000`, `0x10100`
and `0x10200`. -/
def sampleMixedMemory : Memory := sampleMemory sampleMixed (fun _ => 0)

/-- The array of the three pointers to the structs of `sampleMixedMemory`. -/
def sampleMixedPtrs : List Nat := [0x10000, 0x10100, 0x10200]

/-- A response to `sampleMixed`: the first and the third read done, the second failed,
followed by the two bytes read. -/
def sampleMixedRsp : LEECHRPC_MSG :=
  sampleReadRsp [{ sampleMem 0x1000 1 with f := true }, sampleMem 0x2000 2,
    { sampleMem 0x3000 1 with f := true }] [0xCC, 0xDD]

/-- An array of three pointers that lists the first struct of `sampleMixedMemory` twice:
before and behind the second. -/
def sampleTwicePtrs : List Nat := [0x10000, 0x10100, 0x10000]

/-- A response to the request for `sampleTwicePtrs`, which asks for `0x1000`, `0x2000` and
`0x1000`, that swaps the last two descriptors: all three are done, and four bytes
follow. -/
def sampleTwiceRsp : LEECHRPC_MSG :=
  sampleReadRsp [{ sampleMem 0x1000 1 with f := true }, { sampleMem 0x1000 1 with f := true },
    { sampleMem 0x2000 2 with f := true }] [0xCC, 0xDD, 0xEE, 0xFF]

/-- An array of three pointers that lists the first struct of `sampleMixedMemory` twice in
a row, then the third. -/
def sampleAgainPtrs : List Nat := [0x10000, 0x10000, 0x10200]

/-- A response to the request for `sampleAgainPtrs`, which asks for `0x1000`, `0x1000` and
`0x3000`: the three descriptors in that order, all done, followed by the three bytes
read. -/
def sampleAgainRsp : LEECHRPC_MSG :=
  sampleReadRsp [{ sampleMem 0x1000 1 with f := true }, { sampleMem 0x1000 1 with f := true },
    { sampleMem 0x3000 1 with f := true }] [0xCC, 0xCC, 0xDD]

/-- A response to `sampleMixed` that swaps the first two descriptors. -/
def samplePermutedRsp : LEECHRPC_MSG :=
  sampleReadRsp [{ sampleMem 0x2000 2 with f := true }, { sampleMem 0x1000 1 with f := true },
    { sampleMem 0x3000 1 with f := true }] [0xCC, 0xDD, 0xEE, 0xFF]

/-- A descriptor of the valid version for a write of the bytes `data` at `qwA`; its
buffer is at the address `0x200000 + qwA`. -/
def sampleWriteMem (qwA : Nat) (data : Bytes) : MEM_SCATTER :=
  { version := 0xc0fe0002, f := false, qwA := qwA, cb := data.length, pb := 0x200000 + qwA }

/-- Two writes of one byte each. -/
def sampleWrite2 : List MEM_SCATTER :=
  [sampleWriteMem 0x1000 [0xAA], sampleWriteMem 0x2000 [0xBB]]

/-- A memory that holds the two structs of `sampleWrite2` at `0x10000` and `0x10100`, and
their bytes `0xAA` and `0xBB` in their buffers. -/
def sampleWrite2Memory : Memory :=
  sampleMemory sampleWrite2 (sampleBytes [(0x1000, [0xAA]), (0x2000, [0xBB])])

/-- Three writes, the second of which announces 4097 bytes. -/
def sampleWrite3 : List MEM_SCATTER :=
  [sampleWriteMem 0x1000 [0xAA], { sampleWriteMem 0x2000 [0xBB] with cb := 4097 },
   sampleWriteMem 0x3000 [0xCC]]

/-- A memory that holds the three structs of `sampleWrite3` at `0x10000`, `0x10100` and
`0x10200`, and the bytes `0xAA`, `0xBB` and `0xCC` in their buffers. -/
def sampleWrite3Memory : Memory :=
  sampleMemory sampleWrite3
    (sampleBytes [(0x1000, [0xAA]), (0x2000, [0xBB]), (0x3000, [0xCC])])

/-- A well-formed `VFS_READ` response: the 24-byte `LC_CMD_AGENT_VFS_RSP` header announcing
three bytes read, followed by the three bytes. -/
def sampleVfsReadRsp : LEECHRPC_MSG :=
  { dwMagic := 0xd05a2666, cbMsg := 75, tpMsg := 16, fMsgResult := true, cb := 27,
    pb := bytesDWORD 0xf6660001 ++ bytesDWORD 0 ++ bytesDWORD 3 ++ List.replicate 8 0
      ++ bytesDWORD 3 ++ [1, 2, 3] }

/-- A well-formed `VFS_WRITE` response: the bare 24-byte header announcing three bytes
written. -/
def sampleVfsWriteRsp : LEECHRPC_MSG :=
  { dwMagic := 0xd05a2666, cbMsg := 72, tpMsg := 16, fMsgResult := true, cb := 24,
    pb := bytesDWORD 0xf6660001 ++ bytesDWORD 0 ++ bytesDWORD 3 ++ List.replicate 8 0
      ++ bytesDWORD 0 }

/-- An open pipe session. -/
def samplePipeCtx : LEECHRPC_CLIENT_CONTEXT :=
  { fIsRpc := false, hPipeMem_Rd := 4, hPipeMem_Wr := 8 }

/-- The 24 bytes of a message header with the magic word, the length `cbMsg` and the
type `tp`, result flag set. -/
def sampleHdrBytes (cbMsg tp : Nat) : Bytes :=
  bytesDWORD 0xd05a2666 ++ bytesDWORD cbMsg ++ bytesDWORD tp ++ bytesDWORD 1 ++ bytesDWORD 0
    ++ bytesDWORD 1

/-- A read handle that delivers a header announcing no bytes at all. -/
def sampleShortWorld : World :=
  { pipeWrites := [true], pipeReads := [sampleHdrBytes 0 2] }

/-- A read handle that delivers a 16 MiB message: its header, then its body. -/
def sampleBigWorld : World :=
  { pipeWrites := [true], pipeReads := [sampleHdrBytes 16777216 2, List.replicate 16777192 0] }

/-- A read handle that delivers a header-only message of kind 2. -/
def samplePingWorld : World :=
  { pipeWrites := [true], pipeReads := [sampleHdrBytes 24 2] }

/-- A read handle that delivers a header announcing one byte more than 64 MiB, then
three more bytes. -/
def sampleHugeWorld : World :=
  { pipeWrites := [true], pipeReads := [sampleHdrBytes 0x04000001 2, [1, 2, 3]] }

/-- A `COMMAND_REQ` with a payload of three bytes. -/
def sampleCommandReq : LEECHRPC_MSG :=
  { tpMsg := 15, cb := 3, pb := [1, 2, 3] }

/-- A `COMMAND_RSP` without payload whose `cbDecompress` is 5. -/
def sampleMarkedRsp : LEECHRPC_MSG :=
  { dwMagic := 0xd05a2666, cbMsg := 48, tpMsg := 16, fMsgResult := true, cbDecompress := 5 }

/-- A `COMMAND_RSP` without payload whose `cbDecompress` is 0. -/
def samplePlainRsp : LEECHRPC_MSG :=
  { dwMagic := 0xd05a2666, cbMsg := 48, tpMsg := 16, fMsgResult := true }

/-- A well-formed `CLOSE_RSP` of 24 bytes. -/
def sampleCloseRsp : LEECHRPC_MSG :=
  { dwMagic := 0xd05a2666, cbMsg := 24, tpMsg := 6, fMsgResult := true }

/-- The array of 24 bytes that holds `existingremotefpga` and a NUL, followed by stale
bytes. -/
def sampleDevice : Bytes :=
  [101, 120, 105, 115, 116, 105, 110, 103, 114, 101, 109, 111, 116, 101, 102, 112, 103, 97, 0,
   55, 56, 57, 0, 0]

/-- A string in an array of `n` bytes, the rest of which is zero. -/
def padTo (n : Nat) (sz : Bytes) : Bytes := sz ++ List.replicate (n - sz.length) 0

/-- The local configuration of a session to `rpc://insecure:host` for the device `fpga`,
with a callback installed. -/
def sampleRpcConfig : LC_CONFIG :=
  { dwVersion := 0xc0fd0002,
    szDevice := padTo 16 [102, 112, 103, 97],
    szRemote := padTo 24
      [114, 112, 99, 58, 47, 47, 105, 110, 115, 101, 99, 117, 114, 101, 58, 104, 111, 115, 116],
    pfn_printf_opt := 0x7ff6a0001000,
    szDeviceName := padTo 8 [114, 112, 99] }

/-- The local configuration of a session to `pipe://4:8` for the device `fpga`. -/
def samplePipeConfig : LC_CONFIG :=
  { dwVersion := 0xc0fd0002,
    szDevice := padTo 16 [102, 112, 103, 97],
    szRemote := padTo 24 [112, 105, 112, 101, 58, 47, 47, 52, 58, 56],
    pfn_printf_opt := 0x7ff6a0001000,
    szDeviceName := padTo 8 [112, 105, 112, 101] }

/-- The configuration the server returns: the device is named `fpga`, the descriptor of
the remote is empty and the callback slot is zero. -/
def sampleServerConfig : LC_CONFIG :=
  { dwVersion := 0xc0fd0002,
    szDevice := padTo 16 [102, 112, 103, 97],
    szRemote := padTo 24 [],
    szDeviceName := padTo 8 [102, 112, 103, 97] }

/-- A well-formed `OPEN_RSP` of 176 bytes for a valid open. -/
def sampleOpenRsp : LEECHRPC_MSG :=
  { dwMagic := 0xd05a2666, cbMsg := 176, tpMsg := 4, fMsgResult := true,
    fValidOpen := true, cfg := sampleServerConfig }

/-- The bytes of `sampleOpenRsp` behind its header in the sample layout. -/
def sampleOpenRspBody : Bytes :=
  bytesDWORD 1 ++ bytesDWORD 0xc0fd0002 ++ bytesDWORD 0 ++ bytesDWORD 0 ++ bytesQWORD 0
    ++ padTo 16 [102, 112, 103, 97] ++ padTo 24 [] ++ padTo 8 [102, 112, 103, 97]
    ++ List.replicate 80 0

/-- An RPC peer that answers the ping and the open request; compression can be set up. -/
def sampleOpenWorld : World :=
  { rpcReplies := [some (24, some samplePingRsp), some (176, some sampleOpenRsp)],
    fCompressInitialize := true, random := 0x1234 }

/-- A server configuration that refuses compression. -/
def sampleRefusingConfig : LC_CONFIG :=
  { sampleServerConfig with fRemoteDisableCompress := true }

/-- An RPC peer that answers the ping and answers the open request with a configuration
that refuses compression; compression can be set up. -/
def sampleRefusingWorld : World :=
  { rpcReplies := [some (24, some samplePingRsp),
      some (176, some { sampleOpenRsp with cfg := sampleRefusingConfig })],
    fCompressInitialize := true, random := 0x1234 }

/-- A pipe peer that answers the ping and the open request; compression could be set
up. -/
def samplePipeOpenWorld : World :=
  { pipeWrites := [true, true],
    pipeReads := [sampleHdrBytes 24 2, sampleHdrBytes 176 4, sampleOpenRspBody],
    fCompressInitialize := true, random := 0x1234 }

/-- An error information of 91 bytes: the text `Hello` of 5 units at offset 80, then one
more byte; three stale bytes follow in the message. -/
def sampleErrorInfo : Bytes :=
  bytesDWORD 0xc0fe0002 ++ bytesDWORD 91 ++ List.replicate 64 0 ++ bytesDWORD 0 ++ bytesDWORD 5
    ++ [72, 0, 101, 0, 108, 0, 108, 0, 111, 0] ++ [33, 34, 35, 36]

/-- An `OPEN_RSP` that refuses the open and carries `sampleErrorInfo`. -/
def sampleDeniedRsp : LEECHRPC_MSG :=
  { dwMagic := 0xd05a2666, cbMsg := 192, tpMsg := 4, fMsgResult := true,
    fValidOpen := false, errorinfo := sampleErrorInfo }

/-- An RPC peer that answers the ping, refuses the open and answers the close. -/
def sampleDeniedWorld : World :=
  { rpcReplies := [some (24, some samplePingRsp), some (192, some sampleDeniedRsp),
      some (24, some { dwMagic := 0xd05a2666, cbMsg := 24, tpMsg := 6, fMsgResult := true })],
    fCompressInitialize := true }

/-- A `VFS_LIST` response that passes every check but the one on its entry, whose name
offset 3 is not below `cbMultiText = 3`; the slot `uszMultiText` arrives holding the
pointer `0x7ffe12345678`. -/
def sampleVfsBadEntryRsp : LEECHRPC_MSG :=
  { dwMagic := 0xd05a2666, cbMsg := 179, tpMsg := 16, fMsgResult := true, cb := 131,
    pb := bytesDWORD 0xf6660001 ++ List.replicate 16 0 ++ bytesDWORD 107
      ++ bytesDWORD 0xf88f0001 ++ bytesDWORD 107 ++ bytesDWORD 1 ++ bytesDWORD 3
      ++ bytesQWORD 0x7ffe12345678 ++ List.replicate 32 0
      ++ bytesQWORD 3 ++ List.replicate 40 0
      ++ [0, 97, 0] }

/-- The 152 bytes behind the header of an `OPEN_RSP` of 176 bytes that refuses the open:
`fValidOpen` is zero, the configuration record is zero, and the error information, which
begins at offset 96 of the message and has 80 bytes left, announces `cbStruct = 175` and
`cwszUserText = 47`. -/
def sampleOverrunBody : Bytes :=
  bytesDWORD 0 ++ List.replicate 68 0
    ++ bytesDWORD 0xc0fe0002 ++ bytesDWORD 175 ++ List.replicate 64 0 ++ bytesDWORD 0
    ++ bytesDWORD 47

/-- A pipe peer that answers the ping, refuses the open with `sampleOverrunBody` and
answers the close. -/
def sampleOverrunWorld : World :=
  { pipeWrites := [true, true, true],
    pipeReads := [sampleHdrBytes 24 2, sampleHdrBytes 176 4, sampleOverrunBody,
      sampleHdrBytes 24 6] }

/-! ## Theorems -/

set_option maxRecDepth 20000

/-- A successful call of the verification step passed the envelope test. -/
theorem verify_true_fOK (L : Layout) (E : Env) (w : World) (cbMsgOut : Nat) (m : LEECHRPC_MSG)
    (tpMsgRsp : Nat)
    (h : (LeechRPC_SubmitCommand_verify L E w cbMsgOut (some m) tpMsgRsp).2.1 = true) :
    LeechRPC_SubmitCommand_fOK L cbMsgOut m tpMsgRsp = true := by
  unfold LeechRPC_SubmitCommand_verify at h
  by_cases hf : LeechRPC_SubmitCommand_fOK L cbMsgOut m tpMsgRsp = true
  · exact hf
  · simp [hf] at h

/-- The envelope test is the envelope of the specification. -/
theorem fOK_iff_envelope (L : Layout) (cbMsgOut : Nat) (m : LEECHRPC_MSG) (tpMsgRsp : Nat) :
    LeechRPC_SubmitCommand_fOK L cbMsgOut m tpMsgRsp = true
      ↔ (L.sizeof_LEECHRPC_MSG_HDR ≤ cbMsgOut ∧ EnvelopeOK L cbMsgOut (some m) tpMsgRsp) := by
  unfold LeechRPC_SubmitCommand_fOK EnvelopeOK
  simp only [Bool.and_eq_true, decide_eq_true_eq]
  constructor
  · rintro ⟨⟨⟨h1, h2⟩, ⟨h3, h4⟩, h5⟩, h6, h7⟩
    exact ⟨h1, m, rfl, h4, h2, h3, by omega, h6, h7⟩
  · rintro ⟨h1, m', hm, h4, h2, h3, h5, h6, h7⟩
    cases hm
    exact ⟨⟨⟨h1, h2⟩, ⟨h3, h4⟩, by omega⟩, h6, h7⟩

/-- Whenever the verification step fails it hands back a null response. -/
theorem verify_false_none (L : Layout) (E : Env) (w : World) (cbMsgOut : Nat)
    (pp : Option LEECHRPC_MSG) (tpMsgRsp : Nat)
    (h : (LeechRPC_SubmitCommand_verify L E w cbMsgOut pp tpMsgRsp).2.1 = false) :
    (LeechRPC_SubmitCommand_verify L E w cbMsgOut pp tpMsgRsp).2.2 = none := by
  unfold LeechRPC_SubmitCommand_verify at h ⊢
  cases pp with
  | none => rfl
  | some m =>
    simp only at h ⊢
    split_ifs at h ⊢ <;> first | rfl | (simp at h) | skip
    all_goals
      cases hd : E.LeechRPC_Decompress m <;> simp_all

/-- The verification step fails on a response that is null or fails the envelope. -/
theorem verify_of_not_envelope (L : Layout) (E : Env) (w : World) (cbMsgOut : Nat)
    (pp : Option LEECHRPC_MSG) (tpMsgRsp : Nat) (h : ¬ EnvelopeOK L cbMsgOut pp tpMsgRsp) :
    (LeechRPC_SubmitCommand_verify L E w cbMsgOut pp tpMsgRsp).2 = (false, none) := by
  cases pp with
  | none => rfl
  | some m =>
    have hf : ¬ LeechRPC_SubmitCommand_fOK L cbMsgOut m tpMsgRsp = true := fun hf =>
      h ((fOK_iff_envelope L cbMsgOut m tpMsgRsp).1 hf).2
    unfold LeechRPC_SubmitCommand_verify
    simp [hf]

/-- Unfolding of `LeechRPC_SubmitCommand` once the outcome of the transport is known. -/
theorem SubmitCommand_of_send (L : Layout) (E : Env) (ctxLC : LC_CONTEXT) (w w1 : World)
    (pMsgIn : LEECHRPC_MSG) (tpMsgRsp cbMsgOut : Nat) (pp : Option LEECHRPC_MSG)
    (h : LeechRPC_SubmitCommand_send L E ctxLC w pMsgIn = some (w1, some (cbMsgOut, pp))) :
    LeechRPC_SubmitCommand L E ctxLC w pMsgIn tpMsgRsp
      = LeechRPC_SubmitCommand_verify L E w1 cbMsgOut pp tpMsgRsp := by
  unfold LeechRPC_SubmitCommand
  rw [h]

/-- Whenever `LeechRPC_SubmitCommand` fails it hands back a null response. -/
theorem SubmitCommand_false_none (L : Layout) (E : Env) (ctxLC : LC_CONTEXT) (w : World)
    (pMsgIn : LEECHRPC_MSG) (tpMsgRsp : Nat)
    (h : (LeechRPC_SubmitCommand L E ctxLC w pMsgIn tpMsgRsp).2.1 = false) :
    (LeechRPC_SubmitCommand L E ctxLC w pMsgIn tpMsgRsp).2.2 = none := by
  unfold LeechRPC_SubmitCommand at h ⊢
  cases hs : LeechRPC_SubmitCommand_send L E ctxLC w pMsgIn with
  | none => rfl
  | some r =>
    obtain ⟨w1, d⟩ := r
    cases d with
    | none => rfl
    | some c =>
      obtain ⟨cbMsgOut, pp⟩ := c
      rw [hs] at h
      exact verify_false_none L E w1 cbMsgOut pp tpMsgRsp h

/-- Claim C1.  For a request of one of the nine request kinds, whatever the transport
hands back (a failure, or a response pointer with a received byte count):
`LeechRPC_SubmitCommand` returns success only if the response is non-null, its length
field equals the byte count received, its magic is the magic word, its kind is at most
`LEECHRPC_MSGTYPE_MAX`, its length is below 256 MiB, its result flag is set and its kind
is the expected one; in every other case it returns failure with a null response; and
every failure hands back a null response. -/
theorem SubmitCommand_envelope (L : Layout) (E : Env) (ctxLC : LC_CONTEXT) (w w1 : World)
    (pMsgIn : LEECHRPC_MSG) (tpMsgRsp : Nat) (d : Option (Nat × Option LEECHRPC_MSG))
    (_hkind : pMsgIn.tpMsg ∈ requestKinds L)
    (hsend : LeechRPC_SubmitCommand_send L E ctxLC w pMsgIn = some (w1, d)) :
    (d = none → (LeechRPC_SubmitCommand L E ctxLC w pMsgIn tpMsgRsp).2 = (false, none))
    ∧ (∀ cbMsgOut ppMsgOut, d = some (cbMsgOut, ppMsgOut) →
        ((LeechRPC_SubmitCommand L E ctxLC w pMsgIn tpMsgRsp).2.1 = true →
            EnvelopeOK L cbMsgOut ppMsgOut tpMsgRsp)
        ∧ (¬ EnvelopeOK L cbMsgOut ppMsgOut tpMsgRsp →
            (LeechRPC_SubmitCommand L E ctxLC w pMsgIn tpMsgRsp).2 = (false, none)))
    ∧ ((LeechRPC_SubmitCommand L E ctxLC w pMsgIn tpMsgRsp).2.1 = false →
        (LeechRPC_SubmitCommand L E ctxLC w pMsgIn tpMsgRsp).2.2 = none) := by
  refine ⟨?_, ?_, SubmitCommand_false_none L E ctxLC w pMsgIn tpMsgRsp⟩
  · intro hd
    subst hd
    unfold LeechRPC_SubmitCommand
    rw [hsend]
  · intro cbMsgOut ppMsgOut hd
    subst hd
    rw [SubmitCommand_of_send L E ctxLC w w1 pMsgIn tpMsgRsp cbMsgOut ppMsgOut hsend]
    constructor
    · intro hok
      cases ppMsgOut with
      | none => simp [LeechRPC_SubmitCommand_verify] at hok
      | some m =>
        exact ((fOK_iff_envelope L cbMsgOut m tpMsgRsp).1
          (verify_true_fOK L E w1 cbMsgOut m tpMsgRsp hok)).2
    · intro hne
      exact verify_of_not_envelope L E w1 cbMsgOut ppMsgOut tpMsgRsp hne

/-- Witness for C1: a ping over RPC answered by a well-formed `PING_RSP` succeeds, and the
response has the envelope. -/
theorem SubmitCommand_envelope_witness :
    (LeechRPC_SubmitCommand sampleLayout sampleEnv sampleRpcCtx
        { rpcReplies := [some (24, some samplePingRsp)] } { tpMsg := 1 } 2).2.1 = true
    ∧ EnvelopeOK sampleLayout 24 (some samplePingRsp) 2 :=
  ⟨by decide,
   ((SubmitCommand_envelope sampleLayout sampleEnv sampleRpcCtx
      { rpcReplies := [some (24, some samplePingRsp)] }
      { trace := [Event.transport true
          { dwMagic := 0xd05a2666, cbMsg := 24, tpMsg := 1, fMsgResult := true,
            dwRpcClientID := 7, flags := 1 }] }
      { tpMsg := 1 } 2 (some (24, some samplePingRsp)) (by decide) (by decide)).2.1
        24 (some samplePingRsp) rfl).1 (by decide)⟩

/-- Nine pairwise distinct values split into the classes of the response switch: the
first four, the fifth, the sixth, the last three. -/
theorem class_sep (a b c d e f g h i t : Nat) (hd : [a, b, c, d, e, f, g, h, i].Nodup) :
    ((t = a ∨ t = b ∨ t = c ∨ t = d) → t ≠ e ∧ t ≠ f ∧ t ≠ g ∧ t ≠ h ∧ t ≠ i)
    ∧ (t = e → t ≠ f ∧ t ≠ g ∧ t ≠ h ∧ t ≠ i)
    ∧ (t = f → t ≠ g ∧ t ≠ h ∧ t ≠ i) := by
  simp only [List.nodup_cons, List.mem_cons, List.mem_singleton, not_or,
    List.not_mem_nil, not_false_eq_true, List.nodup_nil, and_true] at hd
  refine ⟨?_, ?_, ?_⟩
  · rintro (rfl | rfl | rfl | rfl) <;> refine ⟨?_, ?_, ?_, ?_, ?_⟩ <;> rintro rfl <;> simp at hd
  · rintro rfl
    refine ⟨?_, ?_, ?_, ?_⟩ <;> rintro rfl <;> simp at hd
  · rintro rfl
    refine ⟨?_, ?_, ?_⟩ <;> rintro rfl <;> simp at hd

/-- With distinct kinds, the branch of the response switch that a kind selects is the only
rule it has to meet. -/
theorem rule_of_branch (a b c d e f g h i t : Nat) (P1 P2 P3 P4 : Prop)
    (hd : [a, b, c, d, e, f, g, h, i].Nodup)
    (hb : ((t = a ∨ t = b ∨ t = c ∨ t = d) ∧ P1) ∨ (t = e ∧ P2) ∨ (t = f ∧ P3)
      ∨ ((t = g ∨ t = h ∨ t = i) ∧ P4)) :
    t ∈ [a, b, c, d, e, f, g, h, i]
    ∧ ((t = a ∨ t = b ∨ t = c ∨ t = d) → P1) ∧ (t = e → P2) ∧ (t = f → P3)
    ∧ ((t = g ∨ t = h ∨ t = i) → P4) := by
  obtain ⟨s1, s2, s3⟩ := class_sep a b c d e f g h i t hd
  simp only [List.mem_cons, List.mem_singleton, List.not_mem_nil, or_false]
  rcases hb with ⟨hH, p⟩ | ⟨he, p⟩ | ⟨hf, p⟩ | ⟨hB, p⟩
  · obtain ⟨n1, n2, n3, n4, n5⟩ := s1 hH
    refine ⟨?_, fun _ => p, fun x => absurd x n1, fun x => absurd x n2, ?_⟩
    · rcases hH with x | x | x | x
      · exact Or.inl x
      · exact Or.inr (Or.inl x)
      · exact Or.inr (Or.inr (Or.inl x))
      · exact Or.inr (Or.inr (Or.inr (Or.inl x)))
    · rintro (x | x | x)
      · exact absurd x n3
      · exact absurd x n4
      · exact absurd x n5
  · obtain ⟨n2, n3, n4, n5⟩ := s2 he
    refine ⟨Or.inr (Or.inr (Or.inr (Or.inr (Or.inl he)))), fun x => ?_, fun _ => p,
      fun x => absurd x n2, ?_⟩
    · exact absurd he (s1 x).1
    · rintro (x | x | x)
      · exact absurd x n3
      · exact absurd x n4
      · exact absurd x n5
  · obtain ⟨n3, n4, n5⟩ := s3 hf
    refine ⟨Or.inr (Or.inr (Or.inr (Or.inr (Or.inr (Or.inl hf))))), fun x => ?_,
      fun x => ?_, fun _ => p, ?_⟩
    · exact absurd hf (s1 x).2.1
    · exact absurd hf (s2 x).1
    · rintro (x | x | x)
      · exact absurd x n3
      · exact absurd x n4
      · exact absurd x n5
  · refine ⟨?_, fun x => ?_, fun x => ?_, fun x => ?_, fun _ => p⟩
    · rcases hB with x | x | x
      · exact Or.inr (Or.inr (Or.inr (Or.inr (Or.inr (Or.inr (Or.inl x))))))
      · exact Or.inr (Or.inr (Or.inr (Or.inr (Or.inr (Or.inr (Or.inr (Or.inl x)))))))
      · exact Or.inr (Or.inr (Or.inr (Or.inr (Or.inr (Or.inr (Or.inr (Or.inr x)))))))
    · obtain ⟨-, -, n3, n4, n5⟩ := s1 x
      rcases hB with y | y | y
      · exact absurd y n3
      · exact absurd y n4
      · exact absurd y n5
    · obtain ⟨-, n3, n4, n5⟩ := s2 x
      rcases hB with y | y | y
      · exact absurd y n3
      · exact absurd y n4
      · exact absurd y n5
    · obtain ⟨n3, n4, n5⟩ := s3 x
      rcases hB with y | y | y
      · exact absurd y n3
      · exact absurd y n4
      · exact absurd y n5

/-- The size rule holds for a response that meets the rule of the branch its kind
selects. -/
theorem SizeByKindOK_of_branch (L : Layout) (m : LEECHRPC_MSG) (hd : (responseKinds L).Nodup)
    (hb : ((m.tpMsg = L.LEECHRPC_MSGTYPE_PING_RSP ∨ m.tpMsg = L.LEECHRPC_MSGTYPE_CLOSE_RSP
          ∨ m.tpMsg = L.LEECHRPC_MSGTYPE_KEEPALIVE_RSP
          ∨ m.tpMsg = L.LEECHRPC_MSGTYPE_SETOPTION_RSP)
        ∧ m.cbMsg = L.sizeof_LEECHRPC_MSG_HDR)
      ∨ (m.tpMsg = L.LEECHRPC_MSGTYPE_OPEN_RSP ∧ L.sizeof_LEECHRPC_MSG_OPEN ≤ m.cbMsg)
      ∨ (m.tpMsg = L.LEECHRPC_MSGTYPE_GETOPTION_RSP ∧ m.cbMsg = L.sizeof_LEECHRPC_MSG_DATA)
      ∨ ((m.tpMsg = L.LEECHRPC_MSGTYPE_READSCATTER_RSP
          ∨ m.tpMsg = L.LEECHRPC_MSGTYPE_WRITESCATTER_RSP
          ∨ m.tpMsg = L.LEECHRPC_MSGTYPE_COMMAND_RSP)
        ∧ m.cbMsg = L.sizeof_LEECHRPC_MSG_BIN + m.cb)) :
    SizeByKindOK L m :=
  rule_of_branch _ _ _ _ _ _ _ _ _ m.tpMsg _ _ _ _ hd hb

/-- The verification step, on a response that has the envelope, succeeds only if the size
rule by kind holds, and fails with a null response when it does not. -/
theorem verify_size_by_kind (L : Layout) (E : Env) (w : World) (cbMsgOut : Nat)
    (m : LEECHRPC_MSG) (tpMsgRsp : Nat) (hd : (responseKinds L).Nodup) :
    ((LeechRPC_SubmitCommand_verify L E w cbMsgOut (some m) tpMsgRsp).2.1 = true →
        SizeByKindOK L m)
    ∧ (¬ SizeByKindOK L m →
        (LeechRPC_SubmitCommand_verify L E w cbMsgOut (some m) tpMsgRsp).2 = (false, none)) := by
  have key := SizeByKindOK_of_branch L m hd
  unfold LeechRPC_SubmitCommand_verify
  by_cases hf : LeechRPC_SubmitCommand_fOK L cbMsgOut m tpMsgRsp = true
  · simp only [hf, if_true]
    split_ifs with h1 h2 h3 h4 h5 h6 h7 h8 h9
    · exact ⟨fun _ => key (Or.inl ⟨h1, h2⟩), fun hn => absurd (key (Or.inl ⟨h1, h2⟩)) hn⟩
    · exact ⟨fun hh => absurd hh (by simp), fun _ => rfl⟩
    · exact ⟨fun _ => key (Or.inr (Or.inl ⟨h3, h4⟩)),
        fun hn => absurd (key (Or.inr (Or.inl ⟨h3, h4⟩))) hn⟩
    · exact ⟨fun hh => absurd hh (by simp), fun _ => rfl⟩
    · exact ⟨fun _ => key (Or.inr (Or.inr (Or.inl ⟨h5, h6⟩))),
        fun hn => absurd (key (Or.inr (Or.inr (Or.inl ⟨h5, h6⟩)))) hn⟩
    · exact ⟨fun hh => absurd hh (by simp), fun _ => rfl⟩
    · exact ⟨fun _ => key (Or.inr (Or.inr (Or.inr ⟨h7, h8⟩))),
        fun hn => absurd (key (Or.inr (Or.inr (Or.inr ⟨h7, h8⟩)))) hn⟩
    · exact ⟨fun _ => key (Or.inr (Or.inr (Or.inr ⟨h7, h8⟩))),
        fun hn => absurd (key (Or.inr (Or.inr (Or.inr ⟨h7, h8⟩)))) hn⟩
    · exact ⟨fun hh => absurd hh (by simp), fun _ => rfl⟩
    · exact ⟨fun hh => absurd hh (by simp), fun _ => rfl⟩
  · simp [hf]

/-- Claim C2.  For a response that passes the envelope checks, `LeechRPC_SubmitCommand`
succeeds only if the kind is one of the nine response kinds and the length is the one
the kind asks for: the header size for Ping, Close, KeepAlive and SetOption responses, at
least the size of the open message for an Open response, the size of the data message for
a GetOption response, `sizeof(LEECHRPC_MSG_BIN) + cb` for ReadScatter, WriteScatter and
Command responses; any other kind or size gives failure with a null response. -/
theorem SubmitCommand_size_by_kind (L : Layout) (E : Env) (ctxLC : LC_CONTEXT) (w w1 : World)
    (pMsgIn : LEECHRPC_MSG) (tpMsgRsp cbMsgOut : Nat) (m : LEECHRPC_MSG)
    (hd : (responseKinds L).Nodup)
    (hsend : LeechRPC_SubmitCommand_send L E ctxLC w pMsgIn
      = some (w1, some (cbMsgOut, some m)))
    (_henv : EnvelopeOK L cbMsgOut (some m) tpMsgRsp) :
    ((LeechRPC_SubmitCommand L E ctxLC w pMsgIn tpMsgRsp).2.1 = true → SizeByKindOK L m)
    ∧ (¬ SizeByKindOK L m →
        (LeechRPC_SubmitCommand L E ctxLC w pMsgIn tpMsgRsp).2 = (false, none)) := by
  rw [SubmitCommand_of_send L E ctxLC w w1 pMsgIn tpMsgRsp cbMsgOut (some m) hsend]
  exact verify_size_by_kind L E w1 cbMsgOut m tpMsgRsp hd

/-- Witness for C2: a GetOption request over RPC answered by a `GETOPTION_RSP` of the size
of the data message succeeds, and the response meets the size rule. -/
theorem SubmitCommand_size_by_kind_witness :
    (LeechRPC_SubmitCommand sampleLayout sampleEnv sampleRpcCtx
        { rpcReplies := [some (40, some sampleGetOptionRsp)] } sampleGetOptionReq 12).2.1 = true
    ∧ SizeByKindOK sampleLayout sampleGetOptionRsp :=
  ⟨by decide,
   (SubmitCommand_size_by_kind sampleLayout sampleEnv sampleRpcCtx
      { rpcReplies := [some (40, some sampleGetOptionRsp)] }
      { trace := [Event.transport true
          { sampleGetOptionReq with dwMagic := 0xd05a2666, cbMsg := 40, fMsgResult := true,
                                    dwRpcClientID := 7, flags := 1 }] }
      sampleGetOptionReq 12 40 sampleGetOptionRsp
      (by decide) (by decide)
      ⟨_, rfl, by decide, by decide, by decide, by decide, by decide, by decide⟩).1
      (by decide)⟩

/-! ### Reading bytes -/

theorem readBytes_length (b : Bytes) (off n : Nat) : (readBytes b off n).length = n := by
  unfold readBytes
  simp only [List.length_append, List.length_replicate, List.length_take, List.length_drop]
  omega

theorem rdBYTE_readBytes (b : Bytes) (off n i : Nat) (h : i < n) :
    rdBYTE (readBytes b off n) i = rdBYTE b (off + i) := by
  unfold rdBYTE readBytes
  simp only [List.getD_eq_getElem?_getD]
  by_cases hi : i < ((b.drop off).take n).length
  · rw [List.getElem?_append_left hi, List.getElem?_take_of_lt h, List.getElem?_drop]
  · rw [List.getElem?_append_right (by omega)]
    simp only [List.length_take, List.length_drop] at hi ⊢
    have h2 : b.length ≤ off + i := by omega
    rw [List.getElem?_eq_none h2]
    simp

theorem rdBYTE_drop (b : Bytes) (s i : Nat) : rdBYTE (b.drop s) i = rdBYTE b (s + i) := by
  unfold rdBYTE
  simp only [List.getD_eq_getElem?_getD, List.getElem?_drop]

theorem rdDWORD_drop (b : Bytes) (s i : Nat) : rdDWORD (b.drop s) i = rdDWORD b (s + i) := by
  unfold rdDWORD
  simp only [rdBYTE_drop, Nat.add_assoc]

theorem rdQWORD_drop (b : Bytes) (s i : Nat) : rdQWORD (b.drop s) i = rdQWORD b (s + i) := by
  unfold rdQWORD
  simp only [rdDWORD_drop, Nat.add_assoc]

theorem bytesQWORD_length (v : Nat) : (bytesQWORD v).length = 8 := by
  simp [bytesQWORD]

theorem rdBYTE_wrQWORD_lt (b : Bytes) (off v i : Nat) (h : i < off) :
    rdBYTE (wrQWORD b off v) i = rdBYTE b i := by
  have h1 := rdBYTE_readBytes b 0 off i h
  unfold rdBYTE wrQWORD at *
  simp only [List.getD_eq_getElem?_getD, Nat.zero_add] at h1 ⊢
  rw [List.append_assoc, List.getElem?_append_left (by rw [readBytes_length]; exact h)]
  exact h1

theorem rdBYTE_wrQWORD_ge (b : Bytes) (off v i : Nat) (h : off + 8 ≤ i) :
    rdBYTE (wrQWORD b off v) i = rdBYTE b i := by
  unfold rdBYTE wrQWORD
  simp only [List.getD_eq_getElem?_getD]
  rw [List.getElem?_append_right
    (by simp only [List.length_append, readBytes_length, bytesQWORD_length]; omega)]
  simp only [List.length_append, readBytes_length, bytesQWORD_length, List.getElem?_drop]
  congr 2
  omega

theorem rdDWORD_wrQWORD_lt (b : Bytes) (off v i : Nat) (h : i + 4 ≤ off) :
    rdDWORD (wrQWORD b off v) i = rdDWORD b i := by
  unfold rdDWORD
  rw [rdBYTE_wrQWORD_lt b off v i (by omega), rdBYTE_wrQWORD_lt b off v (i + 1) (by omega),
    rdBYTE_wrQWORD_lt b off v (i + 2) (by omega), rdBYTE_wrQWORD_lt b off v (i + 3) (by omega)]

theorem rdDWORD_wrQWORD_ge (b : Bytes) (off v i : Nat) (h : off + 8 ≤ i) :
    rdDWORD (wrQWORD b off v) i = rdDWORD b i := by
  unfold rdDWORD
  rw [rdBYTE_wrQWORD_ge b off v i (by omega), rdBYTE_wrQWORD_ge b off v (i + 1) (by omega),
    rdBYTE_wrQWORD_ge b off v (i + 2) (by omega), rdBYTE_wrQWORD_ge b off v (i + 3) (by omega)]

theorem rdQWORD_wrQWORD_ge (b : Bytes) (off v i : Nat) (h : off + 8 ≤ i) :
    rdQWORD (wrQWORD b off v) i = rdQWORD b i := by
  unfold rdQWORD
  rw [rdDWORD_wrQWORD_ge b off v i (by omega), rdDWORD_wrQWORD_ge b off v (i + 4) (by omega)]

/-- The entry loop reads the same values before and after the store into
`pVfs->uszMultiText`. -/
theorem entries_check_iff (pb : Bytes) (S c v : Nat) :
    ((List.range c).all (fun i =>
        decide (rdQWORD (wrQWORD pb (S + 16) v)
          (S + sizeof_VFS_FILELISTBLOB + i * sizeof_VFS_FILELISTBLOB_ENTRY)
            < rdDWORD (wrQWORD pb (S + 16) v) (S + 12))) = true)
      ↔ ∀ i, i < c → rdQWORD pb (S + (sizeof_VFS_FILELISTBLOB
            + i * sizeof_VFS_FILELISTBLOB_ENTRY)) < rdDWORD pb (S + 12) := by
  simp only [List.all_eq_true, List.mem_range, decide_eq_true_eq, sizeof_VFS_FILELISTBLOB]
  constructor
  · intro h i hi
    have := h i hi
    rw [rdQWORD_wrQWORD_ge _ _ _ _ (by omega), rdDWORD_wrQWORD_lt _ _ _ _ (by omega)] at this
    rw [← Nat.add_assoc]
    exact this
  · intro h i hi
    rw [rdQWORD_wrQWORD_ge _ _ _ _ (by omega), rdDWORD_wrQWORD_lt _ _ _ _ (by omega)]
    have := h i hi
    rw [← Nat.add_assoc] at this
    exact this

/-- Claim C3.  With `fCMD = LC_CMD_AGENT_VFS_LIST` (a code distinct from the read and write
codes), `LeechRPC_Command_VerifyUntrustedVfsRsp` returns true if and only if all the checks
of the specification hold: `cb` covers the response header, the response version, `cb`
is header plus `inner_cb`, `inner_cb` covers the blob header, the last inner byte is 0,
the blob version, `inner_cb == cbStruct`, `cbMultiText > 0`, the size sum without
wrap-around, the junction byte is 0, and every entry has `ouszName < cbMultiText`. -/
theorem VerifyUntrustedVfsRsp_list_iff (L : Layout) (pMsgRsp : LEECHRPC_MSG)
    (hr : L.LC_CMD_AGENT_VFS_LIST ≠ L.LC_CMD_AGENT_VFS_READ)
    (hw : L.LC_CMD_AGENT_VFS_LIST ≠ L.LC_CMD_AGENT_VFS_WRITE) :
    (LeechRPC_Command_VerifyUntrustedVfsRsp L L.LC_CMD_AGENT_VFS_LIST pMsgRsp).1 = true
      ↔ VfsListOK L pMsgRsp.cb pMsgRsp.pb := by
  unfold VfsListOK
  simp only [rdBYTE_drop, rdDWORD_drop, rdQWORD_drop, Nat.add_zero]
  unfold LeechRPC_Command_VerifyUntrustedVfsRsp
  simp only [hr, hw, if_false, if_true]
  by_cases h1 : pMsgRsp.cb < L.sizeof_LC_CMD_AGENT_VFS_RSP
  · rw [if_pos h1]
    exact ⟨fun h => absurd h (by simp), fun h => absurd h.1 (by omega)⟩
  rw [if_neg h1]
  by_cases h2 : rdDWORD pMsgRsp.pb L.VFS_RSP_dwVersion ≠ L.LC_CMD_AGENT_VFS_RSP_VERSION
  · rw [if_pos h2]
    exact ⟨fun h => absurd h (by simp), fun h => absurd h.2.1 h2⟩
  rw [if_neg h2]
  by_cases h3 : pMsgRsp.cb ≠ L.sizeof_LC_CMD_AGENT_VFS_RSP + rdDWORD pMsgRsp.pb L.VFS_RSP_cb
  · rw [if_pos h3]
    exact ⟨fun h => absurd h (by simp), fun h => absurd h.2.2.1 h3⟩
  rw [if_neg h3]
  by_cases h4 : rdDWORD pMsgRsp.pb L.VFS_RSP_cb < sizeof_VFS_FILELISTBLOB
  · rw [if_pos h4]
    exact ⟨fun h => absurd h (by simp), fun h => absurd h.2.2.2.1 (by omega)⟩
  rw [if_neg h4]
  by_cases h5 : rdBYTE pMsgRsp.pb (L.sizeof_LC_CMD_AGENT_VFS_RSP
      + (rdDWORD pMsgRsp.pb L.VFS_RSP_cb - 1)) ≠ 0
  · rw [if_pos h5]
    exact ⟨fun h => absurd h (by simp), fun h => absurd h.2.2.2.2.1 h5⟩
  rw [if_neg h5]
  by_cases h6 : rdDWORD pMsgRsp.pb L.sizeof_LC_CMD_AGENT_VFS_RSP ≠ __VFS_FILELISTBLOB_VERSION
      ∨ rdDWORD pMsgRsp.pb L.VFS_RSP_cb
          ≠ rdDWORD pMsgRsp.pb (L.sizeof_LC_CMD_AGENT_VFS_RSP + 4)
      ∨ rdDWORD pMsgRsp.pb (L.sizeof_LC_CMD_AGENT_VFS_RSP + 12) = 0
  · rw [if_pos h6]
    refine ⟨fun h => absurd h (by simp), fun h => ?_⟩
    obtain ⟨-, -, -, -, -, a, b, c, -⟩ := h
    rcases h6 with x | x | x
    · exact absurd a x
    · exact absurd b x
    · omega
  rw [if_neg h6]
  by_cases h7 : rdDWORD pMsgRsp.pb L.VFS_RSP_cb
      ≠ sizeof_VFS_FILELISTBLOB + rdDWORD pMsgRsp.pb (L.sizeof_LC_CMD_AGENT_VFS_RSP + 8)
          * sizeof_VFS_FILELISTBLOB_ENTRY + rdDWORD pMsgRsp.pb (L.sizeof_LC_CMD_AGENT_VFS_RSP + 12)
  · rw [if_pos h7]
    exact ⟨fun h => absurd h (by simp), fun h => absurd h.2.2.2.2.2.2.2.2.1 h7⟩
  rw [if_neg h7]
  by_cases h8 : rdBYTE pMsgRsp.pb (L.sizeof_LC_CMD_AGENT_VFS_RSP + (sizeof_VFS_FILELISTBLOB
      + rdDWORD pMsgRsp.pb (L.sizeof_LC_CMD_AGENT_VFS_RSP + 8) * sizeof_VFS_FILELISTBLOB_ENTRY)) ≠ 0
  · rw [if_pos h8]
    exact ⟨fun h => absurd h (by simp), fun h => absurd h.2.2.2.2.2.2.2.2.2.1 h8⟩
  rw [if_neg h8]
  have key := entries_check_iff pMsgRsp.pb L.sizeof_LC_CMD_AGENT_VFS_RSP
    (rdDWORD pMsgRsp.pb (L.sizeof_LC_CMD_AGENT_VFS_RSP + 8))
    (sizeof_VFS_FILELISTBLOB + rdDWORD pMsgRsp.pb (L.sizeof_LC_CMD_AGENT_VFS_RSP + 8)
      * sizeof_VFS_FILELISTBLOB_ENTRY)
  simp only [not_or, not_not, Nat.not_lt] at h1 h2 h3 h4 h5 h6 h7 h8
  obtain ⟨h6a, h6b, h6c⟩ := h6
  split_ifs with h9
  · exact ⟨fun _ => ⟨h1, h2, h3, h4, h5, h6a, h6b, by omega, h7, h8, key.1 h9⟩, fun _ => rfl⟩
  · exact ⟨fun h => absurd h (by simp), fun h => absurd (key.2 h.2.2.2.2.2.2.2.2.2.2) h9⟩

/-- Witness for C3: the sample `VFS_LIST` response is accepted and meets the checks of the
specification. -/
theorem VerifyUntrustedVfsRsp_list_iff_witness :
    (LeechRPC_Command_VerifyUntrustedVfsRsp sampleLayout
        sampleLayout.LC_CMD_AGENT_VFS_LIST sampleVfsListRsp).1 = true
    ∧ VfsListOK sampleLayout sampleVfsListRsp.cb sampleVfsListRsp.pb :=
  ⟨by decide,
   (VerifyUntrustedVfsRsp_list_iff sampleLayout sampleVfsListRsp (by decide) (by decide)).1
     (by decide)⟩

/-! ### The trace of a binary request -/

/-- In a list of nine distinct values, the last three differ from the first six. -/
theorem last3_sep (a b c d e f g h i t : Nat) (hd : [a, b, c, d, e, f, g, h, i].Nodup)
    (ht : t = g ∨ t = h ∨ t = i) :
    ¬ (t = a ∨ t = b ∨ t = c) ∧ ¬ t = d ∧ ¬ (t = e ∨ t = f) := by
  simp only [List.nodup_cons, List.mem_cons, List.mem_singleton, not_or,
    List.not_mem_nil, not_false_eq_true, List.nodup_nil, and_true] at hd
  rcases ht with rfl | rfl | rfl
  all_goals
    refine ⟨?_, ?_, ?_⟩
    · rintro (rfl | rfl | rfl) <;> simp at hd
    · rintro rfl
      simp at hd
    · rintro (rfl | rfl) <;> simp at hd

/-- The pipe transport leaves the trace alone. -/
theorem SubmitCommand_Pipe_trace (L : Layout) (ctx : LEECHRPC_CLIENT_CONTEXT) (w : World)
    (m : LEECHRPC_MSG) : (LeechRPC_SubmitCommand_Pipe L ctx w m).1.trace = w.trace := by
  unfold LeechRPC_SubmitCommand_Pipe
  split_ifs <;> try rfl
  cases hw : w.pipeWrites with
  | nil => rfl
  | cons fWrite ws =>
    simp only []
    split_ifs <;> rfl

/-- The call of the transport adds exactly the message handed over to the trace. -/
theorem dispatch_trace (L : Layout) (ctxLC : LC_CONTEXT) (ctx : LEECHRPC_CLIENT_CONTEXT)
    (w : World) (m : LEECHRPC_MSG) :
    (LeechRPC_SubmitCommand_dispatch L ctxLC ctx w m).1.trace
      = w.trace ++ [Event.transport ctx.fIsRpc (stampWire L ctxLC ctx m)] := by
  unfold LeechRPC_SubmitCommand_dispatch stampWire
  cases hrpc : ctx.fIsRpc with
  | true =>
    simp only [if_true, true_and]
    cases hq : w.rpcReplies with
    | nil => simp [hq]
    | cons r rs => cases r <;> simp [hq]
  | false =>
    simp only [Bool.false_eq_true, if_false, false_and]
    have := SubmitCommand_Pipe_trace L ctx
      { w with trace := w.trace ++ [Event.transport false
        { m with dwRpcClientID := ctxLC.Rpc_dwRpcClientId, flags := L.LEECHRPC_FLAG_NOCOMPRESS }] }
      { m with dwRpcClientID := ctxLC.Rpc_dwRpcClientId, flags := L.LEECHRPC_FLAG_NOCOMPRESS }
    revert this
    cases LeechRPC_SubmitCommand_Pipe L ctx
      { w with trace := w.trace ++ [Event.transport false
        { m with dwRpcClientID := ctxLC.Rpc_dwRpcClientId, flags := L.LEECHRPC_FLAG_NOCOMPRESS }] }
      { m with dwRpcClientID := ctxLC.Rpc_dwRpcClientId, flags := L.LEECHRPC_FLAG_NOCOMPRESS } with
    | mk w2 o =>
      cases o with
      | none => exact id
      | some c => exact id

/-- The verification step adds at most one call of the decoder to the trace. -/
theorem verify_trace (L : Layout) (E : Env) (w : World) (cbMsgOut : Nat)
    (pp : Option LEECHRPC_MSG) (tpMsgRsp : Nat) :
    ∃ tail, (LeechRPC_SubmitCommand_verify L E w cbMsgOut pp tpMsgRsp).1.trace = w.trace ++ tail
      ∧ ∀ e ∈ tail, e.isDecompress = true := by
  unfold LeechRPC_SubmitCommand_verify
  cases pp with
  | none => exact ⟨[], by simp, by simp⟩
  | some m =>
    simp only []
    split_ifs
    all_goals first
      | exact ⟨[], (List.append_nil _).symm, fun e he => absurd he (List.not_mem_nil e)⟩
      | (cases E.LeechRPC_Decompress m <;>
          exact ⟨[Event.decompress m], rfl, fun e he => by rw [List.mem_singleton.1 he]; rfl⟩)

/-- One call of `LeechRPC_SubmitCommand` on a binary request (`READSCATTER_REQ`,
`WRITESCATTER_REQ`, `COMMAND_REQ`) in an open session: the compression adapter is called
once, one message goes to the transport, and only a call of the decoder may follow. -/
theorem SubmitCommand_trace_bin (L : Layout) (E : Env) (ctxLC : LC_CONTEXT)
    (ctx : LEECHRPC_CLIENT_CONTEXT) (w : World) (req : LEECHRPC_MSG) (tpMsgRsp : Nat)
    (hk : (requestKinds L).Nodup) (hdev : ctxLC.hDevice = some ctx)
    (hbin : req.tpMsg = L.LEECHRPC_MSGTYPE_READSCATTER_REQ
      ∨ req.tpMsg = L.LEECHRPC_MSGTYPE_WRITESCATTER_REQ
      ∨ req.tpMsg = L.LEECHRPC_MSGTYPE_COMMAND_REQ) :
    ∃ tail, (LeechRPC_SubmitCommand L E ctxLC w req tpMsgRsp).1.trace
        = w.trace ++ binRequestEvents L E ctxLC ctx req ++ tail
      ∧ ∀ e ∈ tail, e.isDecompress = true := by
  obtain ⟨n1, n2, n3⟩ := last3_sep _ _ _ _ _ _ _ _ _ req.tpMsg hk hbin
  have hprep : LeechRPC_SubmitCommand_prepare L E ctxLC w req
      = some ({ w with trace := w.trace ++ [Event.compress (stampBin L req) (!ctxLC.Rpc_fCompress)] },
          E.LeechRPC_Compress (stampBin L req) (!ctxLC.Rpc_fCompress)) := by
    unfold LeechRPC_SubmitCommand_prepare stampBin
    simp only []
    rw [if_neg n1, if_neg n2, if_neg n3, if_pos hbin]
  unfold LeechRPC_SubmitCommand LeechRPC_SubmitCommand_send
  rw [hprep, hdev]
  simp only []
  have hd := dispatch_trace L ctxLC ctx
    { w with trace := w.trace ++ [Event.compress (stampBin L req) (!ctxLC.Rpc_fCompress)] }
    (E.LeechRPC_Compress (stampBin L req) (!ctxLC.Rpc_fCompress))
  revert hd
  cases LeechRPC_SubmitCommand_dispatch L ctxLC ctx
    { w with trace := w.trace ++ [Event.compress (stampBin L req) (!ctxLC.Rpc_fCompress)] }
    (E.LeechRPC_Compress (stampBin L req) (!ctxLC.Rpc_fCompress)) with
  | mk w2 o =>
    intro hd
    simp only [] at hd
    cases o with
    | none =>
      refine ⟨[], ?_, by simp⟩
      simp only [hd, binRequestEvents, List.append_assoc, List.append_nil, List.singleton_append]
    | some c =>
      obtain ⟨cbMsgOut, pp⟩ := c
      obtain ⟨tail, ht, hall⟩ := verify_trace L E w2 cbMsgOut pp tpMsgRsp
      refine ⟨tail, ?_, hall⟩
      simp only [ht, hd, binRequestEvents, List.append_assoc, List.singleton_append]

/-! ### Scatter read: the request -/

theorem ReadScatter_payload_eq (L : Layout) (ms : List MEM_SCATTER) :
    ReadScatter_payload L ms = ((ms.filter (MEM_pending L)).map L.imageMEM).flatten := by
  induction ms with
  | nil => rfl
  | cons m ms ih =>
    unfold ReadScatter_payload
    by_cases h : MEM_pending L m = true
    · simp [h, ih]
    · simp [h, ih]

/-- The accumulator of the loop of lines 328-335, started at `acc`, is `acc` plus the
lengths of the pending descriptors as long as that sum fits 32 bits. -/
theorem cbTotal_foldl (L : Layout) (ms : List MEM_SCATTER) (acc : Nat)
    (h : acc + ((ms.filter (MEM_pending L)).map (fun m => m.cb)).sum < 4294967296) :
    ms.foldl (fun cbTotal m => if MEM_pending L m then (cbTotal + m.cb) % 4294967296
      else cbTotal) acc = acc + ((ms.filter (MEM_pending L)).map (fun m => m.cb)).sum := by
  induction ms generalizing acc with
  | nil => simp
  | cons m ms ih =>
    simp only [List.foldl_cons]
    by_cases hp : MEM_pending L m = true
    · simp only [hp, if_true, List.filter_cons_of_pos, List.map_cons, List.sum_cons] at h ⊢
      rw [Nat.mod_eq_of_lt (by omega), ih _ (by omega)]
      omega
    · have hp2 : MEM_pending L m = false := by simpa using hp
      rw [List.filter_cons_of_neg hp] at h ⊢
      simp only [hp2, Bool.false_eq_true, if_false]
      exact ih _ h

/-- A sum of at most `n` values, each at most `c`, is at most `n * c`. -/
theorem sum_le_of_bounded (l : List Nat) (c : Nat) (h : ∀ x ∈ l, x ≤ c) :
    l.sum ≤ l.length * c := by
  induction l with
  | nil => simp
  | cons x xs ih =>
    simp only [List.sum_cons, List.length_cons]
    have h1 := h x (List.mem_cons_self _ _)
    have h2 := ih (fun y hy => h y (List.mem_cons_of_mem _ hy))
    rw [Nat.succ_mul]
    omega

/-- When the sanity check of lines 316-322 passes, the world after `LeechRPC_ReadScatter_Impl`
is the world after its one call of `LeechRPC_SubmitCommand`. -/
theorem ReadScatter_Impl_world (L : Layout) (E : Env) (ctxLC : LC_CONTEXT) (w : World)
    (M : Memory) (ps : List Nat) (h : (ps.map M.scatter).any (MEM_invalid L) = false) :
    (LeechRPC_ReadScatter_Impl L E ctxLC w M ps).1
      = (LeechRPC_SubmitCommand L E ctxLC w (ReadScatter_request L (ps.map M.scatter))
          L.LEECHRPC_MSGTYPE_READSCATTER_RSP).1 := by
  unfold LeechRPC_ReadScatter_Impl
  rw [h]
  simp only [Bool.false_eq_true, if_false]
  cases hs : LeechRPC_SubmitCommand L E ctxLC w (ReadScatter_request L (ps.map M.scatter))
      L.LEECHRPC_MSGTYPE_READSCATTER_RSP with
  | mk w1 r =>
    obtain ⟨ok, pp⟩ := r
    cases ok <;> cases pp <;> simp only []
    all_goals first | rfl | (split_ifs <;> rfl)

/-- Claim C6.  In an open session, for a chunk of at most 4096 pointers (the products
with `sizeof(MEM_SCATTER)` fitting 32 bits), whatever pointers the array holds: if every
descriptor has the valid version and `cb <= 0x1000`, `LeechRPC_ReadScatter_Impl` hands
exactly one `READSCATTER_REQ` to the request engine, whose payload is the images of the
descriptors with `f == FALSE` and a valid address, in input order, with
`cb = cValidMEMs * sizeof(MEM_SCATTER)`, `qwData[0] = cValidMEMs` and `qwData[1]` the sum
of their lengths; if some descriptor has a wrong version or `cb > 0x1000`, nothing is
sent and the memory of the caller does not change. -/
theorem ReadScatter_Impl_request (L : Layout) (E : Env) (ctxLC : LC_CONTEXT)
    (ctx : LEECHRPC_CLIENT_CONTEXT) (w : World) (M : Memory) (ppMEMs : List Nat)
    (hk : (requestKinds L).Nodup) (hdev : ctxLC.hDevice = some ctx)
    (hchunk : ppMEMs.length ≤ 4096) (hsz : 4096 * L.sizeof_MEM_SCATTER < 4294967296) :
    ((∀ p ∈ ppMEMs, (M.scatter p).version = L.MEM_SCATTER_VERSION ∧ (M.scatter p).cb ≤ 4096) →
      (∃ tail, (LeechRPC_ReadScatter_Impl L E ctxLC w M ppMEMs).1.trace
          = w.trace
            ++ binRequestEvents L E ctxLC ctx (ReadScatter_request L (ppMEMs.map M.scatter))
            ++ tail
        ∧ ∀ e ∈ tail, e.isDecompress = true)
      ∧ (ReadScatter_request L (ppMEMs.map M.scatter)).tpMsg
          = L.LEECHRPC_MSGTYPE_READSCATTER_REQ
      ∧ (ReadScatter_request L (ppMEMs.map M.scatter)).pb
          = (((ppMEMs.map M.scatter).filter (MEM_pending L)).map L.imageMEM).flatten
      ∧ (ReadScatter_request L (ppMEMs.map M.scatter)).cb
          = ((ppMEMs.map M.scatter).filter (MEM_pending L)).length * L.sizeof_MEM_SCATTER
      ∧ (ReadScatter_request L (ppMEMs.map M.scatter)).qwData0
          = ((ppMEMs.map M.scatter).filter (MEM_pending L)).length
      ∧ (ReadScatter_request L (ppMEMs.map M.scatter)).qwData1
          = (((ppMEMs.map M.scatter).filter (MEM_pending L)).map (fun m => m.cb)).sum)
    ∧ ((∃ p ∈ ppMEMs, (M.scatter p).version ≠ L.MEM_SCATTER_VERSION ∨ (M.scatter p).cb > 4096) →
      LeechRPC_ReadScatter_Impl L E ctxLC w M ppMEMs = (w, M)) := by
  have hlen : ((ppMEMs.map M.scatter).filter (MEM_pending L)).length ≤ 4096 :=
    Nat.le_trans (List.length_filter_le _ _) (by rw [List.length_map]; exact hchunk)
  constructor
  · intro hv
    have hv2 : ∀ m ∈ ppMEMs.map M.scatter, m.version = L.MEM_SCATTER_VERSION ∧ m.cb ≤ 4096 := by
      intro m hm
      obtain ⟨p, hp, rfl⟩ := List.mem_map.1 hm
      exact hv p hp
    have hany : (ppMEMs.map M.scatter).any (MEM_invalid L) = false := by
      rw [List.any_eq_false]
      intro m hm
      have := hv2 m hm
      simp only [MEM_invalid, Bool.or_eq_true, decide_eq_true_eq, not_or]
      omega
    refine ⟨?_, rfl, ReadScatter_payload_eq L _, ?_, rfl, ?_⟩
    · rw [ReadScatter_Impl_world L E ctxLC w M ppMEMs hany]
      exact SubmitCommand_trace_bin L E ctxLC ctx w _ _ hk hdev (Or.inl rfl)
    · show (((ppMEMs.map M.scatter).filter (MEM_pending L)).length * L.sizeof_MEM_SCATTER)
          % 4294967296 = _
      apply Nat.mod_eq_of_lt
      calc ((ppMEMs.map M.scatter).filter (MEM_pending L)).length * L.sizeof_MEM_SCATTER
          ≤ 4096 * L.sizeof_MEM_SCATTER := Nat.mul_le_mul_right _ hlen
        _ < 4294967296 := hsz
    · show ReadScatter_cbTotal L (ppMEMs.map M.scatter) = _
      unfold ReadScatter_cbTotal
      have hb : (((ppMEMs.map M.scatter).filter (MEM_pending L)).map (fun m => m.cb)).sum
          ≤ (((ppMEMs.map M.scatter).filter (MEM_pending L)).map (fun m => m.cb)).length
            * 4096 := by
        apply sum_le_of_bounded
        intro x hx
        obtain ⟨m, hm, rfl⟩ := List.mem_map.1 hx
        exact (hv2 m (List.mem_filter.1 hm).1).2
      rw [List.length_map] at hb
      have hb2 : ((ppMEMs.map M.scatter).filter (MEM_pending L)).length * 4096 ≤ 4096 * 4096 :=
        Nat.mul_le_mul_right _ hlen
      rw [cbTotal_foldl L (ppMEMs.map M.scatter) 0 (by omega)]
      omega
  · rintro ⟨p, hp, hbad⟩
    have hany : (ppMEMs.map M.scatter).any (MEM_invalid L) = true := by
      rw [List.any_eq_true]
      refine ⟨M.scatter p, List.mem_map.2 ⟨p, hp, rfl⟩, ?_⟩
      simp only [MEM_invalid, Bool.or_eq_true, decide_eq_true_eq]
      exact hbad
    unfold LeechRPC_ReadScatter_Impl
    rw [hany]
    rfl

/-- Witness for C6: for three pending reads of 1, 2 and 1 bytes in an open RPC session,
exactly one `READSCATTER_REQ` leaves, with `cb = 3 * 128`, `qwData[0] = 3` and
`qwData[1] = 4`. -/
theorem ReadScatter_Impl_request_witness :
    (∃ tail, (LeechRPC_ReadScatter_Impl sampleLayout sampleEnv sampleRpcCtx
          (sampleWorld sampleMixedRsp) sampleMixedMemory sampleMixedPtrs).1.trace
        = (sampleWorld sampleMixedRsp).trace
          ++ binRequestEvents sampleLayout sampleEnv sampleRpcCtx { fIsRpc := true }
              (ReadScatter_request sampleLayout (sampleMixedPtrs.map sampleMixedMemory.scatter))
          ++ tail
      ∧ ∀ e ∈ tail, e.isDecompress = true)
    ∧ sampleMixedPtrs.map sampleMixedMemory.scatter = sampleMixed
    ∧ (ReadScatter_request sampleLayout (sampleMixedPtrs.map sampleMixedMemory.scatter)).cb = 384
    ∧ (ReadScatter_request sampleLayout (sampleMixedPtrs.map sampleMixedMemory.scatter)).qwData0
        = 3
    ∧ (ReadScatter_request sampleLayout (sampleMixedPtrs.map sampleMixedMemory.scatter)).qwData1
        = 4 :=
  have h := (ReadScatter_Impl_request sampleLayout sampleEnv sampleRpcCtx { fIsRpc := true }
    (sampleWorld sampleMixedRsp) sampleMixedMemory sampleMixedPtrs (by decide) rfl (by decide)
    (by decide)).1 (by decide)
  ⟨h.1, by decide, h.2.2.2.1, h.2.2.2.2.1, h.2.2.2.2.2⟩

/-! ### Scatter read: the response -/

theorem pendingBefore_cons_succ (L : Layout) (m : MEM_SCATTER) (ms : List MEM_SCATTER) (i : Nat) :
    pendingBefore L (m :: ms) (i + 1)
      = (if MEM_pending L m then 1 else 0) + pendingBefore L ms i := by
  unfold pendingBefore
  by_cases h : MEM_pending L m = true
  · simp [List.take_succ_cons, List.filter_cons, h]
    omega
  · simp [List.take_succ_cons, List.filter_cons, h]

theorem pendingBefore_zero (L : Layout) (ms : List MEM_SCATTER) : pendingBefore L ms 0 = 0 := by
  simp [pendingBefore]

/-- The test of line 346 skips exactly the descriptors that are not pending. -/
theorem skip_iff_not_pending (L : Layout) (m : MEM_SCATTER) :
    (m.f || !L.MEM_SCATTER_ADDR_ISVALID m.qwA) = true ↔ MEM_pending L m = false := by
  unfold MEM_pending
  cases m.f <;> cases L.MEM_SCATTER_ADDR_ISVALID m.qwA <;> simp

/-- A round of the loop of lines 344-355 on a descriptor that is not pending. -/
theorem ReadScatter_loop_cons_skip (L : Layout) (rsp : LEECHRPC_MSG) (p0 : Nat)
    (rest : List Nat) (k off : Nat) (M : Memory)
    (hp : MEM_pending L (M.scatter p0) = false) :
    ReadScatter_loop L rsp (p0 :: rest) k off M = ReadScatter_loop L rsp rest k off M := by
  rw [ReadScatter_loop]
  simp only []
  rw [if_pos ((skip_iff_not_pending L _).2 hp)]

/-- A round of the loop of lines 344-355 on a pending descriptor that fails the sanity
check of line 348. -/
theorem ReadScatter_loop_cons_break (L : Layout) (rsp : LEECHRPC_MSG) (p0 : Nat)
    (rest : List Nat) (k off : Nat) (M : Memory)
    (hp : MEM_pending L (M.scatter p0) = true)
    (hchk : (rspMEM L rsp k).version ≠ L.MEM_SCATTER_VERSION
      ∨ (rspMEM L rsp k).qwA ≠ (M.scatter p0).qwA
      ∨ (M.scatter p0).cb > (rsp.cb + 4294967296 - off) % 4294967296) :
    ReadScatter_loop L rsp (p0 :: rest) k off M = M := by
  rw [ReadScatter_loop]
  simp only []
  rw [if_neg (by rw [skip_iff_not_pending, hp]; simp), if_pos hchk]

/-- A round of the loop of lines 344-355 on a pending descriptor that passes the sanity
check of line 348: the done bit is stored, the bytes are copied when it is set, and the
loop goes on with the next response descriptor in the memory `M1` so obtained. -/
theorem ReadScatter_loop_cons_pass (L : Layout) (rsp : LEECHRPC_MSG) (p0 : Nat)
    (rest : List Nat) (k off : Nat) (M : Memory)
    (hp : MEM_pending L (M.scatter p0) = true)
    (hchk : ¬ ((rspMEM L rsp k).version ≠ L.MEM_SCATTER_VERSION
      ∨ (rspMEM L rsp k).qwA ≠ (M.scatter p0).qwA
      ∨ (M.scatter p0).cb > (rsp.cb + 4294967296 - off) % 4294967296)) :
    ∃ M1 : Memory,
      ReadScatter_loop L rsp (p0 :: rest) k off M
        = ReadScatter_loop L rsp rest (k + 1)
            (if (rspMEM L rsp k).f = true then (off + (M.scatter p0).cb) % 4294967296 else off)
            M1
      ∧ M1.scatter = wrMEM M.scatter p0 { M.scatter p0 with f := (rspMEM L rsp k).f }
      ∧ M1.byte = (if (rspMEM L rsp k).f = true then
            memcpy_to M.byte (M.scatter p0).pb (rsp.pb.drop off) (M.scatter p0).cb
          else M.byte) := by
  rw [ReadScatter_loop]
  simp only []
  rw [if_neg (by rw [skip_iff_not_pending, hp]; simp), if_neg hchk]
  by_cases hf : (rspMEM L rsp k).f = true
  · rw [if_pos hf, if_pos hf, if_pos hf]
    exact ⟨_, rfl, rfl, rfl⟩
  · rw [if_neg hf, if_neg hf, if_neg hf]
    exact ⟨_, rfl, rfl, rfl⟩

/-- A store through a pointer leaves the structs behind other pointers. -/
theorem wrMEM_of_ne (scatter : Nat → MEM_SCATTER) (p0 : Nat) (v : MEM_SCATTER) (q : Nat)
    (h : q ≠ p0) : wrMEM scatter p0 v q = scatter q := by
  unfold wrMEM
  rw [if_neg h]

/-- A store through a pointer is read back through it. -/
theorem wrMEM_same (scatter : Nat → MEM_SCATTER) (p0 : Nat) (v : MEM_SCATTER) :
    wrMEM scatter p0 v p0 = v := by
  unfold wrMEM
  rw [if_pos rfl]

/-- After a store through a pointer that is not in `rest`, the structs behind the pointers
of `rest` are those before it. -/
theorem map_wrMEM_of_not_mem (scatter : Nat → MEM_SCATTER) (p0 : Nat) (v : MEM_SCATTER)
    (rest : List Nat) (h : p0 ∉ rest) :
    rest.map (wrMEM scatter p0 v) = rest.map scatter := by
  apply List.map_congr_left
  intro q hq
  exact wrMEM_of_ne scatter p0 v q (fun e => h (e ▸ hq))

/-- After a store through a pointer that is not in `rest`, the entries of `rest` are
separate as they were before. -/
theorem pairwise_separate_wrMEM (L : Layout) (scatter : Nat → MEM_SCATTER) (p0 : Nat)
    (v : MEM_SCATTER) (rest : List Nat) (h : p0 ∉ rest)
    (hs : rest.Pairwise (MEM_separate L scatter)) :
    rest.Pairwise (MEM_separate L (wrMEM scatter p0 v)) := by
  apply List.Pairwise.imp_of_mem _ hs
  intro a b ha hb hab
  unfold MEM_separate at hab ⊢
  rw [wrMEM_of_ne scatter p0 v a (fun e => h (e ▸ ha)),
    wrMEM_of_ne scatter p0 v b (fun e => h (e ▸ hb))]
  exact hab

/-- A pointer to a pending descriptor is not listed again behind it in an array whose
entries are separate. -/
theorem not_mem_of_separate (L : Layout) (scatter : Nat → MEM_SCATTER) (p0 : Nat)
    (rest : List Nat) (hp : MEM_pending L (scatter p0) = true)
    (hs : (p0 :: rest).Pairwise (MEM_separate L scatter)) : p0 ∉ rest := by
  intro hmem
  exact ((List.pairwise_cons.1 hs).1 p0 hmem (Or.inl hp)).1 rfl

/-- A byte of the buffer of an entry that is separate from a pending descriptor is
outside the buffer of that descriptor. -/
theorem outside_of_separate (L : Layout) (scatter : Nat → MEM_SCATTER) (p0 p t : Nat)
    (hp : MEM_pending L (scatter p0) = true ∨ MEM_pending L (scatter p) = true)
    (hs : MEM_separate L scatter p0 p) (ht : t < (scatter p).cb) :
    ¬ ((scatter p0).pb ≤ (scatter p).pb + t
      ∧ (scatter p).pb + t < (scatter p0).pb + (scatter p0).cb) := by
  have hd := (hs hp).2
  unfold MEM_disjoint at hd
  omega

/-- The loop of lines 344-355 on an array whose entries are separate stops at a pending
entry whose aligned response descriptor has an invalid version or another address: the
struct and the buffer behind that entry and behind every later entry are left as they
are. -/
theorem ReadScatter_loop_mismatch (L : Layout) (rsp : LEECHRPC_MSG) :
    ∀ (ps : List Nat) (k off : Nat) (M : Memory) (i p : Nat),
    ps.Pairwise (MEM_separate L M.scatter) →
    ps[i]? = some p → MEM_pending L (M.scatter p) = true →
    ((rspMEM L rsp (k + pendingBefore L (ps.map M.scatter) i)).version ≠ L.MEM_SCATTER_VERSION
      ∨ (rspMEM L rsp (k + pendingBefore L (ps.map M.scatter) i)).qwA ≠ (M.scatter p).qwA) →
    ∀ j q, i ≤ j → ps[j]? = some q →
      (ReadScatter_loop L rsp ps k off M).scatter q = M.scatter q
      ∧ ∀ t, t < (M.scatter q).cb →
          (ReadScatter_loop L rsp ps k off M).byte ((M.scatter q).pb + t)
            = M.byte ((M.scatter q).pb + t) := by
  intro ps
  induction ps with
  | nil => intro k off M i p _ hi; simp at hi
  | cons p0 rest ih =>
    intro k off M i p hsep hi hpm hbad j q hij hj
    have hsep0 := (List.pairwise_cons.1 hsep).1
    have hsepr := (List.pairwise_cons.1 hsep).2
    rw [List.map_cons] at hbad
    by_cases hp : MEM_pending L (M.scatter p0) = true
    · by_cases hchk : (rspMEM L rsp k).version ≠ L.MEM_SCATTER_VERSION
          ∨ (rspMEM L rsp k).qwA ≠ (M.scatter p0).qwA
          ∨ (M.scatter p0).cb > (rsp.cb + 4294967296 - off) % 4294967296
      · rw [ReadScatter_loop_cons_break L rsp p0 rest k off M hp hchk]
        exact ⟨rfl, fun _ _ => rfl⟩
      · cases i with
        | zero =>
          simp only [List.getElem?_cons_zero, Option.some.injEq] at hi
          subst hi
          rw [pendingBefore_zero, Nat.add_zero] at hbad
          exact absurd (hbad.elim Or.inl (fun h => Or.inr (Or.inl h))) hchk
        | succ i2 =>
          cases j with
          | zero => omega
          | succ j2 =>
            simp only [List.getElem?_cons_succ] at hi hj
            have hnm : p0 ∉ rest := not_mem_of_separate L M.scatter p0 rest hp hsep
            have hpr : p ∈ rest := List.mem_iff_getElem?.2 ⟨_, hi⟩
            have hqr : q ∈ rest := List.mem_iff_getElem?.2 ⟨_, hj⟩
            obtain ⟨M1, hloop, hs1, hb1⟩ :=
              ReadScatter_loop_cons_pass L rsp p0 rest k off M hp hchk
            have hsame : ∀ x ∈ rest, M1.scatter x = M.scatter x := by
              intro x hx
              rw [hs1]
              exact wrMEM_of_ne _ _ _ x (fun e => hnm (e ▸ hx))
            have hmap : rest.map M1.scatter = rest.map M.scatter := by
              rw [hs1]
              exact map_wrMEM_of_not_mem _ _ _ rest hnm
            rw [pendingBefore_cons_succ, if_pos hp, ← Nat.add_assoc] at hbad
            have key := ih (k + 1)
              (if (rspMEM L rsp k).f = true then (off + (M.scatter p0).cb) % 4294967296 else off)
              M1 i2 p (by rw [hs1]; exact pairwise_separate_wrMEM L _ _ _ rest hnm hsepr) hi
              (by rw [hsame p hpr]; exact hpm)
              (by rw [hmap, hsame p hpr]; exact hbad) j2 q (by omega) hj
            rw [hloop]
            rw [hsame q hqr] at key
            refine ⟨key.1, ?_⟩
            intro t ht
            rw [key.2 t ht, hb1]
            by_cases hf : (rspMEM L rsp k).f = true
            · rw [if_pos hf]
              unfold memcpy_to
              rw [if_neg (outside_of_separate L M.scatter p0 q t (Or.inl hp) (hsep0 q hqr) ht)]
            · rw [if_neg hf]
    · have hp2 : MEM_pending L (M.scatter p0) = false := by simpa using hp
      rw [ReadScatter_loop_cons_skip L rsp p0 rest k off M hp2]
      cases i with
      | zero =>
        simp only [List.getElem?_cons_zero, Option.some.injEq] at hi
        subst hi
        exact absurd hpm hp
      | succ i2 =>
        cases j with
        | zero => omega
        | succ j2 =>
          simp only [List.getElem?_cons_succ] at hi hj
          rw [pendingBefore_cons_succ, if_neg hp, Nat.zero_add] at hbad
          exact ih k off M i2 p hsepr hi hpm hbad j2 q (by omega) hj

/-- Two memories that hold the same bytes from `a` to `a + n` are read alike there. -/
theorem readMem_congr (b1 b2 : Nat → Nat) (a n : Nat)
    (h : ∀ t, t < n → b1 (a + t) = b2 (a + t)) : readMem b1 a n = readMem b2 a n := by
  unfold readMem
  apply List.map_congr_left
  intro t ht
  exact h t (List.mem_range.1 ht)

/-- The result of `LeechRPC_ReadScatter_Impl` in terms of the outcome of its call of
`LeechRPC_SubmitCommand`, once the sanity check of lines 316-322 has passed. -/
theorem ReadScatter_Impl_of_submit (L : Layout) (E : Env) (ctxLC : LC_CONTEXT) (w w1 : World)
    (M : Memory) (ps : List Nat) (rsp : LEECHRPC_MSG)
    (hvalid : (ps.map M.scatter).any (MEM_invalid L) = false)
    (hsub : LeechRPC_SubmitCommand L E ctxLC w (ReadScatter_request L (ps.map M.scatter))
      L.LEECHRPC_MSGTYPE_READSCATTER_RSP = (w1, true, some rsp)) :
    LeechRPC_ReadScatter_Impl L E ctxLC w M ps
      = if rsp.qwData0 ≠ ((ps.map M.scatter).filter (MEM_pending L)).length
            ∨ rsp.cb < ((ps.map M.scatter).filter (MEM_pending L)).length * L.sizeof_MEM_SCATTER
        then (w1, M)
        else (w1, ReadScatter_loop L rsp ps 0
          ((((ps.map M.scatter).filter (MEM_pending L)).length * L.sizeof_MEM_SCATTER)
            % 4294967296) M) := by
  unfold LeechRPC_ReadScatter_Impl
  rw [hvalid, hsub]
  simp only [Bool.false_eq_true, if_false]

/-- Claim C5, amended.  In a chunk whose entries are separate (no pending descriptor is
listed twice, and the buffer of a pending descriptor shares no byte with the buffer of
another entry): if, for some pending entry, the response descriptor aligned with it has
an invalid version or an address other than the requested one, then
`LeechRPC_ReadScatter_Impl` leaves the struct (done bit and all) and the buffer behind
that entry and behind every later entry of the chunk unchanged. -/
theorem ReadScatter_Impl_mismatch_frame (L : Layout) (E : Env) (ctxLC : LC_CONTEXT)
    (w w1 : World) (M : Memory) (ppMEMs : List Nat) (pMsgRsp : LEECHRPC_MSG) (i p : Nat)
    (hsub : LeechRPC_SubmitCommand L E ctxLC w (ReadScatter_request L (ppMEMs.map M.scatter))
      L.LEECHRPC_MSGTYPE_READSCATTER_RSP = (w1, true, some pMsgRsp))
    (hsep : ppMEMs.Pairwise (MEM_separate L M.scatter))
    (hi : ppMEMs[i]? = some p) (hpend : MEM_pending L (M.scatter p) = true)
    (hbad : (rspMEM L pMsgRsp (pendingBefore L (ppMEMs.map M.scatter) i)).version
        ≠ L.MEM_SCATTER_VERSION
      ∨ (rspMEM L pMsgRsp (pendingBefore L (ppMEMs.map M.scatter) i)).qwA
        ≠ (M.scatter p).qwA) :
    ∀ j q, i ≤ j → ppMEMs[j]? = some q →
      (LeechRPC_ReadScatter_Impl L E ctxLC w M ppMEMs).2.scatter q = M.scatter q
      ∧ readMem (LeechRPC_ReadScatter_Impl L E ctxLC w M ppMEMs).2.byte
            (M.scatter q).pb (M.scatter q).cb
          = readMem M.byte (M.scatter q).pb (M.scatter q).cb := by
  intro j q hij hj
  by_cases hvalid : (ppMEMs.map M.scatter).any (MEM_invalid L) = true
  · unfold LeechRPC_ReadScatter_Impl
    rw [hvalid]
    exact ⟨rfl, rfl⟩
  · have hv2 : (ppMEMs.map M.scatter).any (MEM_invalid L) = false := by simpa using hvalid
    rw [ReadScatter_Impl_of_submit L E ctxLC w w1 M ppMEMs pMsgRsp hv2 hsub]
    split_ifs
    · exact ⟨rfl, rfl⟩
    · have key := ReadScatter_loop_mismatch L pMsgRsp ppMEMs 0
        ((((ppMEMs.map M.scatter).filter (MEM_pending L)).length * L.sizeof_MEM_SCATTER)
          % 4294967296) M i p hsep hi hpend (by rw [Nat.zero_add]; exact hbad) j q hij hj
      exact ⟨key.1, readMem_congr _ _ _ _ key.2⟩

/-- An array that lists a pending descriptor twice: the pointers are `&A`, `&A`, `&C` and
the response answers the three descriptors of the request in order, all done, with the
three bytes read.  The first round sets the done bit of `A`, the second round then skips
`A` without taking a response descriptor, and the third round compares `C` with the
second response descriptor, which has the address of `A`: the loop ends and `C` stays
not done. -/
theorem ReadScatter_Impl_listed_twice :
    (LeechRPC_SubmitCommand sampleLayout sampleEnv sampleRpcCtx (sampleWorld sampleAgainRsp)
        (ReadScatter_request sampleLayout (sampleAgainPtrs.map sampleMixedMemory.scatter)) 8).2
      = (true, some sampleAgainRsp)
    ∧ sampleAgainPtrs.map sampleMixedMemory.scatter
      = [sampleMem 0x1000 1, sampleMem 0x1000 1, sampleMem 0x3000 1]
    ∧ sampleAgainRsp.qwData0 = 3
    ∧ [0, 1, 2].map (fun k => ((rspMEM sampleLayout sampleAgainRsp k).version,
          (rspMEM sampleLayout sampleAgainRsp k).qwA, (rspMEM sampleLayout sampleAgainRsp k).f))
      = [(0xc0fe0002, 0x1000, true), (0xc0fe0002, 0x1000, true), (0xc0fe0002, 0x3000, true)]
    ∧ sampleAgainRsp.cb = 3 * 128 + 3
    ∧ ¬ sampleAgainPtrs.Pairwise (MEM_separate sampleLayout sampleMixedMemory.scatter)
    ∧ ((LeechRPC_ReadScatter_Impl sampleLayout sampleEnv sampleRpcCtx
        (sampleWorld sampleAgainRsp) sampleMixedMemory sampleAgainPtrs).2.scatter 0x10000).f
      = true
    ∧ ((LeechRPC_ReadScatter_Impl sampleLayout sampleEnv sampleRpcCtx
        (sampleWorld sampleAgainRsp) sampleMixedMemory sampleAgainPtrs).2.scatter 0x10200).f
      = false := by
  decide

/-- Counterexample for C5 as stated: the array `&A`, `&B`, `&A` lists a pending descriptor
before and behind another one, and the response swaps its last two descriptors, so that
the descriptor aligned with `B` has the address of `A`.  The loop ends at `B`; but the
descriptor behind the later entry `&A` has changed: its done bit, clear before the call,
is set, and its buffer, zero before the call, holds the byte `0xCC`. -/
theorem ReadScatter_Impl_mismatch_frame_counterexample :
    (LeechRPC_SubmitCommand sampleLayout sampleEnv sampleRpcCtx (sampleWorld sampleTwiceRsp)
        (ReadScatter_request sampleLayout (sampleTwicePtrs.map sampleMixedMemory.scatter)) 8).2
      = (true, some sampleTwiceRsp)
    ∧ sampleTwicePtrs[1]? = some 0x10100
    ∧ MEM_pending sampleLayout (sampleMixedMemory.scatter 0x10100) = true
    ∧ (rspMEM sampleLayout sampleTwiceRsp
          (pendingBefore sampleLayout (sampleTwicePtrs.map sampleMixedMemory.scatter) 1)).qwA
        ≠ (sampleMixedMemory.scatter 0x10100).qwA
    ∧ sampleTwicePtrs[2]? = some 0x10000
    ∧ (sampleMixedMemory.scatter 0x10000).f = false
    ∧ readMem sampleMixedMemory.byte (sampleMixedMemory.scatter 0x10000).pb 1 = [0]
    ∧ ((LeechRPC_ReadScatter_Impl sampleLayout sampleEnv sampleRpcCtx
        (sampleWorld sampleTwiceRsp) sampleMixedMemory sampleTwicePtrs).2.scatter 0x10000).f
      = true
    ∧ readMem (LeechRPC_ReadScatter_Impl sampleLayout sampleEnv sampleRpcCtx
          (sampleWorld sampleTwiceRsp) sampleMixedMemory sampleTwicePtrs).2.byte
        (sampleMixedMemory.scatter 0x10000).pb 1 = [0xCC] := by
  decide

/-- Witness for C5: a response that swaps the first two descriptors of three small reads
through three different pointers leaves all three structs as they were, and the third
with its buffer. -/
theorem ReadScatter_Impl_mismatch_frame_witness :
    sampleMixedPtrs.map (LeechRPC_ReadScatter_Impl sampleLayout sampleEnv sampleRpcCtx
        (sampleWorld samplePermutedRsp) sampleMixedMemory sampleMixedPtrs).2.scatter
      = sampleMixed
    ∧ ((LeechRPC_ReadScatter_Impl sampleLayout sampleEnv sampleRpcCtx
          (sampleWorld samplePermutedRsp) sampleMixedMemory sampleMixedPtrs).2.scatter 0x10200
        = sampleMixedMemory.scatter 0x10200
      ∧ readMem (LeechRPC_ReadScatter_Impl sampleLayout sampleEnv sampleRpcCtx
            (sampleWorld samplePermutedRsp) sampleMixedMemory sampleMixedPtrs).2.byte
          (sampleMixedMemory.scatter 0x10200).pb (sampleMixedMemory.scatter 0x10200).cb
        = readMem sampleMixedMemory.byte
          (sampleMixedMemory.scatter 0x10200).pb (sampleMixedMemory.scatter 0x10200).cb) :=
  ⟨by decide,
   ReadScatter_Impl_mismatch_frame sampleLayout sampleEnv sampleRpcCtx
     (sampleWorld samplePermutedRsp)
     (LeechRPC_SubmitCommand sampleLayout sampleEnv sampleRpcCtx (sampleWorld samplePermutedRsp)
        (ReadScatter_request sampleLayout (sampleMixedPtrs.map sampleMixedMemory.scatter)) 8).1
     sampleMixedMemory sampleMixedPtrs samplePermutedRsp 0 0x10000
     (Prod.ext rfl (by decide)) (by decide) rfl (by decide) (by decide) 2 0x10200
     (by decide) rfl⟩

/-! ### Scatter write -/

/-- Claim C7.  If a write-scatter chunk contains a pointer to a descriptor with
`cb > 0x1000`, `LeechRPC_WriteScatter_Impl` returns with the world untouched (nothing is
handed to the compression adapter or to a transport, no scripted answer is consumed) and
with the memory of the caller, every descriptor and its done bit included, unchanged. -/
theorem WriteScatter_Impl_reject (L : Layout) (E : Env) (ctxLC : LC_CONTEXT) (w : World)
    (M : Memory) (ppMEMs : List Nat) (h : ∃ p ∈ ppMEMs, (M.scatter p).cb > 4096) :
    LeechRPC_WriteScatter_Impl L E ctxLC w M ppMEMs = (w, M) := by
  obtain ⟨p, hp, hcb⟩ := h
  have hany : (ppMEMs.map M.scatter).any (fun pMEM => decide (pMEM.cb > 0x1000)) = true := by
    rw [List.any_eq_true]
    exact ⟨M.scatter p, List.mem_map.2 ⟨p, hp, rfl⟩, by simpa using hcb⟩
  unfold LeechRPC_WriteScatter_Impl
  rw [hany]
  rfl

/-- Witness for C7: three descriptors, the second with `cb = 4097`; nothing is sent and the
three done bits are still false. -/
theorem WriteScatter_Impl_reject_witness :
    LeechRPC_WriteScatter_Impl sampleLayout sampleEnv sampleRpcCtx (sampleWorld samplePingRsp)
        sampleWrite3Memory [0x10000, 0x10100, 0x10200]
      = (sampleWorld samplePingRsp, sampleWrite3Memory)
    ∧ [0x10000, 0x10100, 0x10200].map sampleWrite3Memory.scatter = sampleWrite3
    ∧ sampleWrite3.map (fun m => m.f) = [false, false, false] :=
  ⟨WriteScatter_Impl_reject sampleLayout sampleEnv sampleRpcCtx (sampleWorld samplePingRsp)
      sampleWrite3Memory [0x10000, 0x10100, 0x10200] ⟨0x10100, by decide, by decide⟩,
   by decide, by decide⟩

theorem WriteScatter_descriptors_eq (L : Layout) (ms : List MEM_SCATTER) :
    WriteScatter_descriptors L ms = (ms.map L.imageMEM).flatten := by
  induction ms with
  | nil => rfl
  | cons m ms ih =>
    unfold WriteScatter_descriptors
    simp [ih]

theorem WriteScatter_descriptors_length (L : Layout) (ms : List MEM_SCATTER)
    (himg : ∀ m, (L.imageMEM m).length = L.sizeof_MEM_SCATTER) :
    (WriteScatter_descriptors L ms).length = ms.length * L.sizeof_MEM_SCATTER := by
  induction ms with
  | nil => simp [WriteScatter_descriptors]
  | cons m ms ih =>
    unfold WriteScatter_descriptors
    rw [List.length_append, ih, himg, List.length_cons, Nat.succ_mul]
    omega

theorem readMem_length (byte : Nat → Nat) (a n : Nat) : (readMem byte a n).length = n := by
  simp [readMem]

/-- The data of descriptor `i` sits in the packed data area right after the data of the
descriptors before it. -/
theorem WriteScatter_data_at (byte : Nat → Nat) :
    ∀ (ms : List MEM_SCATTER) (i : Nat) (m : MEM_SCATTER),
    ms[i]? = some m →
    ∃ A B, WriteScatter_data byte ms = A ++ readMem byte m.pb m.cb ++ B
      ∧ A.length = dataOffset ms i := by
  intro ms
  induction ms with
  | nil => intro i m h; simp at h
  | cons a rest ih =>
    intro i m h
    cases i with
    | zero =>
      simp only [List.getElem?_cons_zero, Option.some.injEq] at h
      subst h
      exact ⟨[], WriteScatter_data byte rest, by simp [WriteScatter_data], by simp [dataOffset]⟩
    | succ j =>
      simp only [List.getElem?_cons_succ] at h
      obtain ⟨A, B, hAB, hA⟩ := ih j m h
      refine ⟨readMem byte a.pb a.cb ++ A, B, ?_, ?_⟩
      · unfold WriteScatter_data
        rw [hAB]
        simp only [List.append_assoc]
      · simp only [List.length_append, readMem_length, hA, dataOffset, List.take_succ_cons,
          List.map_cons, List.sum_cons]

/-- The packed data area holds the bytes of all the descriptors. -/
theorem WriteScatter_data_length (byte : Nat → Nat) (ms : List MEM_SCATTER) :
    (WriteScatter_data byte ms).length = dataOffset ms ms.length := by
  induction ms with
  | nil => simp [WriteScatter_data, dataOffset]
  | cons a rest ih =>
    unfold WriteScatter_data
    rw [List.length_append, readMem_length, ih]
    simp [dataOffset]

/-- Behind the packed data the payload of the request is the block as it was allocated. -/
theorem WriteScatter_request_rest (L : Layout) (E : Env) (byte : Nat → Nat)
    (ms : List MEM_SCATTER) (himg : ∀ m, (L.imageMEM m).length = L.sizeof_MEM_SCATTER) :
    (WriteScatter_request L E byte ms).pb.drop
        (ms.length * L.sizeof_MEM_SCATTER + dataOffset ms ms.length)
      = (freshBlock E (WriteScatter_request L E byte ms).cb).drop
        (ms.length * L.sizeof_MEM_SCATTER + dataOffset ms ms.length) := by
  have hlen : (WriteScatter_descriptors L ms ++ WriteScatter_data byte ms).length
      = ms.length * L.sizeof_MEM_SCATTER + dataOffset ms ms.length := by
    rw [List.length_append, WriteScatter_descriptors_length L ms himg, WriteScatter_data_length]
  show (WriteScatter_descriptors L ms ++ WriteScatter_data byte ms
      ++ (freshBlock E _).drop _).drop _ = _
  rw [hlen, ← hlen, List.drop_left]
  rfl

/-- Reading the middle part of a buffer. -/
theorem readBytes_mid (A X B : Bytes) : readBytes (A ++ X ++ B) A.length X.length = X := by
  unfold readBytes
  simp

/-- When the length check of line 391 passes, the world after `LeechRPC_WriteScatter_Impl`
is the world after its one call of `LeechRPC_SubmitCommand`. -/
theorem WriteScatter_Impl_world (L : Layout) (E : Env) (ctxLC : LC_CONTEXT) (w : World)
    (M : Memory) (ps : List Nat)
    (h : (ps.map M.scatter).any (fun pMEM => decide (pMEM.cb > 0x1000)) = false) :
    (LeechRPC_WriteScatter_Impl L E ctxLC w M ps).1
      = (LeechRPC_SubmitCommand L E ctxLC w (WriteScatter_request L E M.byte (ps.map M.scatter))
          L.LEECHRPC_MSGTYPE_WRITESCATTER_RSP).1 := by
  unfold LeechRPC_WriteScatter_Impl
  rw [h]
  simp only [Bool.false_eq_true, if_false]
  cases hs : LeechRPC_SubmitCommand L E ctxLC w
      (WriteScatter_request L E M.byte (ps.map M.scatter))
      L.LEECHRPC_MSGTYPE_WRITESCATTER_RSP with
  | mk w1 r =>
    obtain ⟨ok, pp⟩ := r
    cases ok <;> cases pp <;> simp only []
    all_goals first | rfl | (split_ifs <;> rfl)

/-- Claim C8, amended.  In an open session, for a write-scatter chunk of `N <= 4096`
pointers to descriptors with `cb <= 0x1000` each, whatever pointers the array holds:
`LeechRPC_WriteScatter_Impl` hands exactly one `WRITESCATTER_REQ` to the request engine,
with `qwData[0] = N` and `cb = N * (sizeof(MEM_SCATTER) + 0x1000)`; its payload starts with
the images of the `N` descriptors in input order, and the write data of descriptor `i`,
the `cb_i` bytes of the caller's memory at its `pb`, are the `cb_i` bytes at payload
offset `N * sizeof(MEM_SCATTER)` plus the sum of the lengths of the descriptors before it:
the data are packed back to back, and behind the data of the last descriptor the payload
is the block as `LocalAlloc` returned it. -/
theorem WriteScatter_Impl_request (L : Layout) (E : Env) (ctxLC : LC_CONTEXT)
    (ctx : LEECHRPC_CLIENT_CONTEXT) (w : World) (M : Memory) (ppMEMs : List Nat)
    (hk : (requestKinds L).Nodup) (hdev : ctxLC.hDevice = some ctx)
    (himg : ∀ m, (L.imageMEM m).length = L.sizeof_MEM_SCATTER)
    (hchunk : ppMEMs.length ≤ 4096)
    (hsz : 4096 * (L.sizeof_MEM_SCATTER + 4096) < 4294967296)
    (hlen : ∀ p ∈ ppMEMs, (M.scatter p).cb ≤ 4096) :
    (∃ tail, (LeechRPC_WriteScatter_Impl L E ctxLC w M ppMEMs).1.trace
        = w.trace
          ++ binRequestEvents L E ctxLC ctx
              (WriteScatter_request L E M.byte (ppMEMs.map M.scatter))
          ++ tail
      ∧ ∀ e ∈ tail, e.isDecompress = true)
    ∧ (WriteScatter_request L E M.byte (ppMEMs.map M.scatter)).tpMsg
        = L.LEECHRPC_MSGTYPE_WRITESCATTER_REQ
    ∧ (WriteScatter_request L E M.byte (ppMEMs.map M.scatter)).qwData0 = ppMEMs.length
    ∧ (WriteScatter_request L E M.byte (ppMEMs.map M.scatter)).cb
        = ppMEMs.length * (L.sizeof_MEM_SCATTER + 4096)
    ∧ (WriteScatter_request L E M.byte (ppMEMs.map M.scatter)).pb.take
          (ppMEMs.length * L.sizeof_MEM_SCATTER)
        = ((ppMEMs.map M.scatter).map L.imageMEM).flatten
    ∧ (WriteScatter_request L E M.byte (ppMEMs.map M.scatter)).pb.drop
          (ppMEMs.length * L.sizeof_MEM_SCATTER
            + dataOffset (ppMEMs.map M.scatter) ppMEMs.length)
        = (freshBlock E (ppMEMs.length * (L.sizeof_MEM_SCATTER + 4096))).drop
          (ppMEMs.length * L.sizeof_MEM_SCATTER
            + dataOffset (ppMEMs.map M.scatter) ppMEMs.length)
    ∧ ∀ i p, ppMEMs[i]? = some p →
        readBytes (WriteScatter_request L E M.byte (ppMEMs.map M.scatter)).pb
          (ppMEMs.length * L.sizeof_MEM_SCATTER + dataOffset (ppMEMs.map M.scatter) i)
          (M.scatter p).cb
        = readMem M.byte (M.scatter p).pb (M.scatter p).cb := by
  have hany : (ppMEMs.map M.scatter).any (fun pMEM => decide (pMEM.cb > 0x1000)) = false := by
    rw [List.any_eq_false]
    intro m hm
    obtain ⟨p, hp, rfl⟩ := List.mem_map.1 hm
    have := hlen p hp
    simp only [decide_eq_true_eq]
    omega
  have hD := WriteScatter_descriptors_length L (ppMEMs.map M.scatter) himg
  rw [List.length_map] at hD
  have hcbv : (WriteScatter_request L E M.byte (ppMEMs.map M.scatter)).cb
      = ppMEMs.length * (L.sizeof_MEM_SCATTER + 4096) := by
    show ((ppMEMs.map M.scatter).length * (L.sizeof_MEM_SCATTER + 0x1000)) % 4294967296 = _
    rw [List.length_map]
    apply Nat.mod_eq_of_lt
    calc ppMEMs.length * (L.sizeof_MEM_SCATTER + 4096)
        ≤ 4096 * (L.sizeof_MEM_SCATTER + 4096) := Nat.mul_le_mul_right _ hchunk
      _ < 4294967296 := hsz
  refine ⟨?_, rfl, ?_, hcbv, ?_, ?_, ?_⟩
  · rw [WriteScatter_Impl_world L E ctxLC w M ppMEMs hany]
    exact SubmitCommand_trace_bin L E ctxLC ctx w _ _ hk hdev (Or.inr (Or.inl rfl))
  · show (ppMEMs.map M.scatter).length = _
    rw [List.length_map]
  · show (WriteScatter_descriptors L (ppMEMs.map M.scatter)
        ++ WriteScatter_data M.byte (ppMEMs.map M.scatter) ++ _).take _ = _
    rw [List.append_assoc, ← hD, List.take_left', WriteScatter_descriptors_eq]
    rfl
  · have hrest := WriteScatter_request_rest L E M.byte (ppMEMs.map M.scatter) himg
    rw [List.length_map, hcbv] at hrest
    exact hrest
  · intro i p hi
    have hi2 : (ppMEMs.map M.scatter)[i]? = some (M.scatter p) := by
      rw [List.getElem?_map, hi]
      rfl
    obtain ⟨A, B, hAB, hA⟩ := WriteScatter_data_at M.byte (ppMEMs.map M.scatter) i _ hi2
    show readBytes (WriteScatter_descriptors L (ppMEMs.map M.scatter)
        ++ WriteScatter_data M.byte (ppMEMs.map M.scatter) ++ _) _ _ = _
    rw [hAB]
    generalize List.drop _ (freshBlock E _) = J
    have := readBytes_mid (WriteScatter_descriptors L (ppMEMs.map M.scatter) ++ A)
      (readMem M.byte (M.scatter p).pb (M.scatter p).cb) (B ++ J)
    simp only [List.length_append, hD, hA, readMem_length, List.append_assoc] at this ⊢
    exact this

/-- Counterexample for C8 as stated: two writes of one byte each (`0xAA`, then `0xBB`).  The
byte of the second descriptor is not at payload offset `2 * 128 + 1 * 4096`, the start
of a slot of its own, but at offset `2 * 128 + 1`, right after the byte of the first. -/
theorem WriteScatter_slot_counterexample :
    (∀ m ∈ sampleWrite2, m.cb ≤ 4096)
    ∧ [0x10000, 0x10100].map sampleWrite2Memory.scatter = sampleWrite2
    ∧ readMem sampleWrite2Memory.byte (sampleWriteMem 0x2000 [0xBB]).pb 1 = [0xBB]
    ∧ readBytes (WriteScatter_request sampleLayout sampleEnv sampleWrite2Memory.byte
        ([0x10000, 0x10100].map sampleWrite2Memory.scatter)).pb (2 * 128 + 1 * 4096) 1 ≠ [0xBB]
    ∧ readBytes (WriteScatter_request sampleLayout sampleEnv sampleWrite2Memory.byte
        ([0x10000, 0x10100].map sampleWrite2Memory.scatter)).pb (2 * 128 + 1) 1 = [0xBB] := by
  decide

/-- Witness for C8: for the two one-byte writes, `cb = 2 * (128 + 4096)` and the byte of the
second descriptor is read back at the packed offset. -/
theorem WriteScatter_Impl_request_witness :
    (WriteScatter_request sampleLayout sampleEnv sampleWrite2Memory.byte
        ([0x10000, 0x10100].map sampleWrite2Memory.scatter)).cb
      = [0x10000, 0x10100].length * (sampleLayout.sizeof_MEM_SCATTER + 4096)
    ∧ readBytes (WriteScatter_request sampleLayout sampleEnv sampleWrite2Memory.byte
          ([0x10000, 0x10100].map sampleWrite2Memory.scatter)).pb
        ([0x10000, 0x10100].length * sampleLayout.sizeof_MEM_SCATTER
          + dataOffset ([0x10000, 0x10100].map sampleWrite2Memory.scatter) 1)
        (sampleWrite2Memory.scatter 0x10100).cb
      = readMem sampleWrite2Memory.byte (sampleWrite2Memory.scatter 0x10100).pb
          (sampleWrite2Memory.scatter 0x10100).cb
    ∧ readMem sampleWrite2Memory.byte (sampleWrite2Memory.scatter 0x10100).pb
          (sampleWrite2Memory.scatter 0x10100).cb = [0xBB] :=
  have h := WriteScatter_Impl_request sampleLayout sampleEnv sampleRpcCtx { fIsRpc := true }
    (sampleWorld samplePingRsp) sampleWrite2Memory [0x10000, 0x10100] (by decide) rfl
    (fun m => by simp [sampleLayout, bytesDWORD, bytesQWORD])
    (by decide) (by decide) (by decide)
  ⟨h.2.2.2.1, h.2.2.2.2.2.2 1 0x10100 rfl, by decide⟩

/-! ### The chunker -/

theorem slices_nil : slices [] = [] := by
  simp [slices]

theorem slices_of_ne_nil (ms : List Nat) (h : ms.length ≠ 0) :
    slices ms = ms.take 4096 :: slices (ms.drop 4096) := by
  unfold slices
  have hc : (ms.length + 4095) / 4096 = ((ms.drop 4096).length + 4095) / 4096 + 1 := by
    rw [List.length_drop]
    omega
  rw [hc, List.range_succ_eq_map, List.map_cons, List.map_map]
  have h1 : sliceAt ms 0 = ms.take 4096 := by simp [sliceAt]
  have h2 : (sliceAt ms ∘ Nat.succ) = sliceAt (ms.drop 4096) := by
    funext j
    simp only [Function.comp, sliceAt, List.drop_drop]
    have e1 : 4096 * j.succ = 4096 + 4096 * j := by omega
    rw [e1]
  rw [h1, h2]

theorem take_min_chunk (ms : List Nat) :
    ms.take (min ms.length 0x1000) = ms.take 4096 := by
  by_cases h : ms.length ≤ 4096
  · rw [Nat.min_eq_left h, List.take_of_length_le (Nat.le_refl _), List.take_of_length_le h]
  · rw [Nat.min_eq_right (by omega)]

theorem drop_min_chunk (ms : List Nat) :
    ms.drop (min ms.length 0x1000) = ms.drop 4096 := by
  by_cases h : ms.length ≤ 4096
  · rw [Nat.min_eq_left h, List.drop_of_length_le (Nat.le_refl _), List.drop_of_length_le h]
  · rw [Nat.min_eq_right (by omega)]

/-- The loop of `LeechRPC_ReadScatter` runs the per-chunk routine on the slices, in order. -/
theorem ReadScatter_eq_runChunks (L : Layout) (E : Env) (ctxLC : LC_CONTEXT) :
    ∀ (n : Nat) (ms : List Nat) (w : World) (M : Memory), ms.length = n →
      LeechRPC_ReadScatter L E ctxLC w M ms
        = runChunks (LeechRPC_ReadScatter_Impl L E ctxLC) w M (slices ms) := by
  intro n
  induction n using Nat.strong_induction_on with
  | _ n ih =>
    intro ms w M hn
    unfold LeechRPC_ReadScatter
    by_cases h0 : ms.length = 0
    · rw [dif_pos h0]
      have : ms = [] := List.length_eq_zero.1 h0
      subst this
      rw [slices_nil]
      rfl
    · rw [dif_neg h0]
      simp only []
      rw [slices_of_ne_nil ms h0, take_min_chunk, drop_min_chunk]
      have hlt : (ms.drop 4096).length < n := by
        rw [List.length_drop]
        omega
      rw [ih _ hlt (ms.drop 4096) _ _ rfl]
      rfl

/-- The loop of `LeechRPC_WriteScatter` runs the per-chunk routine on the slices, in order. -/
theorem WriteScatter_eq_runChunks (L : Layout) (E : Env) (ctxLC : LC_CONTEXT) :
    ∀ (n : Nat) (ms : List Nat) (w : World) (M : Memory), ms.length = n →
      LeechRPC_WriteScatter L E ctxLC w M ms
        = runChunks (LeechRPC_WriteScatter_Impl L E ctxLC) w M (slices ms) := by
  intro n
  induction n using Nat.strong_induction_on with
  | _ n ih =>
    intro ms w M hn
    unfold LeechRPC_WriteScatter
    by_cases h0 : ms.length = 0
    · rw [dif_pos h0]
      have : ms = [] := List.length_eq_zero.1 h0
      subst this
      rw [slices_nil]
      rfl
    · rw [dif_neg h0]
      simp only []
      rw [slices_of_ne_nil ms h0, take_min_chunk, drop_min_chunk]
      have hlt : (ms.drop 4096).length < n := by
        rw [List.length_drop]
        omega
      rw [ih _ hlt (ms.drop 4096) _ _ rfl]
      rfl

/-- The slices of a list, put end to end, are the list. -/
theorem slices_flatten : ∀ (n : Nat) (ms : List Nat), ms.length = n →
    (slices ms).flatten = ms := by
  intro n
  induction n using Nat.strong_induction_on with
  | _ n ih =>
    intro ms hn
    by_cases h0 : ms.length = 0
    · have : ms = [] := List.length_eq_zero.1 h0
      subst this
      simp [slices_nil]
    · rw [slices_of_ne_nil ms h0, List.flatten_cons,
        ih _ (by rw [List.length_drop]; omega) (ms.drop 4096) rfl, List.take_append_drop]

/-- The length of the `j`-th slice. -/
theorem sliceAt_length (ms : List Nat) (j : Nat) :
    (sliceAt ms j).length = min 4096 (ms.length - 4096 * j) := by
  simp [sliceAt]

/-- Claim C9.  For an array of `N` pointers, `LeechRPC_ReadScatter` and
`LeechRPC_WriteScatter` (total functions: the loops terminate) run their per-chunk routine
once on each of the `ceil(N / 4096)` slices, in order and whatever the earlier runs did
(each run starts in the world and the memory the run before it left); the slices are
consecutive and disjoint (put end to end they are the input array), each has at least
one and at most 4096 pointers, and all but the last have exactly 4096. -/
theorem Scatter_chunking (L : Layout) (E : Env) (ctxLC : LC_CONTEXT) (w : World)
    (M : Memory) (ppMEMs : List Nat) :
    LeechRPC_ReadScatter L E ctxLC w M ppMEMs
        = runChunks (LeechRPC_ReadScatter_Impl L E ctxLC) w M (slices ppMEMs)
    ∧ LeechRPC_WriteScatter L E ctxLC w M ppMEMs
        = runChunks (LeechRPC_WriteScatter_Impl L E ctxLC) w M (slices ppMEMs)
    ∧ (slices ppMEMs).length = (ppMEMs.length + 4095) / 4096
    ∧ (slices ppMEMs).flatten = ppMEMs
    ∧ (∀ j, j < (slices ppMEMs).length →
        (slices ppMEMs)[j]? = some ((ppMEMs.drop (4096 * j)).take 4096)
        ∧ 1 ≤ ((ppMEMs.drop (4096 * j)).take 4096).length
        ∧ ((ppMEMs.drop (4096 * j)).take 4096).length ≤ 4096
        ∧ (j + 1 < (slices ppMEMs).length →
            ((ppMEMs.drop (4096 * j)).take 4096).length = 4096)) := by
  have hlen : (slices ppMEMs).length = (ppMEMs.length + 4095) / 4096 := by
    simp [slices]
  refine ⟨ReadScatter_eq_runChunks L E ctxLC _ ppMEMs w M rfl,
    WriteScatter_eq_runChunks L E ctxLC _ ppMEMs w M rfl, hlen, slices_flatten _ ppMEMs rfl, ?_⟩
  intro j hj
  rw [hlen] at hj ⊢
  have hs := sliceAt_length ppMEMs j
  unfold sliceAt at hs
  refine ⟨?_, ?_, ?_, ?_⟩
  · unfold slices
    rw [List.getElem?_map, List.getElem?_range hj]
    rfl
  · omega
  · omega
  · intro hj2
    omega

/-! ### Agent commands -/

/-- The payload of the command request is the `cbDataIn` input bytes. -/
theorem Command_request_pb (L : Layout) (E : Env) (fCMD cbDataIn : Nat) (d : Bytes) :
    (Command_request L E fCMD cbDataIn (some d)).pb = readBytes d 0 cbDataIn := by
  show memcpy (freshBlock E cbDataIn) d cbDataIn = _
  unfold memcpy freshBlock
  rw [List.drop_of_length_le (by rw [readBytes_length]), List.append_nil]

/-- A null input with a non-zero length: `LeechRPC_Command` returns FALSE at once, with the
world and both out-parameters as they were. -/
theorem Command_null_input (L : Layout) (E : Env) (ctxLC : LC_CONTEXT) (w : World)
    (fCMD cbDataIn : Nat) (ppbDataOut : Option (Option Bytes)) (pcbDataOut : Option Nat)
    (h : cbDataIn ≠ 0) :
    (LeechRPC_Command L E ctxLC w fCMD cbDataIn none ppbDataOut pcbDataOut).world = w
    ∧ (LeechRPC_Command L E ctxLC w fCMD cbDataIn none ppbDataOut pcbDataOut).result = false
    ∧ (LeechRPC_Command L E ctxLC w fCMD cbDataIn none ppbDataOut pcbDataOut).pbDataOut
        = ppbDataOut
    ∧ (LeechRPC_Command L E ctxLC w fCMD cbDataIn none ppbDataOut pcbDataOut).cbDataOut
        = pcbDataOut := by
  unfold LeechRPC_Command
  rw [if_pos ⟨rfl, h⟩]
  exact ⟨rfl, rfl, rfl, rfl⟩

/-- Past the null-input test, `LeechRPC_Command` submits one `COMMAND_REQ` with
`qwData[0] = fCMD` and `cb = cbDataIn`; it succeeds only if the request engine succeeded
and, for the three VFS commands, the response passed the check of untrusted VFS responses;
on success the outputs are `cb` and a copy of the `cb` payload bytes of the response; on
failure the length reported through `pcbDataOut` is 0. -/
theorem Command_after_submit (L : Layout) (E : Env) (ctxLC : LC_CONTEXT) (w : World)
    (fCMD cbDataIn : Nat) (pbDataIn : Option Bytes) (ppbDataOut : Option (Option Bytes))
    (pcbDataOut : Option Nat) (hin : ¬ (pbDataIn = none ∧ cbDataIn ≠ 0)) :
    (Command_request L E fCMD cbDataIn pbDataIn).tpMsg = L.LEECHRPC_MSGTYPE_COMMAND_REQ
    ∧ (Command_request L E fCMD cbDataIn pbDataIn).qwData0 = fCMD
    ∧ (Command_request L E fCMD cbDataIn pbDataIn).cb = cbDataIn
    ∧ (LeechRPC_Command L E ctxLC w fCMD cbDataIn pbDataIn ppbDataOut pcbDataOut).world
        = (LeechRPC_SubmitCommand L E ctxLC w (Command_request L E fCMD cbDataIn pbDataIn)
            L.LEECHRPC_MSGTYPE_COMMAND_RSP).1
    ∧ ((LeechRPC_Command L E ctxLC w fCMD cbDataIn pbDataIn ppbDataOut pcbDataOut).result = true →
        ∃ rsp out, (LeechRPC_SubmitCommand L E ctxLC w
              (Command_request L E fCMD cbDataIn pbDataIn) L.LEECHRPC_MSGTYPE_COMMAND_RSP).2
            = (true, some rsp)
          ∧ ((fCMD = L.LC_CMD_AGENT_VFS_LIST ∨ fCMD = L.LC_CMD_AGENT_VFS_READ
                ∨ fCMD = L.LC_CMD_AGENT_VFS_WRITE) →
              LeechRPC_Command_VerifyUntrustedVfsRsp L fCMD rsp = (true, out))
          ∧ (¬ (fCMD = L.LC_CMD_AGENT_VFS_LIST ∨ fCMD = L.LC_CMD_AGENT_VFS_READ
                ∨ fCMD = L.LC_CMD_AGENT_VFS_WRITE) → out = rsp)
          ∧ (LeechRPC_Command L E ctxLC w fCMD cbDataIn pbDataIn ppbDataOut pcbDataOut).cbDataOut
              = pcbDataOut.map (fun _ => out.cb)
          ∧ (LeechRPC_Command L E ctxLC w fCMD cbDataIn pbDataIn ppbDataOut pcbDataOut).pbDataOut
              = ppbDataOut.map (fun _ => some (readBytes out.pb 0 out.cb)))
    ∧ ((LeechRPC_Command L E ctxLC w fCMD cbDataIn pbDataIn ppbDataOut pcbDataOut).result
          = false →
        (LeechRPC_Command L E ctxLC w fCMD cbDataIn pbDataIn ppbDataOut pcbDataOut).cbDataOut
          = pcbDataOut.map (fun _ => 0)) := by
  refine ⟨rfl, rfl, rfl, ?_⟩
  unfold LeechRPC_Command
  rw [if_neg hin]
  simp only []
  cases hs : LeechRPC_SubmitCommand L E ctxLC w (Command_request L E fCMD cbDataIn pbDataIn)
      L.LEECHRPC_MSGTYPE_COMMAND_RSP with
  | mk w1 r =>
    obtain ⟨ok, pp⟩ := r
    cases ok with
    | false => exact ⟨rfl, fun h => absurd h (by simp), fun _ => rfl⟩
    | true =>
      cases pp with
      | none => exact ⟨rfl, fun h => absurd h (by simp), fun _ => rfl⟩
      | some rsp =>
        simp only []
        by_cases hv : fCMD = L.LC_CMD_AGENT_VFS_LIST ∨ fCMD = L.LC_CMD_AGENT_VFS_READ
            ∨ fCMD = L.LC_CMD_AGENT_VFS_WRITE
        · rw [if_pos hv]
          cases hver : LeechRPC_Command_VerifyUntrustedVfsRsp L fCMD rsp with
          | mk b out =>
            cases b with
            | false => exact ⟨rfl, fun h => absurd h (by simp), fun _ => rfl⟩
            | true =>
              refine ⟨rfl, fun _ => ⟨rsp, out, rfl, fun _ => hver, fun h => absurd hv h, rfl, rfl⟩,
                fun h => absurd h (by simp)⟩
        · rw [if_neg hv]
          refine ⟨rfl, fun _ => ⟨rsp, rsp, rfl, fun h => absurd h hv, fun _ => rfl, rfl, rfl⟩,
            fun h => absurd h (by simp)⟩

/-- Claim C10, at the failing input.  A call with a null input pointer, `cbDataIn = 1` and
`pcbDataOut` pointing to a variable that holds 7 fails without sending anything, and the
variable still holds 7: the early return of line 531 is taken before the statement of
line 556 that reports the length 0 on failure. -/
theorem Command_null_input_length_kept :
    (LeechRPC_Command sampleLayout sampleEnv sampleRpcCtx (sampleWorld samplePingRsp) 0 1 none
        none (some 7)).result = false
    ∧ (LeechRPC_Command sampleLayout sampleEnv sampleRpcCtx (sampleWorld samplePingRsp) 0 1 none
        none (some 7)).cbDataOut = some 7
    ∧ (LeechRPC_Command sampleLayout sampleEnv sampleRpcCtx (sampleWorld samplePingRsp) 0 1 none
        none (some 7)).world = sampleWorld samplePingRsp := by
  decide

/-! ### The read and write checks of untrusted VFS responses -/

/-- The three common checks of `LeechRPC_Command_VerifyUntrustedVfsRsp`: when one of them
fails the function returns FALSE whatever the command. -/
theorem VerifyUntrustedVfsRsp_of_not_common (L : Layout) (fCMD : Nat) (m : LEECHRPC_MSG)
    (h : ¬ VfsCommonOK L m.cb m.pb) :
    (LeechRPC_Command_VerifyUntrustedVfsRsp L fCMD m).1 = false := by
  unfold LeechRPC_Command_VerifyUntrustedVfsRsp
  unfold VfsCommonOK at h
  by_cases h1 : m.cb < L.sizeof_LC_CMD_AGENT_VFS_RSP
  · rw [if_pos h1]
  rw [if_neg h1]
  simp only []
  by_cases h2 : rdDWORD m.pb L.VFS_RSP_dwVersion ≠ L.LC_CMD_AGENT_VFS_RSP_VERSION
  · rw [if_pos h2]
  rw [if_neg h2]
  by_cases h3 : m.cb ≠ L.sizeof_LC_CMD_AGENT_VFS_RSP + rdDWORD m.pb L.VFS_RSP_cb
  · rw [if_pos h3]
  exact absurd ⟨by omega, not_not.1 h2, not_not.1 h3⟩ h

/-- Past the three common checks, the function is its command-specific part. -/
theorem VerifyUntrustedVfsRsp_of_common (L : Layout) (fCMD : Nat) (m : LEECHRPC_MSG)
    (h : VfsCommonOK L m.cb m.pb) :
    (fCMD = L.LC_CMD_AGENT_VFS_READ →
      (LeechRPC_Command_VerifyUntrustedVfsRsp L fCMD m).1
        = decide (rdDWORD m.pb L.VFS_RSP_cbReadWrite = rdDWORD m.pb L.VFS_RSP_cb))
    ∧ (fCMD ≠ L.LC_CMD_AGENT_VFS_READ → fCMD = L.LC_CMD_AGENT_VFS_WRITE →
      (LeechRPC_Command_VerifyUntrustedVfsRsp L fCMD m).1
        = decide (0 = rdDWORD m.pb L.VFS_RSP_cb))
    ∧ (fCMD ≠ L.LC_CMD_AGENT_VFS_READ → fCMD ≠ L.LC_CMD_AGENT_VFS_WRITE →
        fCMD ≠ L.LC_CMD_AGENT_VFS_LIST →
      (LeechRPC_Command_VerifyUntrustedVfsRsp L fCMD m).1 = false) := by
  obtain ⟨h1, h2, h3⟩ := h
  unfold LeechRPC_Command_VerifyUntrustedVfsRsp
  rw [if_neg (by omega)]
  simp only []
  rw [if_neg (not_not.2 h2), if_neg (not_not.2 h3)]
  refine ⟨fun hr => ?_, fun hr hw => ?_, fun hr hw hl => ?_⟩
  · rw [if_pos hr]
  · rw [if_neg hr, if_pos hw]
  · rw [if_neg hr, if_neg hw, if_neg hl]

/-- Claim C11.  `LeechRPC_Command_VerifyUntrustedVfsRsp` returns true for `VFS_READ` if and
only if the three common checks hold (`cb` covers the response header, the version is
right, `cb` is header plus `inner_cb`) and `cbReadWrite == inner_cb`; for `VFS_WRITE` (a
code distinct from the read code) if and only if the three common checks hold and
`inner_cb == 0`; for every command other than list, read and write it returns false. -/
theorem VerifyUntrustedVfsRsp_read_write_iff (L : Layout) (pMsgRsp : LEECHRPC_MSG)
    (hrw : L.LC_CMD_AGENT_VFS_WRITE ≠ L.LC_CMD_AGENT_VFS_READ) :
    ((LeechRPC_Command_VerifyUntrustedVfsRsp L L.LC_CMD_AGENT_VFS_READ pMsgRsp).1 = true
      ↔ (VfsCommonOK L pMsgRsp.cb pMsgRsp.pb
          ∧ rdDWORD pMsgRsp.pb L.VFS_RSP_cbReadWrite = rdDWORD pMsgRsp.pb L.VFS_RSP_cb))
    ∧ ((LeechRPC_Command_VerifyUntrustedVfsRsp L L.LC_CMD_AGENT_VFS_WRITE pMsgRsp).1 = true
      ↔ (VfsCommonOK L pMsgRsp.cb pMsgRsp.pb ∧ rdDWORD pMsgRsp.pb L.VFS_RSP_cb = 0))
    ∧ (∀ fCMD, fCMD ≠ L.LC_CMD_AGENT_VFS_LIST → fCMD ≠ L.LC_CMD_AGENT_VFS_READ →
        fCMD ≠ L.LC_CMD_AGENT_VFS_WRITE →
        (LeechRPC_Command_VerifyUntrustedVfsRsp L fCMD pMsgRsp).1 = false) := by
  by_cases hc : VfsCommonOK L pMsgRsp.cb pMsgRsp.pb
  · refine ⟨?_, ?_, ?_⟩
    · rw [(VerifyUntrustedVfsRsp_of_common L _ pMsgRsp hc).1 rfl]
      simp only [decide_eq_true_eq]
      exact ⟨fun h => ⟨hc, h⟩, fun h => h.2⟩
    · rw [(VerifyUntrustedVfsRsp_of_common L _ pMsgRsp hc).2.1 hrw rfl]
      simp only [decide_eq_true_eq]
      exact ⟨fun h => ⟨hc, h.symm⟩, fun h => h.2.symm⟩
    · intro fCMD hl hr hw
      exact (VerifyUntrustedVfsRsp_of_common L fCMD pMsgRsp hc).2.2 hr hw hl
  · refine ⟨?_, ?_, ?_⟩
    · rw [VerifyUntrustedVfsRsp_of_not_common L _ pMsgRsp hc]
      exact ⟨fun h => absurd h (by simp), fun h => absurd h.1 hc⟩
    · rw [VerifyUntrustedVfsRsp_of_not_common L _ pMsgRsp hc]
      exact ⟨fun h => absurd h (by simp), fun h => absurd h.1 hc⟩
    · intro fCMD _ _ _
      exact VerifyUntrustedVfsRsp_of_not_common L fCMD pMsgRsp hc

/-- Witness for C11: the sample read response is accepted as a read response, the sample
write response as a write response, and the read response is rejected for the command
code 0. -/
theorem VerifyUntrustedVfsRsp_read_write_iff_witness :
    (LeechRPC_Command_VerifyUntrustedVfsRsp sampleLayout
        sampleLayout.LC_CMD_AGENT_VFS_READ sampleVfsReadRsp).1 = true
    ∧ (LeechRPC_Command_VerifyUntrustedVfsRsp sampleLayout
        sampleLayout.LC_CMD_AGENT_VFS_WRITE sampleVfsWriteRsp).1 = true
    ∧ (VfsCommonOK sampleLayout sampleVfsReadRsp.cb sampleVfsReadRsp.pb
        ∧ rdDWORD sampleVfsReadRsp.pb sampleLayout.VFS_RSP_cbReadWrite
            = rdDWORD sampleVfsReadRsp.pb sampleLayout.VFS_RSP_cb)
    ∧ (LeechRPC_Command_VerifyUntrustedVfsRsp sampleLayout 0 sampleVfsReadRsp).1 = false :=
  ⟨by decide, by decide,
   (VerifyUntrustedVfsRsp_read_write_iff sampleLayout sampleVfsReadRsp (by decide)).1.1
     (by decide),
   (VerifyUntrustedVfsRsp_read_write_iff sampleLayout sampleVfsReadRsp (by decide)).2.2 0
     (by decide) (by decide) (by decide)⟩

/-! ### Message types outside the request switch -/

/-- Claim C12.  For a message whose type is none of the nine request types (a response
type, or a value outside the enumeration), `LeechRPC_SubmitCommand` returns FALSE with the
world as it was: the compression adapter and the transports are not called, no scripted
answer is consumed, nothing is added to the trace. -/
theorem SubmitCommand_unknown_kind (L : Layout) (E : Env) (ctxLC : LC_CONTEXT) (w : World)
    (pMsgIn : LEECHRPC_MSG) (tpMsgRsp : Nat) (h : pMsgIn.tpMsg ∉ requestKinds L) :
    LeechRPC_SubmitCommand L E ctxLC w pMsgIn tpMsgRsp = (w, false, none) := by
  simp only [requestKinds, List.mem_cons, List.mem_singleton, List.not_mem_nil, or_false,
    not_or] at h
  obtain ⟨h1, h2, h3, h4, h5, h6, h7, h8, h9⟩ := h
  have hp : LeechRPC_SubmitCommand_prepare L E ctxLC w pMsgIn = none := by
    unfold LeechRPC_SubmitCommand_prepare
    simp only []
    rw [if_neg (by rintro (x | x | x) <;> contradiction), if_neg h4,
      if_neg (by rintro (x | x) <;> contradiction),
      if_neg (by rintro (x | x | x) <;> contradiction)]
  unfold LeechRPC_SubmitCommand LeechRPC_SubmitCommand_send
  rw [hp]

/-- Witness for C12: in the sample session a message of type `PING_RSP` and a message of
type 99 are both refused with the scripted answer still pending. -/
theorem SubmitCommand_unknown_kind_witness :
    LeechRPC_SubmitCommand sampleLayout sampleEnv sampleRpcCtx (sampleWorld samplePingRsp)
        { tpMsg := 2 } 2 = (sampleWorld samplePingRsp, false, none)
    ∧ LeechRPC_SubmitCommand sampleLayout sampleEnv sampleRpcCtx (sampleWorld samplePingRsp)
        { tpMsg := 99 } 2 = (sampleWorld samplePingRsp, false, none) :=
  ⟨SubmitCommand_unknown_kind sampleLayout sampleEnv sampleRpcCtx (sampleWorld samplePingRsp)
      { tpMsg := 2 } 2 (by decide),
   SubmitCommand_unknown_kind sampleLayout sampleEnv sampleRpcCtx (sampleWorld samplePingRsp)
      { tpMsg := 99 } 2 (by decide)⟩

/-! ### The pipe transport -/

/-- The loop of `Util_GetBytesPipe` takes its bytes from the front of the stream, never
more than `cb`, and reports success exactly when it has `cb` of them. -/
theorem GetBytesPipe_spec (cb : Nat) : ∀ (rd : List Bytes) (acc : Bytes), acc.length ≤ cb →
    acc ++ rd.flatten
        = (Util_GetBytesPipe cb rd acc).2.1 ++ (Util_GetBytesPipe cb rd acc).2.2.flatten
    ∧ ((Util_GetBytesPipe cb rd acc).1 = true ↔ (Util_GetBytesPipe cb rd acc).2.1.length = cb)
    ∧ (Util_GetBytesPipe cb rd acc).2.1.length ≤ cb := by
  intro rd
  induction rd with
  | nil =>
    intro acc h
    unfold Util_GetBytesPipe
    refine ⟨rfl, ?_, h⟩
    simp only [decide_eq_true_eq]
    exact ⟨fun x => x.symm, fun x => x.symm⟩
  | cons d rest ih =>
    intro acc h
    unfold Util_GetBytesPipe
    by_cases h1 : acc.length < cb
    · rw [if_pos h1]
      by_cases h2 : d.length ≤ cb - acc.length
      · rw [if_pos h2]
        have := ih (acc ++ d) (by rw [List.length_append]; omega)
        rw [List.flatten_cons, ← List.append_assoc]
        exact this
      · rw [if_neg h2]
        refine ⟨?_, ?_, ?_⟩
        · simp only [List.flatten_cons, List.append_assoc]
          rw [← List.append_assoc (List.take _ d), List.take_append_drop]
        · simp only [List.length_append, List.length_take, true_iff]
          omega
        · simp only [List.length_append, List.length_take]
          omega
    · rw [if_neg h1]
      refine ⟨rfl, ?_, h⟩
      simp only [decide_eq_true_eq]
      exact ⟨fun x => x.symm, fun x => x.symm⟩

/-- The steps of `LeechRPC_SubmitCommand_Pipe` once the request is written and the header
is read. -/
theorem SubmitCommand_Pipe_after_header (L : Layout) (ctx : LEECHRPC_CLIENT_CONTEXT) (w : World)
    (m : LEECHRPC_MSG) (ws : List Bool) (hWr : ctx.hPipeMem_Wr ≠ 0)
    (hw : w.pipeWrites = true :: ws)
    (hH : (Util_GetBytesPipe L.sizeof_LEECHRPC_MSG_HDR w.pipeReads []).1 = true) :
    LeechRPC_SubmitCommand_Pipe L ctx w m
      = if (L.viewHDR (Util_GetBytesPipe L.sizeof_LEECHRPC_MSG_HDR w.pipeReads []).2.1).dwMagic
              ≠ L.LEECHRPC_MSGMAGIC
            ∨ (L.viewHDR (Util_GetBytesPipe L.sizeof_LEECHRPC_MSG_HDR w.pipeReads []).2.1).cbMsg
              > 0x04000000
        then ({ w with pipeWrites := ws,
                       pipeReads := (Util_GetBytesPipe L.sizeof_LEECHRPC_MSG_HDR
                         w.pipeReads []).2.2 }, none)
        else if (L.viewHDR (Util_GetBytesPipe L.sizeof_LEECHRPC_MSG_HDR
              w.pipeReads []).2.1).cbMsg > L.sizeof_LEECHRPC_MSG_HDR
        then
          if (Util_GetBytesPipe ((L.viewHDR (Util_GetBytesPipe L.sizeof_LEECHRPC_MSG_HDR
                  w.pipeReads []).2.1).cbMsg - L.sizeof_LEECHRPC_MSG_HDR)
                (Util_GetBytesPipe L.sizeof_LEECHRPC_MSG_HDR w.pipeReads []).2.2 []).1 = false
          then ({ w with pipeWrites := ws,
                         pipeReads := (Util_GetBytesPipe ((L.viewHDR (Util_GetBytesPipe
                           L.sizeof_LEECHRPC_MSG_HDR w.pipeReads []).2.1).cbMsg
                             - L.sizeof_LEECHRPC_MSG_HDR)
                           (Util_GetBytesPipe L.sizeof_LEECHRPC_MSG_HDR
                             w.pipeReads []).2.2 []).2.2 }, none)
          else ({ w with pipeWrites := ws,
                         pipeReads := (Util_GetBytesPipe ((L.viewHDR (Util_GetBytesPipe
                           L.sizeof_LEECHRPC_MSG_HDR w.pipeReads []).2.1).cbMsg
                             - L.sizeof_LEECHRPC_MSG_HDR)
                           (Util_GetBytesPipe L.sizeof_LEECHRPC_MSG_HDR
                             w.pipeReads []).2.2 []).2.2 },
                some ((L.viewHDR (Util_GetBytesPipe L.sizeof_LEECHRPC_MSG_HDR
                        w.pipeReads []).2.1).cbMsg,
                  { L.viewEXT (Util_GetBytesPipe ((L.viewHDR (Util_GetBytesPipe
                        L.sizeof_LEECHRPC_MSG_HDR w.pipeReads []).2.1).cbMsg
                          - L.sizeof_LEECHRPC_MSG_HDR)
                        (Util_GetBytesPipe L.sizeof_LEECHRPC_MSG_HDR
                          w.pipeReads []).2.2 []).2.1 with
                    toLEECHRPC_MSG_HDR := L.viewHDR (Util_GetBytesPipe
                      L.sizeof_LEECHRPC_MSG_HDR w.pipeReads []).2.1 }))
        else ({ w with pipeWrites := ws,
                       pipeReads := (Util_GetBytesPipe L.sizeof_LEECHRPC_MSG_HDR
                         w.pipeReads []).2.2 },
              some ((L.viewHDR (Util_GetBytesPipe L.sizeof_LEECHRPC_MSG_HDR
                      w.pipeReads []).2.1).cbMsg,
                { L.viewEXT [] with
                  toLEECHRPC_MSG_HDR := L.viewHDR (Util_GetBytesPipe
                    L.sizeof_LEECHRPC_MSG_HDR w.pipeReads []).2.1 })) := by
  unfold LeechRPC_SubmitCommand_Pipe
  rw [if_neg hWr, hw]
  simp only [Bool.true_eq_false, if_false, hH]

/-- What a successful `LeechRPC_SubmitCommand_Pipe` went through. -/
theorem SubmitCommand_Pipe_success (L : Layout) (ctx : LEECHRPC_CLIENT_CONTEXT) (w w1 : World)
    (m msg : LEECHRPC_MSG) (cb : Nat)
    (h : LeechRPC_SubmitCommand_Pipe L ctx w m = (w1, some (cb, msg))) :
    (Util_GetBytesPipe L.sizeof_LEECHRPC_MSG_HDR w.pipeReads []).1 = true
    ∧ msg.toLEECHRPC_MSG_HDR
        = L.viewHDR (Util_GetBytesPipe L.sizeof_LEECHRPC_MSG_HDR w.pipeReads []).2.1
    ∧ cb = msg.cbMsg ∧ msg.dwMagic = L.LEECHRPC_MSGMAGIC ∧ msg.cbMsg ≤ 0x04000000
    ∧ (L.sizeof_LEECHRPC_MSG_HDR < msg.cbMsg →
        (Util_GetBytesPipe (msg.cbMsg - L.sizeof_LEECHRPC_MSG_HDR)
          (Util_GetBytesPipe L.sizeof_LEECHRPC_MSG_HDR w.pipeReads []).2.2 []).1 = true
        ∧ w1.pipeReads = (Util_GetBytesPipe (msg.cbMsg - L.sizeof_LEECHRPC_MSG_HDR)
            (Util_GetBytesPipe L.sizeof_LEECHRPC_MSG_HDR w.pipeReads []).2.2 []).2.2)
    ∧ (msg.cbMsg ≤ L.sizeof_LEECHRPC_MSG_HDR →
        w1.pipeReads = (Util_GetBytesPipe L.sizeof_LEECHRPC_MSG_HDR w.pipeReads []).2.2) := by
  by_cases hWr : ctx.hPipeMem_Wr = 0
  · unfold LeechRPC_SubmitCommand_Pipe at h
    rw [if_pos hWr] at h
    cases h
  cases hw : w.pipeWrites with
  | nil =>
    unfold LeechRPC_SubmitCommand_Pipe at h
    rw [if_neg hWr, hw] at h
    cases h
  | cons f ws =>
    cases f with
    | false =>
      unfold LeechRPC_SubmitCommand_Pipe at h
      rw [if_neg hWr, hw] at h
      simp only [if_true] at h
      cases h
    | true =>
      cases hH : (Util_GetBytesPipe L.sizeof_LEECHRPC_MSG_HDR w.pipeReads []).1 with
      | false =>
        unfold LeechRPC_SubmitCommand_Pipe at h
        rw [if_neg hWr, hw] at h
        simp only [Bool.true_eq_false, if_false, hH, if_true] at h
        cases h
      | true =>
        rw [SubmitCommand_Pipe_after_header L ctx w m ws hWr hw hH] at h
        split at h
        · cases h
        · rename_i hbad
          have hbad2 := not_or.mp hbad
          have hmagic := not_not.mp hbad2.1
          have hle := Nat.le_of_not_gt hbad2.2
          split at h
          · rename_i hgt
            split at h
            · cases h
            · rename_i hB
              have hB1 := (Bool.not_eq_false _).mp hB
              cases h
              exact ⟨rfl, rfl, rfl, hmagic, hle, fun _ => ⟨hB1, rfl⟩,
                fun hc => absurd hgt (Nat.not_lt.mpr hc)⟩
          · rename_i hngt
            cases h
            exact ⟨rfl, rfl, rfl, hmagic, hle, fun hc => absurd hc hngt, fun _ => rfl⟩

/-- A successful `LeechRPC_SubmitCommand_Pipe` whose header announces at least a header
has taken exactly the announced number of bytes from the read handle. -/
theorem SubmitCommand_Pipe_consumed (L : Layout) (ctx : LEECHRPC_CLIENT_CONTEXT) (w w1 : World)
    (m msg : LEECHRPC_MSG) (cb : Nat)
    (h : LeechRPC_SubmitCommand_Pipe L ctx w m = (w1, some (cb, msg)))
    (hlen : L.sizeof_LEECHRPC_MSG_HDR ≤ msg.cbMsg) :
    msg.dwMagic = L.LEECHRPC_MSGMAGIC ∧ cb = msg.cbMsg ∧ pipeConsumed w w1 = msg.cbMsg := by
  obtain ⟨hH, _, hcb, hmagic, _, hgt, hle⟩ := SubmitCommand_Pipe_success L ctx w w1 m msg cb h
  refine ⟨hmagic, hcb, ?_⟩
  have s1 := GetBytesPipe_spec L.sizeof_LEECHRPC_MSG_HDR w.pipeReads [] (Nat.zero_le _)
  have l1 := s1.2.1.mp hH
  have e1 := congrArg List.length s1.1
  rw [List.nil_append, List.length_append, l1] at e1
  unfold pipeConsumed
  by_cases hc : L.sizeof_LEECHRPC_MSG_HDR < msg.cbMsg
  · obtain ⟨hB, hw1⟩ := hgt hc
    have s2 := GetBytesPipe_spec (msg.cbMsg - L.sizeof_LEECHRPC_MSG_HDR)
      (Util_GetBytesPipe L.sizeof_LEECHRPC_MSG_HDR w.pipeReads []).2.2 [] (Nat.zero_le _)
    have l2 := s2.2.1.mp hB
    have e2 := congrArg List.length s2.1
    rw [List.nil_append, List.length_append, l2] at e2
    rw [hw1, e1, e2]
    omega
  · rw [hle (Nat.le_of_not_lt hc), e1]
    omega

/-- Evaluation for C14: a header with the right magic that announces a length of 0 is
accepted by `LeechRPC_SubmitCommand_Pipe`: the call succeeds and reports 0 bytes, and
it has taken the 24 bytes of the header from the read handle. -/
theorem SubmitCommand_Pipe_short_length :
    (LeechRPC_SubmitCommand_Pipe sampleLayout samplePipeCtx sampleShortWorld {}).2.map
        (fun r => (r.1, r.2.dwMagic, r.2.cbMsg))
      = some (0, sampleLayout.LEECHRPC_MSGMAGIC, 0)
    ∧ pipeConsumed sampleShortWorld
        (LeechRPC_SubmitCommand_Pipe sampleLayout samplePipeCtx sampleShortWorld {}).1 = 24
    ∧ sampleLayout.sizeof_LEECHRPC_MSG_HDR = 24 := by
  decide

/-- A delivery of exactly the bytes asked for is returned as it is. -/
theorem GetBytesPipe_exact (cb : Nat) (d : Bytes) (rest : List Bytes) (h : d.length = cb)
    (hpos : 0 < cb) : Util_GetBytesPipe cb (d :: rest) [] = (true, d, rest) := by
  unfold Util_GetBytesPipe
  rw [if_pos (by simpa using hpos), if_pos (by simp [h]), List.nil_append]
  cases rest with
  | nil => unfold Util_GetBytesPipe; simp [h]
  | cons d1 r1 =>
    unfold Util_GetBytesPipe
    rw [if_neg (by omega)]
    simp [h]

/-- A header followed by a body of the announced size, each in one delivery, is
accepted when the magic is right and the announced length is at most `0x04000000`. -/
theorem SubmitCommand_Pipe_two_deliveries (L : Layout) (ctx : LEECHRPC_CLIENT_CONTEXT)
    (w : World) (m : LEECHRPC_MSG) (hdr body : Bytes) (rest : List Bytes) (ws : List Bool)
    (hWr : ctx.hPipeMem_Wr ≠ 0) (hw : w.pipeWrites = true :: ws)
    (hr : w.pipeReads = hdr :: body :: rest)
    (hlen : hdr.length = L.sizeof_LEECHRPC_MSG_HDR)
    (hmagic : (L.viewHDR hdr).dwMagic = L.LEECHRPC_MSGMAGIC)
    (hle : (L.viewHDR hdr).cbMsg ≤ 0x04000000)
    (hpos : 0 < L.sizeof_LEECHRPC_MSG_HDR)
    (hgt : L.sizeof_LEECHRPC_MSG_HDR < (L.viewHDR hdr).cbMsg)
    (hb : body.length = (L.viewHDR hdr).cbMsg - L.sizeof_LEECHRPC_MSG_HDR) :
    LeechRPC_SubmitCommand_Pipe L ctx w m
      = ({ w with pipeWrites := ws, pipeReads := rest },
          some ((L.viewHDR hdr).cbMsg,
            { L.viewEXT body with toLEECHRPC_MSG_HDR := L.viewHDR hdr })) := by
  have e1 : Util_GetBytesPipe L.sizeof_LEECHRPC_MSG_HDR w.pipeReads []
      = (true, hdr, body :: rest) := by rw [hr]; exact GetBytesPipe_exact _ _ _ hlen hpos
  have e2 : Util_GetBytesPipe ((L.viewHDR hdr).cbMsg - L.sizeof_LEECHRPC_MSG_HDR)
      (body :: rest) [] = (true, body, rest) := GetBytesPipe_exact _ _ _ hb (by omega)
  rw [SubmitCommand_Pipe_after_header L ctx w m ws hWr hw (by rw [e1]), e1]
  rw [if_neg (by rw [hmagic]; exact fun h => h.elim (fun a => a rfl) (fun a => absurd a
    (Nat.not_lt.mpr hle))), if_pos hgt, e2, if_neg (by simp)]

/-- Counterexample for C15: a response of 16 MiB is accepted by the pipe transport. -/
theorem SubmitCommand_Pipe_16MiB_counterexample :
    16777216 = 16 * 1024 * 1024
    ∧ (LeechRPC_SubmitCommand_Pipe sampleLayout samplePipeCtx sampleBigWorld {}).2.map
        (fun r => (r.1, r.2.dwMagic, r.2.cbMsg))
      = some (16777216, sampleLayout.LEECHRPC_MSGMAGIC, 16777216) :=
  by
  refine ⟨by norm_num, ?_⟩
  have hv : sampleLayout.viewHDR (sampleHdrBytes 16777216 2)
      = { dwMagic := 0xd05a2666, cbMsg := 16777216, tpMsg := 2, fMsgResult := true,
          dwRpcClientID := 0, flags := 1 } := by decide
  have hsz : sampleLayout.sizeof_LEECHRPC_MSG_HDR = 24 := rfl
  have hm : sampleLayout.LEECHRPC_MSGMAGIC = 0xd05a2666 := rfl
  have key := SubmitCommand_Pipe_two_deliveries sampleLayout samplePipeCtx
    sampleBigWorld ({} : LEECHRPC_MSG) (sampleHdrBytes 16777216 2)
    (List.replicate 16777192 0) [] [] (by decide) rfl rfl (by decide) (by rw [hv, hm])
    (by rw [hv]; norm_num) (by rw [hsz]; norm_num) (by rw [hv, hsz]; norm_num)
    (by rw [hv, hsz, List.length_replicate]; norm_num)
  rw [key, Option.map_some', hv, hm]

/-- C15 (amended): whenever `LeechRPC_SubmitCommand_Pipe` accepts a response, its header
is the one read from the pipe, with the magic `LEECHRPC_MSGMAGIC` and a length of at most
`0x04000000` (64 MiB); and once the request is written and a header is read, a header
with another magic or a length above `0x04000000` makes the call fail with nothing but
the header taken from the read handle. -/
theorem SubmitCommand_Pipe_length_bound (L : Layout) (ctx : LEECHRPC_CLIENT_CONTEXT) (w : World)
    (m : LEECHRPC_MSG) :
    (∀ (w1 : World) (cb : Nat) (msg : LEECHRPC_MSG),
        LeechRPC_SubmitCommand_Pipe L ctx w m = (w1, some (cb, msg)) →
        msg.toLEECHRPC_MSG_HDR
            = L.viewHDR (Util_GetBytesPipe L.sizeof_LEECHRPC_MSG_HDR w.pipeReads []).2.1
          ∧ msg.dwMagic = L.LEECHRPC_MSGMAGIC ∧ msg.cbMsg ≤ 0x04000000)
    ∧ (∀ ws : List Bool, ctx.hPipeMem_Wr ≠ 0 → w.pipeWrites = true :: ws →
        (Util_GetBytesPipe L.sizeof_LEECHRPC_MSG_HDR w.pipeReads []).1 = true →
        ((L.viewHDR (Util_GetBytesPipe L.sizeof_LEECHRPC_MSG_HDR w.pipeReads []).2.1).dwMagic
              ≠ L.LEECHRPC_MSGMAGIC
          ∨ 0x04000000
              < (L.viewHDR (Util_GetBytesPipe L.sizeof_LEECHRPC_MSG_HDR
                  w.pipeReads []).2.1).cbMsg) →
        (LeechRPC_SubmitCommand_Pipe L ctx w m).2 = none
          ∧ (LeechRPC_SubmitCommand_Pipe L ctx w m).1.pipeReads
              = (Util_GetBytesPipe L.sizeof_LEECHRPC_MSG_HDR w.pipeReads []).2.2
          ∧ pipeConsumed w (LeechRPC_SubmitCommand_Pipe L ctx w m).1
              = L.sizeof_LEECHRPC_MSG_HDR) := by
  refine ⟨?_, ?_⟩
  · intro w1 cb msg h
    obtain ⟨_, hhdr, _, hmagic, hle, _, _⟩ := SubmitCommand_Pipe_success L ctx w w1 m msg cb h
    exact ⟨hhdr, hmagic, hle⟩
  · intro ws hWr hw hH hbad
    rw [SubmitCommand_Pipe_after_header L ctx w m ws hWr hw hH, if_pos hbad]
    refine ⟨rfl, rfl, ?_⟩
    have s1 := GetBytesPipe_spec L.sizeof_LEECHRPC_MSG_HDR w.pipeReads [] (Nat.zero_le _)
    have l1 := s1.2.1.mp hH
    have e1 := congrArg List.length s1.1
    rw [List.nil_append, List.length_append, l1] at e1
    unfold pipeConsumed
    rw [e1]
    dsimp only
    omega

/-- The bound of C15 at work: a header-only message is accepted with the right magic, and
a header announcing 64 MiB and one byte is refused with the three bytes that follow it
left on the read handle. -/
theorem SubmitCommand_Pipe_length_bound_witness :
    ((sampleLayout.viewHDR (sampleHdrBytes 24 2)).dwMagic = sampleLayout.LEECHRPC_MSGMAGIC
      ∧ (sampleLayout.viewHDR (sampleHdrBytes 24 2)).cbMsg ≤ 0x04000000)
    ∧ (LeechRPC_SubmitCommand_Pipe sampleLayout samplePipeCtx sampleHugeWorld {}).2 = none
    ∧ (LeechRPC_SubmitCommand_Pipe sampleLayout samplePipeCtx sampleHugeWorld {}).1.pipeReads
        = [[1, 2, 3]] :=
  ⟨((SubmitCommand_Pipe_length_bound sampleLayout samplePipeCtx samplePingWorld {}).1
      (LeechRPC_SubmitCommand_Pipe sampleLayout samplePipeCtx samplePingWorld {}).1 24
      { sampleLayout.viewEXT [] with
        toLEECHRPC_MSG_HDR := sampleLayout.viewHDR (sampleHdrBytes 24 2) }
      (by decide)).2,
    ((SubmitCommand_Pipe_length_bound sampleLayout samplePipeCtx sampleHugeWorld {}).2 []
      (by decide) rfl (by decide) (Or.inr (by decide))).1,
    ((SubmitCommand_Pipe_length_bound sampleLayout samplePipeCtx sampleHugeWorld {}).2 []
      (by decide) rfl (by decide) (Or.inr (by decide))).2.1⟩

/-! ### Sessions without compression -/

/-- The checks on the response call the decoder at most once, on the message the
transport handed back, and only when its `cbDecompress` is not zero. -/
theorem verify_trace_decode (L : Layout) (E : Env) (w : World) (cbMsgOut : Nat)
    (pp : Option LEECHRPC_MSG) (tpMsgRsp : Nat) :
    (LeechRPC_SubmitCommand_verify L E w cbMsgOut pp tpMsgRsp).1.trace = w.trace
    ∨ ∃ m, pp = some m ∧ m.cbDecompress ≠ 0
        ∧ (LeechRPC_SubmitCommand_verify L E w cbMsgOut pp tpMsgRsp).1.trace
            = w.trace ++ [Event.decompress m] := by
  unfold LeechRPC_SubmitCommand_verify
  cases pp with
  | none => exact Or.inl rfl
  | some m =>
    simp only []
    split_ifs with h1 h2 h3 h4 h5 h6 h7 h8 h9 h10
    all_goals first
      | exact Or.inl rfl
      | (cases E.LeechRPC_Decompress m <;> exact Or.inr ⟨m, rfl, by assumption, rfl⟩)

/-- The trace of a binary request, with the call of the decoder spelled out. -/
theorem SubmitCommand_trace_bin_decode (L : Layout) (E : Env) (ctxLC : LC_CONTEXT)
    (ctx : LEECHRPC_CLIENT_CONTEXT) (w : World) (req : LEECHRPC_MSG) (tpMsgRsp : Nat)
    (hk : (requestKinds L).Nodup) (hdev : ctxLC.hDevice = some ctx)
    (hbin : req.tpMsg = L.LEECHRPC_MSGTYPE_READSCATTER_REQ
      ∨ req.tpMsg = L.LEECHRPC_MSGTYPE_WRITESCATTER_REQ
      ∨ req.tpMsg = L.LEECHRPC_MSGTYPE_COMMAND_REQ) :
    ∃ tail, (LeechRPC_SubmitCommand L E ctxLC w req tpMsgRsp).1.trace
        = w.trace ++ binRequestEvents L E ctxLC ctx req ++ tail
      ∧ (tail = [] ∨ ∃ w1 cb m,
          LeechRPC_SubmitCommand_send L E ctxLC w req = some (w1, some (cb, some m))
            ∧ m.cbDecompress ≠ 0 ∧ tail = [Event.decompress m]) := by
  obtain ⟨n1, n2, n3⟩ := last3_sep _ _ _ _ _ _ _ _ _ req.tpMsg hk hbin
  have hprep : LeechRPC_SubmitCommand_prepare L E ctxLC w req
      = some ({ w with trace := w.trace ++ [Event.compress (stampBin L req) (!ctxLC.Rpc_fCompress)] },
          E.LeechRPC_Compress (stampBin L req) (!ctxLC.Rpc_fCompress)) := by
    unfold LeechRPC_SubmitCommand_prepare stampBin
    simp only []
    rw [if_neg n1, if_neg n2, if_neg n3, if_pos hbin]
  unfold LeechRPC_SubmitCommand LeechRPC_SubmitCommand_send
  rw [hprep, hdev]
  simp only []
  have hd := dispatch_trace L ctxLC ctx
    { w with trace := w.trace ++ [Event.compress (stampBin L req) (!ctxLC.Rpc_fCompress)] }
    (E.LeechRPC_Compress (stampBin L req) (!ctxLC.Rpc_fCompress))
  revert hd
  cases LeechRPC_SubmitCommand_dispatch L ctxLC ctx
    { w with trace := w.trace ++ [Event.compress (stampBin L req) (!ctxLC.Rpc_fCompress)] }
    (E.LeechRPC_Compress (stampBin L req) (!ctxLC.Rpc_fCompress)) with
  | mk w2 o =>
    intro hd
    simp only [] at hd
    cases o with
    | none =>
      refine ⟨[], ?_, Or.inl rfl⟩
      simp only [hd, binRequestEvents, List.append_assoc, List.append_nil, List.singleton_append]
    | some c =>
      obtain ⟨cbMsgOut, pp⟩ := c
      rcases verify_trace_decode L E w2 cbMsgOut pp tpMsgRsp with ht | ⟨m, hpp, hnz, ht⟩
      · refine ⟨[], ?_, Or.inl rfl⟩
        simp only [ht, hd, binRequestEvents, List.append_assoc, List.append_nil,
          List.singleton_append]
      · refine ⟨[Event.decompress m], ?_, Or.inr ⟨w2, cbMsgOut, m, by rw [hpp], hnz, rfl⟩⟩
        simp only [ht, hd, binRequestEvents, List.append_assoc, List.singleton_append]

/-- C13 (amended): in a session whose compression flag `Rpc.fCompress` is off, a binary
request makes `LeechRPC_SubmitCommand` call the compression adapter with compression
disabled and hand the message the adapter leaves to the transport with the session's
client id and the flag `NOCOMPRESS`; the decoder is then called at most once, on the
response of the transport, and only when the `cbDecompress` of that response is not zero. -/
theorem SubmitCommand_nocompress (L : Layout) (E : Env) (ctxLC : LC_CONTEXT)
    (ctx : LEECHRPC_CLIENT_CONTEXT) (w : World) (req : LEECHRPC_MSG) (tpMsgRsp : Nat)
    (hk : (requestKinds L).Nodup) (hdev : ctxLC.hDevice = some ctx)
    (hbin : req.tpMsg = L.LEECHRPC_MSGTYPE_READSCATTER_REQ
      ∨ req.tpMsg = L.LEECHRPC_MSGTYPE_WRITESCATTER_REQ
      ∨ req.tpMsg = L.LEECHRPC_MSGTYPE_COMMAND_REQ)
    (hoff : ctxLC.Rpc_fCompress = false) :
    ∃ tail, (LeechRPC_SubmitCommand L E ctxLC w req tpMsgRsp).1.trace
        = w.trace
          ++ [Event.compress (stampBin L req) true,
              Event.transport ctx.fIsRpc
                { E.LeechRPC_Compress (stampBin L req) true with
                  dwRpcClientID := ctxLC.Rpc_dwRpcClientId,
                  flags := L.LEECHRPC_FLAG_NOCOMPRESS }]
          ++ tail
      ∧ (tail = [] ∨ ∃ w1 cb m,
          LeechRPC_SubmitCommand_send L E ctxLC w req = some (w1, some (cb, some m))
            ∧ m.cbDecompress ≠ 0 ∧ tail = [Event.decompress m]) := by
  obtain ⟨tail, ht, hd⟩ := SubmitCommand_trace_bin_decode L E ctxLC ctx w req tpMsgRsp hk hdev hbin
  refine ⟨tail, ?_, hd⟩
  rw [ht]
  unfold binRequestEvents stampWire
  rw [hoff]
  simp

/-- The theorem for C13 applied to a `COMMAND_REQ` of an RPC session without
compression. -/
theorem SubmitCommand_nocompress_witness :
    ∃ tail, (LeechRPC_SubmitCommand sampleLayout sampleEnv sampleRpcCtx
          (sampleWorld samplePlainRsp) sampleCommandReq 16).1.trace
        = (sampleWorld samplePlainRsp).trace
          ++ [Event.compress (stampBin sampleLayout sampleCommandReq) true,
              Event.transport true
                { sampleEnv.LeechRPC_Compress (stampBin sampleLayout sampleCommandReq) true with
                  dwRpcClientID := sampleRpcCtx.Rpc_dwRpcClientId,
                  flags := sampleLayout.LEECHRPC_FLAG_NOCOMPRESS }]
          ++ tail
      ∧ (tail = [] ∨ ∃ w1 cb m,
          LeechRPC_SubmitCommand_send sampleLayout sampleEnv sampleRpcCtx
              (sampleWorld samplePlainRsp) sampleCommandReq = some (w1, some (cb, some m))
            ∧ m.cbDecompress ≠ 0 ∧ tail = [Event.decompress m]) :=
  SubmitCommand_nocompress sampleLayout sampleEnv sampleRpcCtx { fIsRpc := true }
    (sampleWorld samplePlainRsp) sampleCommandReq 16 (by decide) rfl
    (Or.inr (Or.inr rfl)) rfl

/-- Counterexample for C13: an RPC session with compression disabled sends a `COMMAND_REQ`
with the flag `NOCOMPRESS` (adapter called with compression disabled, payload as it
was); the response has a `cbDecompress` of 5, and the decoder is called on it. -/
theorem SubmitCommand_nocompress_counterexample :
    sampleRpcCtx.Rpc_fCompress = false
    ∧ (LeechRPC_SubmitCommand sampleLayout sampleEnv sampleRpcCtx
          (sampleWorld sampleMarkedRsp) sampleCommandReq 16).1.trace
        = [Event.compress (stampBin sampleLayout sampleCommandReq) true,
           Event.transport true
             { stampBin sampleLayout sampleCommandReq with
               dwRpcClientID := 7, flags := sampleLayout.LEECHRPC_FLAG_NOCOMPRESS },
           Event.decompress sampleMarkedRsp] := by
  decide

/-! ### Close -/

/-- A response that passes the envelope test has the expected kind. -/
theorem fOK_kind (L : Layout) (cb : Nat) (m : LEECHRPC_MSG) (tp : Nat)
    (h : LeechRPC_SubmitCommand_fOK L cb m tp = true) : m.tpMsg = tp := by
  unfold LeechRPC_SubmitCommand_fOK at h
  simp only [Bool.and_eq_true, decide_eq_true_eq] at h
  exact h.2.2

/-- When the expected response is not one of the three binary kinds, the checks on the
response leave the world as it is. -/
theorem verify_world_plain (L : Layout) (E : Env) (w : World) (cbMsgOut : Nat)
    (pp : Option LEECHRPC_MSG) (tp : Nat)
    (h : tp = L.LEECHRPC_MSGTYPE_PING_RSP ∨ tp = L.LEECHRPC_MSGTYPE_CLOSE_RSP
      ∨ tp = L.LEECHRPC_MSGTYPE_KEEPALIVE_RSP ∨ tp = L.LEECHRPC_MSGTYPE_SETOPTION_RSP
      ∨ tp = L.LEECHRPC_MSGTYPE_OPEN_RSP ∨ tp = L.LEECHRPC_MSGTYPE_GETOPTION_RSP) :
    (LeechRPC_SubmitCommand_verify L E w cbMsgOut pp tp).1 = w := by
  unfold LeechRPC_SubmitCommand_verify
  cases pp with
  | none => rfl
  | some m =>
    simp only []
    split_ifs with h1 h2 h3 h4 h5 h6 h7 h8 h9 h10
    all_goals first
      | rfl
      | (exfalso
         have hk := fOK_kind L cbMsgOut m tp h1
         rw [hk] at h2 h4 h6
         rcases h with h | h | h | h | h | h
         · exact h2 (Or.inl h)
         · exact h2 (Or.inr (Or.inl h))
         · exact h2 (Or.inr (Or.inr (Or.inl h)))
         · exact h2 (Or.inr (Or.inr (Or.inr h)))
         · exact h4 h
         · exact h6 h)

/-- A header-only request is stamped with magic, result flag and the header length, and
the compression adapter is not called. -/
theorem prepare_hdr (L : Layout) (E : Env) (ctxLC : LC_CONTEXT) (w : World) (tp : Nat)
    (h : tp = L.LEECHRPC_MSGTYPE_PING_REQ ∨ tp = L.LEECHRPC_MSGTYPE_CLOSE_REQ
      ∨ tp = L.LEECHRPC_MSGTYPE_KEEPALIVE_REQ) :
    LeechRPC_SubmitCommand_prepare L E ctxLC w { tpMsg := tp } = some (w, stampHdr L tp) := by
  unfold LeechRPC_SubmitCommand_prepare stampHdr
  simp only []
  rw [if_pos h]

/-- A header-only request whose expected response is header-only adds one event to the
trace: the stamped request handed to the transport of the session. -/
theorem SubmitCommand_trace_hdr (L : Layout) (E : Env) (ctxLC : LC_CONTEXT)
    (ctx : LEECHRPC_CLIENT_CONTEXT) (w : World) (tp tpMsgRsp : Nat)
    (hdev : ctxLC.hDevice = some ctx)
    (h : tp = L.LEECHRPC_MSGTYPE_PING_REQ ∨ tp = L.LEECHRPC_MSGTYPE_CLOSE_REQ
      ∨ tp = L.LEECHRPC_MSGTYPE_KEEPALIVE_REQ)
    (hr : tpMsgRsp = L.LEECHRPC_MSGTYPE_PING_RSP ∨ tpMsgRsp = L.LEECHRPC_MSGTYPE_CLOSE_RSP
      ∨ tpMsgRsp = L.LEECHRPC_MSGTYPE_KEEPALIVE_RSP ∨ tpMsgRsp = L.LEECHRPC_MSGTYPE_SETOPTION_RSP
      ∨ tpMsgRsp = L.LEECHRPC_MSGTYPE_OPEN_RSP ∨ tpMsgRsp = L.LEECHRPC_MSGTYPE_GETOPTION_RSP) :
    (LeechRPC_SubmitCommand L E ctxLC w { tpMsg := tp } tpMsgRsp).1.trace
      = w.trace ++ [Event.transport ctx.fIsRpc (stampWire L ctxLC ctx (stampHdr L tp))] := by
  unfold LeechRPC_SubmitCommand LeechRPC_SubmitCommand_send
  rw [prepare_hdr L E ctxLC w tp h, hdev]
  simp only []
  have hd := dispatch_trace L ctxLC ctx w (stampHdr L tp)
  revert hd
  cases LeechRPC_SubmitCommand_dispatch L ctxLC ctx w (stampHdr L tp) with
  | mk w2 o =>
    intro hd
    simp only [] at hd
    cases o with
    | none => exact hd
    | some c =>
      obtain ⟨cbMsgOut, pp⟩ := c
      simp only []
      rw [verify_world_plain L E w2 cbMsgOut pp tpMsgRsp hr]
      exact hd

/-- C16: on an open session `LeechRPC_Close` hands exactly one message to the transport,
the stamped `CLOSE_REQ`, and leaves the context with a null `hDevice` and otherwise as
it was; every `LeechRPC_Close` on the context it leaves, in whatever world, changes
neither the context nor the world. -/
theorem Close_idempotent (L : Layout) (E : Env) (ctxLC : LC_CONTEXT)
    (ctx : LEECHRPC_CLIENT_CONTEXT) (w : World) (hdev : ctxLC.hDevice = some ctx) :
    (LeechRPC_Close L E ctxLC w).1 = { ctxLC with hDevice := none }
    ∧ (LeechRPC_Close L E ctxLC w).2.trace
        = w.trace ++ [Event.transport ctx.fIsRpc
            (stampWire L ctxLC ctx (stampHdr L L.LEECHRPC_MSGTYPE_CLOSE_REQ))]
    ∧ ∀ w1 : World, LeechRPC_Close L E (LeechRPC_Close L E ctxLC w).1 w1
        = ((LeechRPC_Close L E ctxLC w).1, w1) := by
  have h1 : LeechRPC_Close L E ctxLC w
      = ({ ctxLC with hDevice := none },
         (LeechRPC_SubmitCommand L E
            { ctxLC with hDevice := some { ctx with fHousekeeperThread := false } } w
            { tpMsg := L.LEECHRPC_MSGTYPE_CLOSE_REQ } L.LEECHRPC_MSGTYPE_CLOSE_RSP).1) := by
    unfold LeechRPC_Close
    rw [hdev]
  rw [h1]
  refine ⟨rfl, ?_, ?_⟩
  · exact SubmitCommand_trace_hdr L E _ { ctx with fHousekeeperThread := false } w _ _ rfl
      (Or.inr (Or.inl rfl)) (Or.inr (Or.inl rfl))
  · intro w1
    unfold LeechRPC_Close
    rfl

/-- The theorem for C16 applied to an open RPC session whose peer answers the
`CLOSE_REQ`. -/
theorem Close_idempotent_witness :
    (LeechRPC_Close sampleLayout sampleEnv sampleRpcCtx (sampleWorld sampleCloseRsp)).1
      = { sampleRpcCtx with hDevice := none }
    ∧ (LeechRPC_Close sampleLayout sampleEnv sampleRpcCtx (sampleWorld sampleCloseRsp)).2.trace
        = (sampleWorld sampleCloseRsp).trace ++ [Event.transport true
            (stampWire sampleLayout sampleRpcCtx { fIsRpc := true }
              (stampHdr sampleLayout sampleLayout.LEECHRPC_MSGTYPE_CLOSE_REQ))]
    ∧ ∀ w1 : World, LeechRPC_Close sampleLayout sampleEnv
          (LeechRPC_Close sampleLayout sampleEnv sampleRpcCtx (sampleWorld sampleCloseRsp)).1 w1
        = ((LeechRPC_Close sampleLayout sampleEnv sampleRpcCtx
            (sampleWorld sampleCloseRsp)).1, w1) :=
  Close_idempotent sampleLayout sampleEnv sampleRpcCtx { fIsRpc := true }
    (sampleWorld sampleCloseRsp) rfl

/-! ### The rewrite of the device string -/

/-- The string of an array that holds `s`, a NUL, and more. -/
theorem cstr_append_nul (s rest : Bytes) (hs : ∀ c ∈ s, c ≠ 0) : cstr (s ++ 0 :: rest) = s := by
  unfold cstr
  induction s with
  | nil => simp
  | cons c s ih =>
    have hc : c ≠ 0 := hs c (List.mem_cons_self _ _)
    have := ih (fun d hd => hs d (List.mem_cons_of_mem _ hd))
    rw [List.cons_append, @List.takeWhile_cons_of_pos Nat (fun c => decide (c ≠ 0)) c
      (s ++ 0 :: rest) (decide_eq_true hc), this]

/-- The byte at index `|u| + 6` of `u ++ g ++ x :: v` when `g` has six bytes. -/
theorem getD_after_gap (u g v : Bytes) (x : Nat) (hg : g.length = 6) :
    (u ++ g ++ x :: v).getD (u.length + 6) 0 = x := by
  have : (u ++ g).length = u.length + 6 := by rw [List.length_append, hg]
  rw [← this, List.getD_eq_getElem?_getD, List.getElem?_append_right (Nat.le_refl _)]
  simp

/-- A store at index `|u|` of `u ++ g0 :: g1 ++ v`. -/
theorem set_at_gap (u g1 v : Bytes) (g0 x : Nat) :
    (u ++ g0 :: g1 ++ v).set (u.length + 6 - 6) x = u ++ x :: g1 ++ v := by
  rw [Nat.add_sub_cancel, List.append_assoc, List.set_append_right _ _ (Nat.le_refl _)]
  simp

/-- The loop of lines 641-644 moves the string that starts six bytes ahead, with its
NUL, onto the current position, and touches nothing behind that NUL. -/
theorem existingremote_loop_spec (rest : Bytes) : ∀ (t u g : Bytes), g.length = 6 →
    (∀ c ∈ t, c ≠ 0) →
    LeechRpc_Open_existingremote_loop (t.length + 1 + rest.length) (u.length + 6)
        (u ++ g ++ (t ++ 0 :: rest))
      = u ++ t ++ 0 :: List.drop (t.length + 1) (g ++ (t ++ 0 :: rest)) := by
  intro t
  induction t with
  | nil =>
    intro u g hg _
    obtain ⟨g0, g1, rfl⟩ : ∃ g0 g1, g = g0 :: g1 := by
      cases g with
      | nil => simp at hg
      | cons a b => exact ⟨a, b, rfl⟩
    have hf : ([] : Bytes).length + 1 + rest.length = rest.length + 1 := by
      simp only [List.length_nil]; omega
    rw [hf]
    unfold LeechRpc_Open_existingremote_loop
    have hlt : u.length + 6 < (u ++ g0 :: g1 ++ ([] ++ 0 :: rest)).length := by
      simp only [List.length_append, List.length_cons, List.length_nil] at hg ⊢
      omega
    rw [if_pos hlt, List.nil_append, getD_after_gap u (g0 :: g1) rest 0 hg, if_pos rfl,
      set_at_gap]
    simp
  | cons x t ih =>
    intro u g hg ht
    obtain ⟨g0, g1, rfl⟩ : ∃ g0 g1, g = g0 :: g1 := by
      cases g with
      | nil => simp at hg
      | cons a b => exact ⟨a, b, rfl⟩
    have hx : x ≠ 0 := ht x (List.mem_cons_self _ _)
    have ht1 : ∀ c ∈ t, c ≠ 0 := fun c hc => ht c (List.mem_cons_of_mem _ hc)
    have hf : (x :: t).length + 1 + rest.length = (t.length + 1 + rest.length) + 1 := by
      simp only [List.length_cons]; omega
    rw [hf]
    unfold LeechRpc_Open_existingremote_loop
    have hlt : u.length + 6 < (u ++ g0 :: g1 ++ (x :: t ++ 0 :: rest)).length := by
      simp only [List.length_append, List.length_cons] at hg ⊢
      omega
    rw [if_pos hlt, List.cons_append, getD_after_gap u (g0 :: g1) (t ++ 0 :: rest) x hg,
      if_neg hx, set_at_gap]
    have hg1 : (g1 ++ [x]).length = 6 := by
      simp only [List.length_append, List.length_cons, List.length_nil] at hg ⊢
      omega
    have key := ih (u ++ [x]) (g1 ++ [x]) hg1 ht1
    have e1 : (u ++ [x]).length + 6 = u.length + 6 + 1 := by
      rw [List.length_append, List.length_singleton]
    have e2 : u ++ [x] ++ (g1 ++ [x]) ++ (t ++ 0 :: rest)
        = u ++ x :: g1 ++ x :: (t ++ 0 :: rest) := by simp
    rw [e1, e2] at key
    rw [key]
    simp

/-- C20: when the array `szDevice` holds a string `p ++ t` with `p` of 14 characters equal
to `existingremote` up to case, then a NUL, the rewrite of `LeechRpc_Open` leaves the
first 8 characters of `p`, then `t`, then a NUL, and every byte behind that NUL as it
was: the string it holds is `p` without its last 6 characters followed by `t`.  An array
whose string does not begin with `existingremote` up to case is left as it is. -/
theorem Open_existingremote_rewrite (p t rest a : Bytes) (hp : p.length = 14)
    (hpre : p.map tolower = sz_existingremote) (ht : ∀ c ∈ t, c ≠ 0)
    (ha : ((cstr a).take 14).map tolower ≠ sz_existingremote) :
    LeechRpc_Open_existingremote (p ++ t ++ 0 :: rest)
        = p.take 8 ++ t ++ 0 :: List.drop (8 + t.length + 1) (p ++ t ++ 0 :: rest)
    ∧ cstr (LeechRpc_Open_existingremote (p ++ t ++ 0 :: rest)) = p.take 8 ++ t
    ∧ (LeechRpc_Open_existingremote (p ++ t ++ 0 :: rest)).length
        = (p ++ t ++ 0 :: rest).length
    ∧ LeechRpc_Open_existingremote a = a := by
  have hp0 : ∀ c ∈ p, c ≠ 0 := by
    intro c hc h0
    have : tolower c ∈ p.map tolower := List.mem_map_of_mem _ hc
    rw [hpre, h0] at this
    revert this
    decide
  have hpt0 : ∀ c ∈ p ++ t, c ≠ 0 := fun c hc =>
    (List.mem_append.1 hc).elim (hp0 c) (ht c)
  have hcs : cstr (p ++ t ++ 0 :: rest) = p ++ t := cstr_append_nul _ _ hpt0
  have hcond : _strnicmp (p ++ t ++ 0 :: rest) sz_existingremote 14 = 0 := by
    unfold _strnicmp
    rw [hcs, List.take_left' hp, hpre]
    decide
  have hsplit : p = p.take 8 ++ p.drop 8 := (List.take_append_drop 8 p).symm
  have h8 : (p.take 8).length = 8 := by rw [List.length_take, hp]; rfl
  have h6 : (p.drop 8).length = 6 := by rw [List.length_drop, hp]
  have hmain : LeechRpc_Open_existingremote (p ++ t ++ 0 :: rest)
      = p.take 8 ++ t ++ 0 :: List.drop (8 + t.length + 1) (p ++ t ++ 0 :: rest) := by
    unfold LeechRpc_Open_existingremote
    rw [if_pos hcond]
    have hlen : (p ++ t ++ 0 :: rest).length - 14 = t.length + 1 + rest.length := by
      simp only [List.length_append, List.length_cons, hp]; omega
    have key := existingremote_loop_spec rest t (p.take 8) (p.drop 8) h6 ht
    rw [h8, List.take_append_drop, ← List.append_assoc] at key
    have hX : List.drop 8 (p ++ t ++ 0 :: rest) = List.drop 8 p ++ (t ++ 0 :: rest) := by
      rw [List.append_assoc, List.drop_append_of_le_length (by omega)]
    have hY : List.drop (8 + t.length + 1) (p ++ t ++ 0 :: rest)
        = List.drop (t.length + 1) (List.drop 8 (p ++ t ++ 0 :: rest)) := by
      rw [List.drop_drop, Nat.add_assoc]
    rw [hlen, key, hY, hX]
  have hno : ∀ c ∈ p.take 8 ++ t, c ≠ 0 := fun c hc =>
    (List.mem_append.1 hc).elim (fun h => hp0 c (List.mem_of_mem_take h)) (ht c)
  refine ⟨hmain, ?_, ?_, ?_⟩
  · rw [hmain]
    exact cstr_append_nul _ _ hno
  · rw [hmain]
    simp only [List.length_append, List.length_cons, List.length_drop, h8, hp]
    omega
  · unfold LeechRpc_Open_existingremote _strnicmp
    have hsz : ((cstr sz_existingremote).take 14).map tolower = sz_existingremote := by decide
    rw [hsz, if_neg ha]
    rw [if_neg (by decide)]

/-- The theorem for C20 applied to `existingremotefpga` in an array of 24 bytes, and to
the string `fpga`. -/
theorem Open_existingremote_rewrite_witness :
    LeechRpc_Open_existingremote sampleDevice
        = [101, 120, 105, 115, 116, 105, 110, 103, 102, 112, 103, 97, 0,
           101, 102, 112, 103, 97, 0, 55, 56, 57, 0, 0]
    ∧ cstr (LeechRpc_Open_existingremote sampleDevice)
        = [101, 120, 105, 115, 116, 105, 110, 103, 102, 112, 103, 97]
    ∧ LeechRpc_Open_existingremote [102, 112, 103, 97, 0, 0] = [102, 112, 103, 97, 0, 0] :=
  have h := Open_existingremote_rewrite
    [101, 120, 105, 115, 116, 105, 110, 103, 114, 101, 109, 111, 116, 101]
    [102, 112, 103, 97] [55, 56, 57, 0, 0] [102, 112, 103, 97, 0, 0]
    (by decide) (by decide) (by decide) (by decide)
  ⟨(show LeechRpc_Open_existingremote sampleDevice = _ from h.1).trans (by decide),
    (show cstr (LeechRpc_Open_existingremote sampleDevice) = _ from h.2.1).trans (by decide),
    h.2.2.2⟩

/-! ### Open -/

/-- The pipe transport does not touch the outcome of the compression set-up nor the
random source. -/
theorem SubmitCommand_Pipe_static (L : Layout) (ctx : LEECHRPC_CLIENT_CONTEXT) (w : World)
    (m : LEECHRPC_MSG) :
    (LeechRPC_SubmitCommand_Pipe L ctx w m).1.fCompressInitialize = w.fCompressInitialize
    ∧ (LeechRPC_SubmitCommand_Pipe L ctx w m).1.random = w.random := by
  unfold LeechRPC_SubmitCommand_Pipe
  split_ifs <;> try exact ⟨rfl, rfl⟩
  cases hw : w.pipeWrites with
  | nil => exact ⟨rfl, rfl⟩
  | cons fWrite ws =>
    simp only []
    split_ifs <;> exact ⟨rfl, rfl⟩

/-- The call of the transport does not touch the outcome of the compression set-up nor
the random source. -/
theorem dispatch_static (L : Layout) (ctxLC : LC_CONTEXT) (ctx : LEECHRPC_CLIENT_CONTEXT)
    (w : World) (m : LEECHRPC_MSG) :
    (LeechRPC_SubmitCommand_dispatch L ctxLC ctx w m).1.fCompressInitialize
        = w.fCompressInitialize
    ∧ (LeechRPC_SubmitCommand_dispatch L ctxLC ctx w m).1.random = w.random := by
  unfold LeechRPC_SubmitCommand_dispatch
  cases hrpc : ctx.fIsRpc with
  | true =>
    simp only [if_true]
    cases hq : w.rpcReplies with
    | nil => simp [hq]
    | cons r rs => cases r <;> simp [hq]
  | false =>
    simp only [Bool.false_eq_true, if_false]
    have := SubmitCommand_Pipe_static L ctx
      { w with trace := w.trace ++ [Event.transport false
        { m with dwRpcClientID := ctxLC.Rpc_dwRpcClientId, flags := L.LEECHRPC_FLAG_NOCOMPRESS }] }
      { m with dwRpcClientID := ctxLC.Rpc_dwRpcClientId, flags := L.LEECHRPC_FLAG_NOCOMPRESS }
    revert this
    cases LeechRPC_SubmitCommand_Pipe L ctx
      { w with trace := w.trace ++ [Event.transport false
        { m with dwRpcClientID := ctxLC.Rpc_dwRpcClientId, flags := L.LEECHRPC_FLAG_NOCOMPRESS }] }
      { m with dwRpcClientID := ctxLC.Rpc_dwRpcClientId, flags := L.LEECHRPC_FLAG_NOCOMPRESS } with
    | mk w2 o =>
      cases o with
      | none => exact id
      | some c => exact id

/-- A request whose expected response is not binary leaves the outcome of the compression
set-up and the random source alone, whatever its kind is. -/
theorem SubmitCommand_static (L : Layout) (E : Env) (ctxLC : LC_CONTEXT) (w : World)
    (req : LEECHRPC_MSG) (tpMsgRsp : Nat)
    (hr : tpMsgRsp = L.LEECHRPC_MSGTYPE_PING_RSP ∨ tpMsgRsp = L.LEECHRPC_MSGTYPE_CLOSE_RSP
      ∨ tpMsgRsp = L.LEECHRPC_MSGTYPE_KEEPALIVE_RSP ∨ tpMsgRsp = L.LEECHRPC_MSGTYPE_SETOPTION_RSP
      ∨ tpMsgRsp = L.LEECHRPC_MSGTYPE_OPEN_RSP ∨ tpMsgRsp = L.LEECHRPC_MSGTYPE_GETOPTION_RSP) :
    (LeechRPC_SubmitCommand L E ctxLC w req tpMsgRsp).1.fCompressInitialize
        = w.fCompressInitialize
    ∧ (LeechRPC_SubmitCommand L E ctxLC w req tpMsgRsp).1.random = w.random := by
  unfold LeechRPC_SubmitCommand LeechRPC_SubmitCommand_send
  cases hp : LeechRPC_SubmitCommand_prepare L E ctxLC w req with
  | none => exact ⟨rfl, rfl⟩
  | some c =>
    obtain ⟨w0, m⟩ := c
    have hw0 : w0.fCompressInitialize = w.fCompressInitialize ∧ w0.random = w.random := by
      unfold LeechRPC_SubmitCommand_prepare at hp
      simp only [] at hp
      split_ifs at hp
      all_goals first
        | (cases hp; exact ⟨rfl, rfl⟩)
    simp only []
    cases hdev : ctxLC.hDevice with
    | none => exact ⟨rfl, rfl⟩
    | some ctx =>
      simp only []
      have hd := dispatch_static L ctxLC ctx w0 m
      revert hd
      cases LeechRPC_SubmitCommand_dispatch L ctxLC ctx w0 m with
      | mk w2 o =>
        intro hd
        simp only [] at hd
        cases o with
        | none => exact ⟨hd.1.trans hw0.1, hd.2.trans hw0.2⟩
        | some c =>
          obtain ⟨cbMsgOut, pp⟩ := c
          simp only []
          rw [verify_world_plain L E w2 cbMsgOut pp tpMsgRsp hr]
          exact ⟨hd.1.trans hw0.1, hd.2.trans hw0.2⟩

/-- A successful `LeechRPC_RpcInitialize` marks the session as an RPC session. -/
theorem RpcInitialize_fIsRpc (ctx : LEECHRPC_CLIENT_CONTEXT) (w : World)
    (h : (LeechRPC_RpcInitialize ctx w).2 = true) :
    (LeechRPC_RpcInitialize ctx w).1.fIsRpc = true := by
  unfold LeechRPC_RpcInitialize at h ⊢
  simp only [] at h ⊢
  split_ifs at h ⊢
  all_goals rfl

/-- What the branch of the device name `rpc` leaves when it gets through. -/
theorem Open_rpc_spec (L : Layout) (E : Env) (ctxLC ctxLC1 : LC_CONTEXT)
    (ctx : LEECHRPC_CLIENT_CONTEXT) (w w1 : World)
    (h : LeechRpc_Open_rpc L E ctxLC ctx w = (ctxLC1, w1, true)) :
    ctxLC1.Config = ctxLC.Config
    ∧ (∃ ctx1, ctxLC1.hDevice = some ctx1 ∧ ctx1.fIsRpc = true)
    ∧ ctxLC1.Rpc_fCompress
        = (LeechRpc_Open_options E ((E.Util_Split3 (ctxLC.Config.szRemote.drop 6) 58).2.2.getD [])
            (!ctxLC.Config.fRemoteDisableCompress)).1
    ∧ w1.fCompressInitialize = w.fCompressInitialize ∧ w1.random = w.random := by
  unfold LeechRpc_Open_rpc at h
  simp only [] at h
  split at h
  · rename_i szArg1 szArg2 h1 h2
    by_cases c1 : szArg1.headD 0 = 0 ∨ szArg2.headD 0 = 0
    · rw [if_pos c1] at h
      exact absurd (congrArg (fun x => x.2.2) h) (by simp)
    · rw [if_neg c1] at h
      generalize hi : LeechRPC_RpcInitialize _ w = i at h
      by_cases c2 : i.2 = false
      · rw [if_pos c2] at h
        exact absurd (congrArg (fun x => x.2.2) h) (by simp)
      · rw [if_neg c2] at h
        simp only [Prod.mk.injEq] at h
        obtain ⟨hc, hw, hp⟩ := h
        subst hc
        have hfi : i.1.fIsRpc = true := by
          rw [← hi]
          exact RpcInitialize_fIsRpc _ _ (by rw [hi]; exact (Bool.not_eq_false _).mp c2)
        refine ⟨rfl, ⟨i.1, rfl, hfi⟩, rfl, ?_⟩
        rw [← hw]
        unfold LeechRPC_Ping
        exact SubmitCommand_static L E _ w _ _ (Or.inl rfl)
  · simp only [Prod.mk.injEq] at h
    exact absurd h.2.2 (by simp)

/-- What the branch of the device name `pipe` leaves when it gets through. -/
theorem Open_pipe_spec (L : Layout) (E : Env) (ctxLC ctxLC1 : LC_CONTEXT)
    (ctx : LEECHRPC_CLIENT_CONTEXT) (w w1 : World)
    (h : LeechRpc_Open_pipe L E ctxLC ctx w = (ctxLC1, w1, true)) :
    ctxLC1.Config = ctxLC.Config
    ∧ (∃ ctx1, ctxLC1.hDevice = some ctx1 ∧ ctx1.fIsRpc = ctx.fIsRpc)
    ∧ ctxLC1.Rpc_fCompress = false
    ∧ w1.fCompressInitialize = w.fCompressInitialize ∧ w1.random = w.random := by
  unfold LeechRpc_Open_pipe at h
  simp only [] at h
  split at h
  · rename_i szArg1 szArg2 h1 h2
    split_ifs at h with c1 c2
    · exact absurd (congrArg (fun x => x.2.2) h) (by simp)
    · exact absurd (congrArg (fun x => x.2.2) h) (by simp)
    · simp only [Prod.mk.injEq, and_true] at h
      obtain ⟨hc, hw⟩ := h
      subst hc
      refine ⟨rfl, ⟨_, rfl, rfl⟩, rfl, ?_⟩
      rw [← hw]
      unfold LeechRPC_Ping
      exact SubmitCommand_static L E _ w _ _ (Or.inl rfl)
  · simp only [Prod.mk.injEq] at h
    exact absurd h.2.2 (by simp)

/-- The options loop clears the compression flag exactly when `nocompress` is among the
options. -/
theorem Open_options_fCompress (E : Env) (szArg3 : Bytes) (f : Bool) :
    (LeechRpc_Open_options E szArg3 f).1 = (f && !optionNocompress E szArg3) := by
  have hsz : (cstr sz_nocompress).map tolower = sz_nocompress := by decide
  unfold LeechRpc_Open_options optionNocompress _stricmp
  rw [hsz]
  by_cases h : szArg3.headD 0 ≠ 0
  · rw [if_pos h]
    simp only [List.foldl, List.any, decide_eq_true h, Bool.true_and, Bool.or_false]
    by_cases h1 : sz_nocompress
        = (cstr ((E.Util_Split3 szArg3 44).1.getD [])).map tolower <;>
    by_cases h2 : sz_nocompress
        = (cstr ((E.Util_Split3 szArg3 44).2.1.getD [])).map tolower <;>
    by_cases h3 : sz_nocompress
        = (cstr ((E.Util_Split3 szArg3 44).2.2.getD [])).map tolower <;>
    simp [h1, h2, h3, eq_comm]
  · rw [if_neg h, decide_eq_false h, Bool.false_and]
    simp

/-- What the set-up of the transport leaves when it gets through. -/
theorem Open_transport_spec (L : Layout) (E : Env) (ctxLC ctxLC1 : LC_CONTEXT) (w w1 : World)
    (h : LeechRpc_Open_transport L E ctxLC w = (ctxLC1, w1, true)) :
    ctxLC1.Config = ctxLC.Config
    ∧ (∃ ctx1, ctxLC1.hDevice = some ctx1
        ∧ ctx1.fIsRpc = decide (_stricmp ctxLC.Config.szDeviceName sz_rpc = 0))
    ∧ ctxLC1.Rpc_fCompress
        = (decide (_stricmp ctxLC.Config.szDeviceName sz_rpc = 0)
            && (!ctxLC.Config.fRemoteDisableCompress
              && !optionNocompress E (remoteOptions E ctxLC.Config.szRemote)))
    ∧ w1.fCompressInitialize = w.fCompressInitialize ∧ w1.random = w.random := by
  unfold LeechRpc_Open_transport at h
  simp only [] at h
  by_cases c1 : _stricmp ctxLC.Config.szDeviceName sz_rpc = 0
  · rw [if_pos c1] at h
    obtain ⟨hc, ⟨ctx1, hd, hf⟩, hcomp, hw⟩ := Open_rpc_spec L E _ ctxLC1 _ w w1 h
    refine ⟨hc, ⟨ctx1, hd, by rw [hf, decide_eq_true c1]⟩, ?_, hw⟩
    rw [hcomp, Open_options_fCompress, decide_eq_true c1, Bool.true_and]
    rfl
  · rw [if_neg c1] at h
    by_cases c2 : _stricmp ctxLC.Config.szDeviceName sz_pipe = 0
    · rw [if_pos c2] at h
      obtain ⟨hc, ⟨ctx1, hd, hf⟩, hcomp, hw⟩ := Open_pipe_spec L E _ ctxLC1 _ w w1 h
      refine ⟨hc, ⟨ctx1, hd, by rw [hf, decide_eq_false c1]⟩, ?_, hw⟩
      rw [hcomp, decide_eq_false c1, Bool.false_and]
    · rw [if_neg c2] at h
      exact absurd (congrArg (fun x => x.2.2) h) (by simp)

/-- The trace of a request that is prepared without the compression adapter and whose
expected response is not binary: the prepared request goes to the transport. -/
theorem SubmitCommand_trace_of_prepare (L : Layout) (E : Env) (ctxLC : LC_CONTEXT)
    (ctx : LEECHRPC_CLIENT_CONTEXT) (w : World) (req m : LEECHRPC_MSG) (tpMsgRsp : Nat)
    (hdev : ctxLC.hDevice = some ctx)
    (hp : LeechRPC_SubmitCommand_prepare L E ctxLC w req = some (w, m))
    (hr : tpMsgRsp = L.LEECHRPC_MSGTYPE_PING_RSP ∨ tpMsgRsp = L.LEECHRPC_MSGTYPE_CLOSE_RSP
      ∨ tpMsgRsp = L.LEECHRPC_MSGTYPE_KEEPALIVE_RSP ∨ tpMsgRsp = L.LEECHRPC_MSGTYPE_SETOPTION_RSP
      ∨ tpMsgRsp = L.LEECHRPC_MSGTYPE_OPEN_RSP ∨ tpMsgRsp = L.LEECHRPC_MSGTYPE_GETOPTION_RSP) :
    (LeechRPC_SubmitCommand L E ctxLC w req tpMsgRsp).1.trace
      = w.trace ++ [Event.transport ctx.fIsRpc (stampWire L ctxLC ctx m)] := by
  unfold LeechRPC_SubmitCommand LeechRPC_SubmitCommand_send
  rw [hp, hdev]
  simp only []
  have hd := dispatch_trace L ctxLC ctx w m
  revert hd
  cases LeechRPC_SubmitCommand_dispatch L ctxLC ctx w m with
  | mk w2 o =>
    intro hd
    simp only [] at hd
    cases o with
    | none => exact hd
    | some c =>
      obtain ⟨cbMsgOut, pp⟩ := c
      simp only []
      rw [verify_world_plain L E w2 cbMsgOut pp tpMsgRsp hr]
      exact hd

/-- An `OPEN_REQ` is stamped with magic and result flag and keeps its configuration
record; the compression adapter is not called. -/
theorem prepare_open (L : Layout) (E : Env) (ctxLC : LC_CONTEXT) (w : World)
    (req : LEECHRPC_MSG) (h : req.tpMsg = L.LEECHRPC_MSGTYPE_OPEN_REQ) :
    ∃ m, LeechRPC_SubmitCommand_prepare L E ctxLC w req = some (w, m)
      ∧ m.tpMsg = L.LEECHRPC_MSGTYPE_OPEN_REQ ∧ m.cfg = req.cfg := by
  unfold LeechRPC_SubmitCommand_prepare
  simp only []
  by_cases c : req.tpMsg = L.LEECHRPC_MSGTYPE_PING_REQ ∨ req.tpMsg = L.LEECHRPC_MSGTYPE_CLOSE_REQ
      ∨ req.tpMsg = L.LEECHRPC_MSGTYPE_KEEPALIVE_REQ
  · rw [if_pos c]
    exact ⟨_, rfl, h, rfl⟩
  · rw [if_neg c, if_pos h]
    exact ⟨_, rfl, h, rfl⟩

/-- What a successful `LeechRpc_Open` went through. -/
theorem Open_success (L : Layout) (E : Env) (ctxLC : LC_CONTEXT) (w : World)
    (hres : (LeechRpc_Open L E ctxLC w).result = true) :
    ∃ (ctxLC1 : LC_CONTEXT) (w1 w2 : World) (pMsgRsp : LEECHRPC_MSG),
      LeechRpc_Open_transport L E ctxLC w = (ctxLC1, w1, true)
      ∧ LeechRPC_SubmitCommand L E (LeechRpc_Open_negotiate ctxLC1 w1) w1
          (LeechRpc_Open_request L (LeechRpc_Open_negotiate ctxLC1 w1))
          L.LEECHRPC_MSGTYPE_OPEN_RSP = (w2, true, some pMsgRsp)
      ∧ pMsgRsp.fValidOpen = true ∧ pMsgRsp.cfg.dwVersion = L.LC_CONFIG_VERSION
      ∧ LeechRpc_Open L E ctxLC w
          = LeechRpc_Open_finish L E (LeechRpc_Open_negotiate ctxLC1 w1) w2 pMsgRsp := by
  unfold LeechRpc_Open at hres
  cases ht : LeechRpc_Open_transport L E ctxLC w with
  | mk ctxLC1 r =>
    obtain ⟨w1, b⟩ := r
    rw [ht] at hres
    cases b with
    | false => exact absurd hres (by simp [LeechRpc_Open_fail])
    | true =>
      simp only [] at hres
      cases hs : LeechRPC_SubmitCommand L E (LeechRpc_Open_negotiate ctxLC1 w1) w1
          (LeechRpc_Open_request L (LeechRpc_Open_negotiate ctxLC1 w1))
          L.LEECHRPC_MSGTYPE_OPEN_RSP with
      | mk w2 r2 =>
        obtain ⟨b2, o⟩ := r2
        rw [hs] at hres
        cases b2 with
        | false => exact absurd hres (by simp [LeechRpc_Open_fail])
        | true =>
          cases o with
          | none => exact absurd hres (by simp [LeechRpc_Open_fail])
          | some pMsgRsp =>
            simp only [] at hres
            refine ⟨ctxLC1, w1, w2, pMsgRsp, rfl, hs, ?_, ?_, ?_⟩
            · unfold LeechRpc_Open_finish at hres
              by_cases hv : pMsgRsp.fValidOpen = false
              · rw [if_pos hv] at hres
                exact absurd hres (by simp [LeechRpc_Open_fail])
              · exact (Bool.not_eq_false _).mp hv
            · unfold LeechRpc_Open_finish at hres
              by_cases hv : pMsgRsp.fValidOpen = false
              · rw [if_pos hv] at hres
                exact absurd hres (by simp [LeechRpc_Open_fail])
              · rw [if_neg hv] at hres
                by_cases hd : pMsgRsp.cfg.dwVersion ≠ L.LC_CONFIG_VERSION
                · rw [if_pos hd] at hres
                  exact absurd hres (by simp [LeechRpc_Open_fail])
                · exact not_not.mp hd
            · unfold LeechRpc_Open
              rw [ht]
              simp only []
              rw [hs]

/-- The string that `strncpy_s` leaves is the source string when it fits. -/
theorem cstr_strncpy_s (dst src : Bytes) (h : (cstr src).length < dst.length) :
    cstr (strncpy_s dst src) = cstr src := by
  unfold strncpy_s
  rw [if_neg (by omega), List.take_of_length_le (by omega), List.append_assoc,
    List.singleton_append]
  apply cstr_append_nul
  intro c hc
  have := List.mem_takeWhile_imp hc
  simpa using this

/-- The configuration record after the negotiation differs from the one before the
call in the device string only. -/
theorem Open_negotiate_Config (L : Layout) (E : Env) (ctxLC ctxLC1 : LC_CONTEXT) (w w1 : World)
    (h : LeechRpc_Open_transport L E ctxLC w = (ctxLC1, w1, true)) :
    (LeechRpc_Open_negotiate ctxLC1 w1).Config
      = { ctxLC.Config with szDevice := LeechRpc_Open_existingremote ctxLC.Config.szDevice } := by
  obtain ⟨hc, _, hf, _, _⟩ := Open_transport_spec L E ctxLC ctxLC1 w w1 h
  unfold LeechRpc_Open_negotiate
  simp only []
  rw [hf, hc]
  cases hx : ctxLC.Config.fRemoteDisableCompress <;> simp [hx]

/-- C18: a successful `LeechRpc_Open` got through the set-up of its transport (lines
581-638), which left the context `ctxLC1` and the world `w1`, and its call of
`LeechRPC_SubmitCommand` with the `OPEN_REQ` (line 655) returned the response `rsp`.
That request is the last message handed to the transport; its configuration record is
the local one (its device string rewritten) with `szRemote` zeroed and a zero callback
slot.  The response `rsp` is a valid open of the version `LC_CONFIG_VERSION` (with
another version the call fails), and the configuration record after the call is the one
of `rsp`, with the string of the local `szRemote` copied into `szRemote`, the local
callback in `pfn_printf_opt` and `fRemote` set; `fMultiThread` tells whether the device
name is `rpc`. -/
theorem Open_config_merge (L : Layout) (E : Env) (ctxLC : LC_CONTEXT) (w : World)
    (hres : (LeechRpc_Open L E ctxLC w).result = true) :
    ∃ (ctxLC1 : LC_CONTEXT) (w1 w2 : World) (rsp msg : LEECHRPC_MSG),
      LeechRpc_Open_transport L E ctxLC w = (ctxLC1, w1, true)
      ∧ LeechRPC_SubmitCommand L E (LeechRpc_Open_negotiate ctxLC1 w1) w1
          (LeechRpc_Open_request L (LeechRpc_Open_negotiate ctxLC1 w1))
          L.LEECHRPC_MSGTYPE_OPEN_RSP = (w2, true, some rsp)
      ∧ (LeechRpc_Open L E ctxLC w).world = w2
      ∧ w2.trace = w1.trace
          ++ [Event.transport (decide (_stricmp ctxLC.Config.szDeviceName sz_rpc = 0)) msg]
      ∧ msg.tpMsg = L.LEECHRPC_MSGTYPE_OPEN_REQ
      ∧ msg.cfg = { ctxLC.Config with
          szDevice := LeechRpc_Open_existingremote ctxLC.Config.szDevice,
          szRemote := List.replicate ctxLC.Config.szRemote.length 0,
          pfn_printf_opt := 0 }
      ∧ rsp.fValidOpen = true ∧ rsp.cfg.dwVersion = L.LC_CONFIG_VERSION
      ∧ (LeechRpc_Open L E ctxLC w).ctxLC.Config
          = { rsp.cfg with
              szRemote := strncpy_s rsp.cfg.szRemote ctxLC.Config.szRemote,
              pfn_printf_opt := ctxLC.Config.pfn_printf_opt,
              fRemote := true }
      ∧ ((cstr ctxLC.Config.szRemote).length < rsp.cfg.szRemote.length →
          cstr (LeechRpc_Open L E ctxLC w).ctxLC.Config.szRemote = cstr ctxLC.Config.szRemote)
      ∧ (LeechRpc_Open L E ctxLC w).ctxLC.fMultiThread
          = decide (_stricmp ctxLC.Config.szDeviceName sz_rpc = 0) := by
  obtain ⟨ctxLC1, w1, w2, rsp, ht, hs, hv, hver, hfin⟩ := Open_success L E ctxLC w hres
  obtain ⟨_, ⟨ctx1, hdev, hrpc⟩, _, _, _⟩ := Open_transport_spec L E ctxLC ctxLC1 w w1 ht
  have hcfg := Open_negotiate_Config L E ctxLC ctxLC1 w w1 ht
  have hdev2 : (LeechRpc_Open_negotiate ctxLC1 w1).hDevice = some ctx1 := hdev
  obtain ⟨m, hp, hmtp, hmcfg⟩ := prepare_open L E (LeechRpc_Open_negotiate ctxLC1 w1) w1
    (LeechRpc_Open_request L (LeechRpc_Open_negotiate ctxLC1 w1)) rfl
  have htr := SubmitCommand_trace_of_prepare L E (LeechRpc_Open_negotiate ctxLC1 w1) ctx1 w1
    _ m L.LEECHRPC_MSGTYPE_OPEN_RSP hdev2 hp (Or.inr (Or.inr (Or.inr (Or.inr (Or.inl rfl)))))
  rw [hs, hrpc] at htr
  have hfin2 : LeechRpc_Open L E ctxLC w
      = { ctxLC := { (if (LeechRpc_Open_negotiate ctxLC1 w1).Rpc_fCompress = true
                ∧ rsp.cfg.fRemoteDisableCompress = true then
              { LeechRpc_Open_negotiate ctxLC1 w1 with
                Config := { (LeechRpc_Open_negotiate ctxLC1 w1).Config with
                  fRemoteDisableCompress := true },
                Rpc_fCompress := false }
            else LeechRpc_Open_negotiate ctxLC1 w1) with
            Config := { rsp.cfg with
              szRemote := strncpy_s rsp.cfg.szRemote ctxLC.Config.szRemote,
              pfn_printf_opt := ctxLC.Config.pfn_printf_opt,
              fRemote := true },
            fMultiThread := ctx1.fIsRpc,
            pfnDeviceStub := true },
          world := w2, result := true, errorInfo := none } := by
    rw [hfin]
    unfold LeechRpc_Open_finish
    rw [if_neg (by rw [hv]; simp), if_neg (not_not.mpr hver)]
    simp only []
    split_ifs <;> simp only [hcfg, hdev2]
  refine ⟨ctxLC1, w1, w2, rsp,
    stampWire L (LeechRpc_Open_negotiate ctxLC1 w1) ctx1 m, ht, hs, ?_, htr, hmtp, ?_, hv, hver,
    ?_, ?_, ?_⟩
  · rw [hfin2]
  · show m.cfg = _
    rw [hmcfg]
    unfold LeechRpc_Open_request
    simp only [hcfg]
  · rw [hfin2]
  · intro hlen
    rw [hfin2]
    exact cstr_strncpy_s _ _ hlen
  · rw [hfin2, ← hrpc]

/-- The theorem for C18 applied to a session to `rpc://insecure:host` whose peer
answers the ping and the open request with `sampleServerConfig`: the record afterwards is
that of the server (device name `fpga`, where the local one was `rpc`), with the local
remote string, the local callback and `fRemote` set. -/
theorem Open_config_merge_witness :
    (∃ (ctxLC1 : LC_CONTEXT) (w1 w2 : World) (rsp msg : LEECHRPC_MSG),
      LeechRpc_Open_transport sampleLayout sampleEnv { Config := sampleRpcConfig }
          sampleOpenWorld = (ctxLC1, w1, true)
      ∧ LeechRPC_SubmitCommand sampleLayout sampleEnv (LeechRpc_Open_negotiate ctxLC1 w1) w1
          (LeechRpc_Open_request sampleLayout (LeechRpc_Open_negotiate ctxLC1 w1))
          sampleLayout.LEECHRPC_MSGTYPE_OPEN_RSP = (w2, true, some rsp)
      ∧ (LeechRpc_Open sampleLayout sampleEnv { Config := sampleRpcConfig }
          sampleOpenWorld).world = w2
      ∧ w2.trace = w1.trace
          ++ [Event.transport (decide (_stricmp sampleRpcConfig.szDeviceName sz_rpc = 0)) msg]
      ∧ msg.tpMsg = sampleLayout.LEECHRPC_MSGTYPE_OPEN_REQ
      ∧ msg.cfg = { sampleRpcConfig with
          szDevice := LeechRpc_Open_existingremote sampleRpcConfig.szDevice,
          szRemote := List.replicate sampleRpcConfig.szRemote.length 0,
          pfn_printf_opt := 0 }
      ∧ rsp.fValidOpen = true ∧ rsp.cfg.dwVersion = sampleLayout.LC_CONFIG_VERSION
      ∧ (LeechRpc_Open sampleLayout sampleEnv { Config := sampleRpcConfig }
          sampleOpenWorld).ctxLC.Config
          = { rsp.cfg with
              szRemote := strncpy_s rsp.cfg.szRemote sampleRpcConfig.szRemote,
              pfn_printf_opt := sampleRpcConfig.pfn_printf_opt,
              fRemote := true }
      ∧ ((cstr sampleRpcConfig.szRemote).length < rsp.cfg.szRemote.length →
          cstr (LeechRpc_Open sampleLayout sampleEnv { Config := sampleRpcConfig }
            sampleOpenWorld).ctxLC.Config.szRemote = cstr sampleRpcConfig.szRemote)
      ∧ (LeechRpc_Open sampleLayout sampleEnv { Config := sampleRpcConfig }
          sampleOpenWorld).ctxLC.fMultiThread
          = decide (_stricmp sampleRpcConfig.szDeviceName sz_rpc = 0))
    ∧ (LeechRPC_SubmitCommand sampleLayout sampleEnv
          (LeechRpc_Open_negotiate
            (LeechRpc_Open_transport sampleLayout sampleEnv { Config := sampleRpcConfig }
              sampleOpenWorld).1
            (LeechRpc_Open_transport sampleLayout sampleEnv { Config := sampleRpcConfig }
              sampleOpenWorld).2.1)
          (LeechRpc_Open_transport sampleLayout sampleEnv { Config := sampleRpcConfig }
              sampleOpenWorld).2.1
          (LeechRpc_Open_request sampleLayout
            (LeechRpc_Open_negotiate
              (LeechRpc_Open_transport sampleLayout sampleEnv { Config := sampleRpcConfig }
                sampleOpenWorld).1
              (LeechRpc_Open_transport sampleLayout sampleEnv { Config := sampleRpcConfig }
                sampleOpenWorld).2.1))
          sampleLayout.LEECHRPC_MSGTYPE_OPEN_RSP).2 = (true, some sampleOpenRsp)
    ∧ (LeechRpc_Open sampleLayout sampleEnv { Config := sampleRpcConfig }
          sampleOpenWorld).ctxLC.Config
        = { sampleServerConfig with
            szRemote := sampleRpcConfig.szRemote,
            pfn_printf_opt := 0x7ff6a0001000,
            fRemote := true }
    ∧ sampleServerConfig.szDeviceName ≠ sampleRpcConfig.szDeviceName :=
  ⟨Open_config_merge sampleLayout sampleEnv { Config := sampleRpcConfig } sampleOpenWorld
    (by decide), by decide, by decide, by decide⟩

/-- C19 (amended): a successful `LeechRpc_Open` got through the set-up of its transport,
which left the context `ctxLC1` and the world `w1`, and its call of
`LeechRPC_SubmitCommand` with the `OPEN_REQ` returned the response `rsp`; the flag
`Rpc.fCompress` is then set exactly when the device name is `rpc`, the local
`fRemoteDisableCompress` is clear, no option is `nocompress`,
`LeechRPC_CompressInitialize` succeeds and the configuration record of `rsp`, the one
returned by the server, has `fRemoteDisableCompress` clear; for the device name `pipe`
it is clear. -/
theorem Open_fCompress (L : Layout) (E : Env) (ctxLC : LC_CONTEXT) (w : World)
    (hres : (LeechRpc_Open L E ctxLC w).result = true) :
    ∃ (ctxLC1 : LC_CONTEXT) (w1 w2 : World) (rsp : LEECHRPC_MSG),
      LeechRpc_Open_transport L E ctxLC w = (ctxLC1, w1, true)
      ∧ LeechRPC_SubmitCommand L E (LeechRpc_Open_negotiate ctxLC1 w1) w1
          (LeechRpc_Open_request L (LeechRpc_Open_negotiate ctxLC1 w1))
          L.LEECHRPC_MSGTYPE_OPEN_RSP = (w2, true, some rsp)
      ∧ (LeechRpc_Open L E ctxLC w).ctxLC.Rpc_fCompress
        = (decide (_stricmp ctxLC.Config.szDeviceName sz_rpc = 0)
            && (!ctxLC.Config.fRemoteDisableCompress
              && !optionNocompress E (remoteOptions E ctxLC.Config.szRemote))
            && w.fCompressInitialize
            && !rsp.cfg.fRemoteDisableCompress) := by
  obtain ⟨ctxLC1, w1, w2, rsp, ht, hs, hv, hver, hfin⟩ := Open_success L E ctxLC w hres
  obtain ⟨_, _, hf, hw, _⟩ := Open_transport_spec L E ctxLC ctxLC1 w w1 ht
  have hn : (LeechRpc_Open_negotiate ctxLC1 w1).Rpc_fCompress
      = (decide (_stricmp ctxLC.Config.szDeviceName sz_rpc = 0)
          && (!ctxLC.Config.fRemoteDisableCompress
            && !optionNocompress E (remoteOptions E ctxLC.Config.szRemote))
          && w.fCompressInitialize) := by
    unfold LeechRpc_Open_negotiate
    simp only []
    rw [hf, hw]
  refine ⟨ctxLC1, w1, w2, rsp, ht, hs, ?_⟩
  rw [hfin]
  unfold LeechRpc_Open_finish
  rw [if_neg (by rw [hv]; simp), if_neg (not_not.mpr hver)]
  simp only []
  rw [← hn]
  cases h1 : (LeechRpc_Open_negotiate ctxLC1 w1).Rpc_fCompress <;>
    cases h2 : rsp.cfg.fRemoteDisableCompress <;> simp [h1, h2]

/-- The theorem for C19 applied to a session to `rpc://insecure:host` whose server returns
a configuration with `fRemoteDisableCompress` set: compression is wanted locally, no
option is `nocompress` and `LeechRPC_CompressInitialize` succeeds, yet the flag is clear
afterwards; with the server of `sampleOpenWorld`, which does not refuse, it is set. -/
theorem Open_fCompress_witness :
    (∃ (ctxLC1 : LC_CONTEXT) (w1 w2 : World) (rsp : LEECHRPC_MSG),
      LeechRpc_Open_transport sampleLayout sampleEnv { Config := sampleRpcConfig }
          sampleRefusingWorld = (ctxLC1, w1, true)
      ∧ LeechRPC_SubmitCommand sampleLayout sampleEnv (LeechRpc_Open_negotiate ctxLC1 w1) w1
          (LeechRpc_Open_request sampleLayout (LeechRpc_Open_negotiate ctxLC1 w1))
          sampleLayout.LEECHRPC_MSGTYPE_OPEN_RSP = (w2, true, some rsp)
      ∧ (LeechRpc_Open sampleLayout sampleEnv { Config := sampleRpcConfig }
          sampleRefusingWorld).ctxLC.Rpc_fCompress
        = (decide (_stricmp sampleRpcConfig.szDeviceName sz_rpc = 0)
            && (!sampleRpcConfig.fRemoteDisableCompress
              && !optionNocompress sampleEnv (remoteOptions sampleEnv sampleRpcConfig.szRemote))
            && sampleRefusingWorld.fCompressInitialize
            && !rsp.cfg.fRemoteDisableCompress))
    ∧ (decide (_stricmp sampleRpcConfig.szDeviceName sz_rpc = 0)
          && (!sampleRpcConfig.fRemoteDisableCompress
            && !optionNocompress sampleEnv (remoteOptions sampleEnv sampleRpcConfig.szRemote))
          && sampleRefusingWorld.fCompressInitialize) = true
    ∧ sampleRefusingConfig.fRemoteDisableCompress = true
    ∧ (LeechRpc_Open sampleLayout sampleEnv { Config := sampleRpcConfig }
        sampleRefusingWorld).ctxLC.Rpc_fCompress = false
    ∧ (LeechRpc_Open sampleLayout sampleEnv { Config := sampleRpcConfig }
        sampleOpenWorld).ctxLC.Rpc_fCompress = true :=
  ⟨Open_fCompress sampleLayout sampleEnv { Config := sampleRpcConfig } sampleRefusingWorld
    (by decide), by decide, by decide, by decide, by decide⟩

/-- Counterexample for C19: a session to `pipe://4:8` is opened with the local
`fRemoteDisableCompress` clear and no option at all, in a world where
`LeechRPC_CompressInitialize` succeeds, and the server returns a configuration with
`fRemoteDisableCompress` clear (in the body of the response it sends, and so in the
record found after the call); `Rpc.fCompress` is clear afterwards. -/
theorem Open_fCompress_counterexample :
    (LeechRpc_Open sampleLayout sampleEnv { Config := samplePipeConfig }
        samplePipeOpenWorld).result = true
    ∧ samplePipeConfig.fRemoteDisableCompress = false
    ∧ cstr (samplePipeConfig.szRemote.drop 7) = [52, 58, 56]
    ∧ samplePipeOpenWorld.fCompressInitialize = true
    ∧ samplePipeOpenWorld.pipeReads[2]? = some sampleOpenRspBody
    ∧ (sampleLayout.viewEXT sampleOpenRspBody).cfg.fRemoteDisableCompress = false
    ∧ (LeechRpc_Open sampleLayout sampleEnv { Config := samplePipeConfig }
        samplePipeOpenWorld).ctxLC.Config.fRemoteDisableCompress = false
    ∧ (LeechRpc_Open sampleLayout sampleEnv { Config := samplePipeConfig }
        samplePipeOpenWorld).ctxLC.Rpc_fCompress = false := by
  decide

/-- A two-byte store leaves the bytes before it. -/
theorem rdBYTE_wrWORD_lt (b : Bytes) (off v i : Nat) (h : i < off) :
    rdBYTE (wrWORD b off v) i = rdBYTE b i := by
  have h1 := rdBYTE_readBytes b 0 off i h
  unfold rdBYTE wrWORD at *
  simp only [List.getD_eq_getElem?_getD, Nat.zero_add] at h1 ⊢
  rw [List.append_assoc, List.getElem?_append_left (by rw [readBytes_length]; exact h)]
  exact h1

/-- The two bytes of a two-byte store of zero. -/
theorem rdBYTE_wrWORD_zero (b : Bytes) (off : Nat) :
    rdBYTE (wrWORD b off 0) off = 0 ∧ rdBYTE (wrWORD b off 0) (off + 1) = 0 := by
  unfold rdBYTE wrWORD
  simp only [List.getD_eq_getElem?_getD, List.append_assoc]
  constructor
  · rw [List.getElem?_append_right (by rw [readBytes_length]), readBytes_length, Nat.sub_self]
    rfl
  · rw [List.getElem?_append_right (by rw [readBytes_length]; omega), readBytes_length,
      Nat.add_sub_cancel_left]
    simp

/-- The error information `LeechRpc_Open` hands out: a copy of `cbStruct` bytes of the
one in the response, the same up to the end of the text, with zero in the bytes of the
unit behind the text as far as they lie inside the copy. -/
theorem Open_errorinfo_copy (L : Layout) (rsp : LEECHRPC_MSG) (blob : Bytes)
    (h : LeechRpc_Open_errorinfo L rsp = some blob) :
    rdDWORD rsp.errorinfo L.ERRORINFO_dwVersion = L.LC_CONFIG_ERRORINFO_VERSION
    ∧ blob.length = rdDWORD rsp.errorinfo L.ERRORINFO_cbStruct
    ∧ blob.length < rsp.cbMsg
    ∧ rdDWORD rsp.errorinfo L.ERRORINFO_cwszUserText * 2 + L.sizeof_LC_CONFIG_ERRORINFO
        < blob.length
    ∧ (∀ i, i < blob.length →
        i < L.ERRORINFO_wszUserText + 2 * rdDWORD rsp.errorinfo L.ERRORINFO_cwszUserText →
        rdBYTE blob i = rdBYTE rsp.errorinfo i)
    ∧ (L.ERRORINFO_wszUserText + 2 * rdDWORD rsp.errorinfo L.ERRORINFO_cwszUserText
          < blob.length →
        rdBYTE blob
          (L.ERRORINFO_wszUserText + 2 * rdDWORD rsp.errorinfo L.ERRORINFO_cwszUserText) = 0)
    ∧ (L.ERRORINFO_wszUserText + 2 * rdDWORD rsp.errorinfo L.ERRORINFO_cwszUserText + 1
          < blob.length →
        rdBYTE blob
          (L.ERRORINFO_wszUserText + 2 * rdDWORD rsp.errorinfo L.ERRORINFO_cwszUserText + 1)
            = 0) := by
  unfold LeechRpc_Open_errorinfo at h
  simp only [] at h
  split_ifs at h with hc
  obtain ⟨hver, hmsg, hroom⟩ := hc
  have hb := Option.some.inj h
  have hblob : blob = readBytes (wrWORD rsp.errorinfo (L.ERRORINFO_wszUserText
      + 2 * rdDWORD rsp.errorinfo L.ERRORINFO_cwszUserText) 0) 0
      (rdDWORD rsp.errorinfo L.ERRORINFO_cbStruct) := by
    rw [← hb]
    unfold memcpy
    rw [List.drop_eq_nil_of_le (by rw [List.length_replicate]), List.append_nil]
  have hlen : blob.length = rdDWORD rsp.errorinfo L.ERRORINFO_cbStruct := by
    rw [hblob, readBytes_length]
  refine ⟨hver, hlen, by rw [hlen]; exact hmsg, by rw [hlen]; exact hroom, ?_, ?_, ?_⟩
  · intro i hi hlt
    rw [hlen] at hi
    rw [hblob, rdBYTE_readBytes _ _ _ _ hi, Nat.zero_add, rdBYTE_wrWORD_lt _ _ _ _ hlt]
  · intro hi
    rw [hlen] at hi
    rw [hblob, rdBYTE_readBytes _ _ _ _ hi, Nat.zero_add]
    exact (rdBYTE_wrWORD_zero _ _).1
  · intro hi
    rw [hlen] at hi
    rw [hblob, rdBYTE_readBytes _ _ _ _ hi, Nat.zero_add]
    exact (rdBYTE_wrWORD_zero _ _).2

/-- An error information is handed out by `LeechRpc_Open` only for a response to the open
request that is not a valid open, and then the call fails. -/
theorem Open_errorInfo_some (L : Layout) (E : Env) (ctxLC : LC_CONTEXT) (w : World)
    (blob : Bytes) (h : (LeechRpc_Open L E ctxLC w).errorInfo = some blob) :
    (LeechRpc_Open L E ctxLC w).result = false
    ∧ ∃ (ctxLC1 : LC_CONTEXT) (w1 w2 : World) (pMsgRsp : LEECHRPC_MSG),
      LeechRpc_Open_transport L E ctxLC w = (ctxLC1, w1, true)
      ∧ LeechRPC_SubmitCommand L E (LeechRpc_Open_negotiate ctxLC1 w1) w1
          (LeechRpc_Open_request L (LeechRpc_Open_negotiate ctxLC1 w1))
          L.LEECHRPC_MSGTYPE_OPEN_RSP = (w2, true, some pMsgRsp)
      ∧ pMsgRsp.fValidOpen = false
      ∧ LeechRpc_Open_errorinfo L pMsgRsp = some blob := by
  unfold LeechRpc_Open at h
  cases ht : LeechRpc_Open_transport L E ctxLC w with
  | mk ctxLC1 r =>
    obtain ⟨w1, b⟩ := r
    rw [ht] at h
    cases b with
    | false => exact absurd h (by simp [LeechRpc_Open_fail])
    | true =>
      simp only [] at h
      cases hs : LeechRPC_SubmitCommand L E (LeechRpc_Open_negotiate ctxLC1 w1) w1
          (LeechRpc_Open_request L (LeechRpc_Open_negotiate ctxLC1 w1))
          L.LEECHRPC_MSGTYPE_OPEN_RSP with
      | mk w2 r2 =>
        obtain ⟨b2, o⟩ := r2
        rw [hs] at h
        cases b2 with
        | false => exact absurd h (by simp [LeechRpc_Open_fail])
        | true =>
          cases o with
          | none => exact absurd h (by simp [LeechRpc_Open_fail])
          | some pMsgRsp =>
            simp only [] at h
            unfold LeechRpc_Open_finish at h
            by_cases hv : pMsgRsp.fValidOpen = false
            · rw [if_pos hv] at h
              refine ⟨?_, ctxLC1, w1, w2, pMsgRsp, rfl, hs, hv, h⟩
              unfold LeechRpc_Open
              rw [ht]
              simp only []
              rw [hs]
              simp only []
              unfold LeechRpc_Open_finish
              rw [if_pos hv]
              rfl
            · rw [if_neg hv] at h
              by_cases hd : pMsgRsp.cfg.dwVersion ≠ L.LC_CONFIG_VERSION
              · rw [if_pos hd] at h
                exact absurd h (by simp [LeechRpc_Open_fail])
              · rw [if_neg hd] at h
                exact absurd h (by simp)

/-- Evaluation for C17: the server refuses the open with an error information whose
`cwszUserText` is 5 and whose `cbStruct` is 91, one byte more than the 80 bytes of
`LC_CONFIG_ERRORINFO` and the 10 bytes of the text.  `LeechRpc_Open` fails and hands out
a copy of 91 bytes: the text is there, but of the NUL unit at index 5, which takes the
bytes 90 and 91, only the first is. -/
theorem Open_errorinfo_short_copy :
    (LeechRpc_Open sampleLayout sampleEnv { Config := sampleRpcConfig }
        sampleDeniedWorld).result = false
    ∧ (LeechRpc_Open sampleLayout sampleEnv { Config := sampleRpcConfig }
        sampleDeniedWorld).errorInfo
      = some (sampleErrorInfo.take 90 ++ [0])
    ∧ (sampleErrorInfo.take 90 ++ [0]).length = 91
    ∧ sampleLayout.ERRORINFO_wszUserText + 2 * 5 + 2 = 92 := by
  decide

/-! ### The keepalive worker -/

/-- One more tick adds one to the count of keepalive ticks exactly when the wrapped
counter becomes a multiple of 150. -/
theorem keepaliveTicks_succ (n : Nat) :
    keepaliveTicks (n + 1)
      = keepaliveTicks n + (if (n + 1) % 4294967296 % 150 = 0 then 1 else 0) := by
  unfold keepaliveTicks
  split_ifs with h <;> omega

/-- Every window of 300 ticks holds at least one and at most three keepalive ticks. -/
theorem keepaliveTicks_window (a : Nat) :
    keepaliveTicks a + 1 ≤ keepaliveTicks (a + 300)
    ∧ keepaliveTicks (a + 300) ≤ keepaliveTicks a + 3 := by
  unfold keepaliveTicks
  constructor <;> omega

/-- The loop of the keepalive worker goes through one round for every reading of the flag
that finds it set, whatever the rounds do. -/
theorem KeepaliveThreadClient_loop_rounds (L : Layout) (E : Env) (ctxLC : LC_CONTEXT) :
    ∀ (n : Nat) (fs : List Bool) (s : Nat × World),
    LeechRPC_KeepaliveThreadClient_loop L E ctxLC (List.replicate n true ++ fs) s
      = LeechRPC_KeepaliveThreadClient_loop L E ctxLC fs
          ((LeechRPC_KeepaliveThreadClient_round L E ctxLC)^[n] s) := by
  intro n
  induction n with
  | zero => intro fs s; rfl
  | succ n ih =>
    intro fs s
    rw [List.replicate_succ, List.cons_append, LeechRPC_KeepaliveThreadClient_loop, ih,
      Function.iterate_succ_apply]

/-- After `n` rounds from the start the counter is `n` modulo `2 ^ 32`, and the trace has
grown by one `KEEPALIVE_REQ` handed to the transport for every keepalive tick. -/
theorem KeepaliveThreadClient_rounds (L : Layout) (E : Env) (ctxLC : LC_CONTEXT)
    (ctx : LEECHRPC_CLIENT_CONTEXT) (w : World) (hdev : ctxLC.hDevice = some ctx) :
    ∀ n : Nat,
    ((LeechRPC_KeepaliveThreadClient_round L E ctxLC)^[n] (0, w)).1 = n % 4294967296
    ∧ ((LeechRPC_KeepaliveThreadClient_round L E ctxLC)^[n] (0, w)).2.trace
        = w.trace ++ List.replicate (keepaliveTicks n)
            (Event.transport ctx.fIsRpc
              (stampWire L ctxLC ctx (stampHdr L L.LEECHRPC_MSGTYPE_KEEPALIVE_REQ))) := by
  intro n
  induction n with
  | zero =>
    refine ⟨(Nat.zero_mod _).symm, ?_⟩
    have h0 : keepaliveTicks 0 = 0 := by unfold keepaliveTicks; omega
    rw [h0]
    exact (List.append_nil _).symm
  | succ n ih =>
    obtain ⟨ih1, ih2⟩ := ih
    rw [Function.iterate_succ_apply']
    generalize (LeechRPC_KeepaliveThreadClient_round L E ctxLC)^[n] (0, w) = s at ih1 ih2
    have hc : (s.1 + 1) % 4294967296 = (n + 1) % 4294967296 := by rw [ih1]; omega
    unfold LeechRPC_KeepaliveThreadClient_round
    rw [show (10 * 15 : Nat) = 150 from rfl, hc, keepaliveTicks_succ]
    by_cases h : (n + 1) % 4294967296 % 150 = 0
    · rw [if_pos h, if_pos h]
      refine ⟨by dsimp only, ?_⟩
      dsimp only
      rw [SubmitCommand_trace_hdr L E ctxLC ctx s.2 _ _ hdev (Or.inr (Or.inr rfl))
        (Or.inr (Or.inr (Or.inl rfl))), ih2, List.replicate_succ', List.append_assoc]
    · rw [if_neg h, if_neg h]
      exact ⟨by dsimp only, by dsimp only; rw [ih2, Nat.add_zero]⟩

/-- C21: as long as the readings of the stop flag find it set, the keepalive worker is
still running, whatever the transport answers, and it has handed one `KEEPALIVE_REQ` to
the transport on every tick at which its 32-bit counter is a multiple of 150; in every
window of 300 ticks it hands at least one and at most three of them; and it leaves the
loop at the first reading that finds the flag cleared. -/
theorem KeepaliveThreadClient_cadence (L : Layout) (E : Env) (ctxLC : LC_CONTEXT)
    (ctx : LEECHRPC_CLIENT_CONTEXT) (w : World) (hdev : ctxLC.hDevice = some ctx) (a : Nat)
    (fs : List Bool) :
    (LeechRPC_KeepaliveThreadClient L E ctxLC w (List.replicate a true)).1
        = { ctxLC with hDevice := some (housekeeper ctx true) }
    ∧ (LeechRPC_KeepaliveThreadClient L E ctxLC w (List.replicate a true)).2.trace
        = w.trace ++ List.replicate (keepaliveTicks a)
            (Event.transport ctx.fIsRpc
              (stampWire L ctxLC ctx (stampHdr L L.LEECHRPC_MSGTYPE_KEEPALIVE_REQ)))
    ∧ (∃ k, 1 ≤ k ∧ k ≤ 3
        ∧ (LeechRPC_KeepaliveThreadClient L E ctxLC w (List.replicate (a + 300) true)).2.trace
          = (LeechRPC_KeepaliveThreadClient L E ctxLC w (List.replicate a true)).2.trace
            ++ List.replicate k (Event.transport ctx.fIsRpc
                (stampWire L ctxLC ctx (stampHdr L L.LEECHRPC_MSGTYPE_KEEPALIVE_REQ))))
    ∧ LeechRPC_KeepaliveThreadClient L E ctxLC w (List.replicate a true ++ false :: fs)
        = ({ ctxLC with hDevice := some (housekeeper ctx false) },
           (LeechRPC_KeepaliveThreadClient L E ctxLC w (List.replicate a true)).2) := by
  have hrunT : ∀ n : Nat,
      LeechRPC_KeepaliveThreadClient L E ctxLC w (List.replicate n true)
        = ({ ctxLC with hDevice := some (housekeeper ctx true) },
           ((LeechRPC_KeepaliveThreadClient_round L E
              { ctxLC with hDevice := some (housekeeper ctx true) })^[n] (0, w)).2) := by
    intro n
    have h := KeepaliveThreadClient_loop_rounds L E
      { ctxLC with hDevice := some (housekeeper ctx true) } n [] (0, w)
    rw [List.append_nil] at h
    unfold LeechRPC_KeepaliveThreadClient
    rw [hdev]
    simp only []
    unfold housekeeper at h ⊢
    rw [h]
    simp only [LeechRPC_KeepaliveThreadClient_loop]
  have hrunF : ∀ n : Nat,
      LeechRPC_KeepaliveThreadClient L E ctxLC w (List.replicate n true ++ false :: fs)
        = ({ ctxLC with hDevice := some (housekeeper ctx false) },
           ((LeechRPC_KeepaliveThreadClient_round L E
              { ctxLC with hDevice := some (housekeeper ctx true) })^[n] (0, w)).2) := by
    intro n
    have h := KeepaliveThreadClient_loop_rounds L E
      { ctxLC with hDevice := some (housekeeper ctx true) } n (false :: fs) (0, w)
    unfold LeechRPC_KeepaliveThreadClient
    rw [hdev]
    simp only []
    unfold housekeeper at h ⊢
    rw [h]
    simp only [LeechRPC_KeepaliveThreadClient_loop]
  have hsw : stampWire L { ctxLC with hDevice := some (housekeeper ctx true) }
      (housekeeper ctx true) (stampHdr L L.LEECHRPC_MSGTYPE_KEEPALIVE_REQ)
      = stampWire L ctxLC ctx (stampHdr L L.LEECHRPC_MSGTYPE_KEEPALIVE_REQ) := rfl
  have hfi : (housekeeper ctx true).fIsRpc = ctx.fIsRpc := rfl
  have hrounds := KeepaliveThreadClient_rounds L E
    { ctxLC with hDevice := some (housekeeper ctx true) } (housekeeper ctx true) w rfl
  rw [hsw, hfi] at hrounds
  have htrace : ∀ n, (LeechRPC_KeepaliveThreadClient L E ctxLC w (List.replicate n true)).2.trace
      = w.trace ++ List.replicate (keepaliveTicks n)
          (Event.transport ctx.fIsRpc
            (stampWire L ctxLC ctx (stampHdr L L.LEECHRPC_MSGTYPE_KEEPALIVE_REQ))) := by
    intro n
    rw [hrunT n]
    exact (hrounds n).2
  refine ⟨by rw [hrunT a], htrace a, ?_, by rw [hrunF a, hrunT a]⟩
  obtain ⟨hlo, hhi⟩ := keepaliveTicks_window a
  have t1 := htrace (a + 300)
  have t2 := htrace a
  generalize keepaliveTicks (a + 300) = y at hlo hhi t1
  generalize keepaliveTicks a = x at hlo hhi t2
  have hxy : x + (y - x) = y := by omega
  refine ⟨y - x, by omega, by omega, ?_⟩
  rw [t1, t2, List.append_assoc, ← List.replicate_add, hxy]

/-- The theorem for C21 applied to an open RPC session, seven ticks after the start of
the worker. -/
theorem KeepaliveThreadClient_cadence_witness :
    (LeechRPC_KeepaliveThreadClient sampleLayout sampleEnv sampleRpcCtx
        (sampleWorld samplePingRsp) (List.replicate 7 true)).1
        = { sampleRpcCtx with hDevice := some (housekeeper { fIsRpc := true } true) }
    ∧ (LeechRPC_KeepaliveThreadClient sampleLayout sampleEnv sampleRpcCtx
        (sampleWorld samplePingRsp) (List.replicate 7 true)).2.trace
        = (sampleWorld samplePingRsp).trace ++ List.replicate (keepaliveTicks 7)
            (Event.transport true
              (stampWire sampleLayout sampleRpcCtx { fIsRpc := true }
                (stampHdr sampleLayout sampleLayout.LEECHRPC_MSGTYPE_KEEPALIVE_REQ)))
    ∧ (∃ k, 1 ≤ k ∧ k ≤ 3
        ∧ (LeechRPC_KeepaliveThreadClient sampleLayout sampleEnv sampleRpcCtx
            (sampleWorld samplePingRsp) (List.replicate (7 + 300) true)).2.trace
          = (LeechRPC_KeepaliveThreadClient sampleLayout sampleEnv sampleRpcCtx
              (sampleWorld samplePingRsp) (List.replicate 7 true)).2.trace
            ++ List.replicate k (Event.transport true
                (stampWire sampleLayout sampleRpcCtx { fIsRpc := true }
                  (stampHdr sampleLayout sampleLayout.LEECHRPC_MSGTYPE_KEEPALIVE_REQ))))
    ∧ LeechRPC_KeepaliveThreadClient sampleLayout sampleEnv sampleRpcCtx
          (sampleWorld samplePingRsp) (List.replicate 7 true ++ false :: [true])
        = ({ sampleRpcCtx with hDevice := some (housekeeper { fIsRpc := true } false) },
           (LeechRPC_KeepaliveThreadClient sampleLayout sampleEnv sampleRpcCtx
              (sampleWorld samplePingRsp) (List.replicate 7 true)).2) :=
  KeepaliveThreadClient_cadence sampleLayout sampleEnv sampleRpcCtx { fIsRpc := true }
    (sampleWorld samplePingRsp) rfl 7 [true]

/-! ### The store into a `VFS_LIST` response -/

/-- The bytes of an eight-byte store. -/
theorem rdBYTE_wrQWORD_at (b : Bytes) (off v i : Nat) (h : i < 8) :
    rdBYTE (wrQWORD b off v) (off + i) = v / 256 ^ i % 256 := by
  unfold rdBYTE wrQWORD
  simp only [List.getD_eq_getElem?_getD, List.append_assoc]
  rw [List.getElem?_append_right (by rw [readBytes_length]; omega), readBytes_length,
    Nat.add_sub_cancel_left,
    List.getElem?_append_left (by rw [bytesQWORD_length]; exact h)]
  unfold bytesQWORD
  rw [List.getElem?_map, List.getElem?_range h, Option.map_some', Option.getD_some]

/-- An eight-byte store of a 64-bit value is read back. -/
theorem rdQWORD_wrQWORD_same (b : Bytes) (off v : Nat) (hv : v < 18446744073709551616) :
    rdQWORD (wrQWORD b off v) off = v := by
  have h0 : rdBYTE (wrQWORD b off v) off = v % 256 := by
    have := rdBYTE_wrQWORD_at b off v 0 (by omega)
    rw [Nat.add_zero, Nat.pow_zero, Nat.div_one] at this
    exact this
  have h1 : rdBYTE (wrQWORD b off v) (off + 1) = v / 256 % 256 := by
    have := rdBYTE_wrQWORD_at b off v 1 (by omega)
    rw [Nat.pow_one] at this
    exact this
  have h2 : rdBYTE (wrQWORD b off v) (off + 2) = v / 65536 % 256 :=
    rdBYTE_wrQWORD_at b off v 2 (by omega)
  have h3 : rdBYTE (wrQWORD b off v) (off + 3) = v / 16777216 % 256 :=
    rdBYTE_wrQWORD_at b off v 3 (by omega)
  have h4 : rdBYTE (wrQWORD b off v) (off + 4) = v / 4294967296 % 256 :=
    rdBYTE_wrQWORD_at b off v 4 (by omega)
  have h5 : rdBYTE (wrQWORD b off v) (off + 4 + 1) = v / 1099511627776 % 256 :=
    rdBYTE_wrQWORD_at b off v 5 (by omega)
  have h6 : rdBYTE (wrQWORD b off v) (off + 4 + 2) = v / 281474976710656 % 256 :=
    rdBYTE_wrQWORD_at b off v 6 (by omega)
  have h7 : rdBYTE (wrQWORD b off v) (off + 4 + 3) = v / 72057594037927936 % 256 :=
    rdBYTE_wrQWORD_at b off v 7 (by omega)
  unfold rdQWORD rdDWORD
  rw [h0, h1, h2, h3, h4, h5, h6, h7]
  omega


/-- The message `LeechRPC_Command_VerifyUntrustedVfsRsp` leaves: the one it was given, or,
for a `VFS_LIST`, that message with the offset of the text stored in the slot
`uszMultiText`. -/
theorem VerifyUntrustedVfsRsp_msg (L : Layout) (fCMD : Nat) (pMsgRsp : LEECHRPC_MSG) :
    (LeechRPC_Command_VerifyUntrustedVfsRsp L fCMD pMsgRsp).2 = pMsgRsp
    ∨ (fCMD = L.LC_CMD_AGENT_VFS_LIST
      ∧ (LeechRPC_Command_VerifyUntrustedVfsRsp L fCMD pMsgRsp).2
          = { pMsgRsp with pb := (wrQWORD pMsgRsp.pb (L.sizeof_LC_CMD_AGENT_VFS_RSP + 16)
                (sizeof_VFS_FILELISTBLOB
                  + rdDWORD pMsgRsp.pb (L.sizeof_LC_CMD_AGENT_VFS_RSP + 8)
                    * sizeof_VFS_FILELISTBLOB_ENTRY)) }) := by
  unfold LeechRPC_Command_VerifyUntrustedVfsRsp
  by_cases h1 : pMsgRsp.cb < L.sizeof_LC_CMD_AGENT_VFS_RSP
  · rw [if_pos h1]; exact Or.inl rfl
  rw [if_neg h1]
  simp only []
  by_cases h2 : rdDWORD pMsgRsp.pb L.VFS_RSP_dwVersion ≠ L.LC_CMD_AGENT_VFS_RSP_VERSION
  · rw [if_pos h2]; exact Or.inl rfl
  rw [if_neg h2]
  by_cases h3 : pMsgRsp.cb ≠ L.sizeof_LC_CMD_AGENT_VFS_RSP + rdDWORD pMsgRsp.pb L.VFS_RSP_cb
  · rw [if_pos h3]; exact Or.inl rfl
  rw [if_neg h3]
  by_cases hR : fCMD = L.LC_CMD_AGENT_VFS_READ
  · rw [if_pos hR]; exact Or.inl rfl
  rw [if_neg hR]
  by_cases hW : fCMD = L.LC_CMD_AGENT_VFS_WRITE
  · rw [if_pos hW]; exact Or.inl rfl
  rw [if_neg hW]
  by_cases hL : fCMD = L.LC_CMD_AGENT_VFS_LIST
  swap
  · rw [if_neg hL]; exact Or.inl rfl
  rw [if_pos hL]
  by_cases h4 : rdDWORD pMsgRsp.pb L.VFS_RSP_cb < sizeof_VFS_FILELISTBLOB
  · rw [if_pos h4]; exact Or.inl rfl
  rw [if_neg h4]
  by_cases h5 : rdBYTE pMsgRsp.pb (L.sizeof_LC_CMD_AGENT_VFS_RSP
      + (rdDWORD pMsgRsp.pb L.VFS_RSP_cb - 1)) ≠ 0
  · rw [if_pos h5]; exact Or.inl rfl
  rw [if_neg h5]
  by_cases h6 : rdDWORD pMsgRsp.pb L.sizeof_LC_CMD_AGENT_VFS_RSP ≠ __VFS_FILELISTBLOB_VERSION
      ∨ rdDWORD pMsgRsp.pb L.VFS_RSP_cb
          ≠ rdDWORD pMsgRsp.pb (L.sizeof_LC_CMD_AGENT_VFS_RSP + 4)
      ∨ rdDWORD pMsgRsp.pb (L.sizeof_LC_CMD_AGENT_VFS_RSP + 12) = 0
  · rw [if_pos h6]; exact Or.inl rfl
  rw [if_neg h6]
  by_cases h7 : rdDWORD pMsgRsp.pb L.VFS_RSP_cb
      ≠ sizeof_VFS_FILELISTBLOB + rdDWORD pMsgRsp.pb (L.sizeof_LC_CMD_AGENT_VFS_RSP + 8)
          * sizeof_VFS_FILELISTBLOB_ENTRY + rdDWORD pMsgRsp.pb (L.sizeof_LC_CMD_AGENT_VFS_RSP + 12)
  · rw [if_pos h7]; exact Or.inl rfl
  rw [if_neg h7]
  by_cases h8 : rdBYTE pMsgRsp.pb (L.sizeof_LC_CMD_AGENT_VFS_RSP + (sizeof_VFS_FILELISTBLOB
      + rdDWORD pMsgRsp.pb (L.sizeof_LC_CMD_AGENT_VFS_RSP + 8) * sizeof_VFS_FILELISTBLOB_ENTRY)) ≠ 0
  · rw [if_pos h8]; exact Or.inl rfl
  rw [if_neg h8]
  split_ifs <;> exact Or.inr ⟨hL, rfl⟩

/-- The message an accepted `VFS_LIST` response comes out as. -/
theorem VerifyUntrustedVfsRsp_list_msg (L : Layout) (pMsgRsp : LEECHRPC_MSG)
    (hr : L.LC_CMD_AGENT_VFS_LIST ≠ L.LC_CMD_AGENT_VFS_READ)
    (hw : L.LC_CMD_AGENT_VFS_LIST ≠ L.LC_CMD_AGENT_VFS_WRITE)
    (h : (LeechRPC_Command_VerifyUntrustedVfsRsp L L.LC_CMD_AGENT_VFS_LIST pMsgRsp).1 = true) :
    (LeechRPC_Command_VerifyUntrustedVfsRsp L L.LC_CMD_AGENT_VFS_LIST pMsgRsp).2
      = { pMsgRsp with pb := (wrQWORD pMsgRsp.pb (L.sizeof_LC_CMD_AGENT_VFS_RSP + 16)
            (sizeof_VFS_FILELISTBLOB
              + rdDWORD pMsgRsp.pb (L.sizeof_LC_CMD_AGENT_VFS_RSP + 8)
                * sizeof_VFS_FILELISTBLOB_ENTRY)) } := by
  unfold LeechRPC_Command_VerifyUntrustedVfsRsp at h ⊢
  by_cases h1 : pMsgRsp.cb < L.sizeof_LC_CMD_AGENT_VFS_RSP
  · rw [if_pos h1] at h; exact absurd h (by simp)
  rw [if_neg h1] at h ⊢
  simp only [hr, hw, if_false, if_true] at h ⊢
  by_cases h2 : rdDWORD pMsgRsp.pb L.VFS_RSP_dwVersion ≠ L.LC_CMD_AGENT_VFS_RSP_VERSION
  · rw [if_pos h2] at h; exact absurd h (by simp)
  rw [if_neg h2] at h ⊢
  by_cases h3 : pMsgRsp.cb ≠ L.sizeof_LC_CMD_AGENT_VFS_RSP + rdDWORD pMsgRsp.pb L.VFS_RSP_cb
  · rw [if_pos h3] at h; exact absurd h (by simp)
  rw [if_neg h3] at h ⊢
  by_cases h4 : rdDWORD pMsgRsp.pb L.VFS_RSP_cb < sizeof_VFS_FILELISTBLOB
  · rw [if_pos h4] at h; exact absurd h (by simp)
  rw [if_neg h4] at h ⊢
  by_cases h5 : rdBYTE pMsgRsp.pb (L.sizeof_LC_CMD_AGENT_VFS_RSP
      + (rdDWORD pMsgRsp.pb L.VFS_RSP_cb - 1)) ≠ 0
  · rw [if_pos h5] at h; exact absurd h (by simp)
  rw [if_neg h5] at h ⊢
  by_cases h6 : rdDWORD pMsgRsp.pb L.sizeof_LC_CMD_AGENT_VFS_RSP ≠ __VFS_FILELISTBLOB_VERSION
      ∨ rdDWORD pMsgRsp.pb L.VFS_RSP_cb
          ≠ rdDWORD pMsgRsp.pb (L.sizeof_LC_CMD_AGENT_VFS_RSP + 4)
      ∨ rdDWORD pMsgRsp.pb (L.sizeof_LC_CMD_AGENT_VFS_RSP + 12) = 0
  · rw [if_pos h6] at h; exact absurd h (by simp)
  rw [if_neg h6] at h ⊢
  by_cases h7 : rdDWORD pMsgRsp.pb L.VFS_RSP_cb
      ≠ sizeof_VFS_FILELISTBLOB + rdDWORD pMsgRsp.pb (L.sizeof_LC_CMD_AGENT_VFS_RSP + 8)
          * sizeof_VFS_FILELISTBLOB_ENTRY + rdDWORD pMsgRsp.pb (L.sizeof_LC_CMD_AGENT_VFS_RSP + 12)
  · rw [if_pos h7] at h; exact absurd h (by simp)
  rw [if_neg h7] at h ⊢
  by_cases h8 : rdBYTE pMsgRsp.pb (L.sizeof_LC_CMD_AGENT_VFS_RSP + (sizeof_VFS_FILELISTBLOB
      + rdDWORD pMsgRsp.pb (L.sizeof_LC_CMD_AGENT_VFS_RSP + 8) * sizeof_VFS_FILELISTBLOB_ENTRY)) ≠ 0
  · rw [if_pos h8] at h; exact absurd h (by simp)
  rw [if_neg h8] at h ⊢
  split_ifs <;> rfl

/-- For an accepted `VFS_LIST` response the only bytes of the message that change are
the eight bytes of the slot `uszMultiText`, which then hold the offset
`sizeof(__VFS_FILELISTBLOB) + cFileEntry * sizeof(__VFS_FILELISTBLOB_ENTRY)`. -/
theorem VerifyUntrustedVfsRsp_list_frame (L : Layout) (pMsgRsp : LEECHRPC_MSG)
    (hr : L.LC_CMD_AGENT_VFS_LIST ≠ L.LC_CMD_AGENT_VFS_READ)
    (hw : L.LC_CMD_AGENT_VFS_LIST ≠ L.LC_CMD_AGENT_VFS_WRITE)
    (h : (LeechRPC_Command_VerifyUntrustedVfsRsp L L.LC_CMD_AGENT_VFS_LIST pMsgRsp).1 = true) :
    (∀ i, i < L.sizeof_LC_CMD_AGENT_VFS_RSP + 16 ∨ L.sizeof_LC_CMD_AGENT_VFS_RSP + 24 ≤ i →
      rdBYTE (LeechRPC_Command_VerifyUntrustedVfsRsp L L.LC_CMD_AGENT_VFS_LIST pMsgRsp).2.pb i
        = rdBYTE pMsgRsp.pb i)
    ∧ rdQWORD (LeechRPC_Command_VerifyUntrustedVfsRsp L L.LC_CMD_AGENT_VFS_LIST pMsgRsp).2.pb
          (L.sizeof_LC_CMD_AGENT_VFS_RSP + 16)
        = sizeof_VFS_FILELISTBLOB
          + rdDWORD pMsgRsp.pb (L.sizeof_LC_CMD_AGENT_VFS_RSP + 8)
            * sizeof_VFS_FILELISTBLOB_ENTRY
    ∧ (LeechRPC_Command_VerifyUntrustedVfsRsp L L.LC_CMD_AGENT_VFS_LIST pMsgRsp).2.cb
        = pMsgRsp.cb := by
  rw [VerifyUntrustedVfsRsp_list_msg L pMsgRsp hr hw h]
  refine ⟨?_, ?_, rfl⟩
  · intro i hi
    rcases hi with hi | hi
    · exact rdBYTE_wrQWORD_lt _ _ _ _ hi
    · exact rdBYTE_wrQWORD_ge _ _ _ _ (by omega)
  · apply rdQWORD_wrQWORD_same
    have : rdDWORD pMsgRsp.pb (L.sizeof_LC_CMD_AGENT_VFS_RSP + 8) < 4294967296 := by
      unfold rdDWORD
      exact Nat.mod_lt _ (by norm_num)
    unfold sizeof_VFS_FILELISTBLOB sizeof_VFS_FILELISTBLOB_ENTRY
    omega

/-- Evaluation for C22: a `VFS_LIST` response that fails the check of its entry only is
refused, and the slot `uszMultiText` of the message, which held `0x7ffe12345678`, holds
the offset 104 of the text afterwards. -/
theorem VerifyUntrustedVfsRsp_store_on_reject :
    (LeechRPC_Command_VerifyUntrustedVfsRsp sampleLayout sampleLayout.LC_CMD_AGENT_VFS_LIST
        sampleVfsBadEntryRsp).1 = false
    ∧ rdQWORD sampleVfsBadEntryRsp.pb (sampleLayout.sizeof_LC_CMD_AGENT_VFS_RSP + 16)
        = 0x7ffe12345678
    ∧ rdQWORD (LeechRPC_Command_VerifyUntrustedVfsRsp sampleLayout
        sampleLayout.LC_CMD_AGENT_VFS_LIST sampleVfsBadEntryRsp).2.pb
          (sampleLayout.sizeof_LC_CMD_AGENT_VFS_RSP + 16) = 104 := by
  decide

/-- C23: in a `VFS_LIST` response that `LeechRPC_Command_VerifyUntrustedVfsRsp` accepts,
read as the function leaves it, with the inner buffer of `inner_cb = cb -
sizeof(LC_CMD_AGENT_VFS_RSP)` bytes behind the response header: the slot `uszMultiText`
holds the offset at which the `cFileEntry` entries end, no later than `inner_cb`; and for
every entry `i` the position `uszMultiText + ouszName` is below `inner_cb`, with a zero
byte at or after it and below `inner_cb`. -/
theorem VerifyUntrustedVfsRsp_names_inside (L : Layout) (pMsgRsp : LEECHRPC_MSG)
    (hr : L.LC_CMD_AGENT_VFS_LIST ≠ L.LC_CMD_AGENT_VFS_READ)
    (hw : L.LC_CMD_AGENT_VFS_LIST ≠ L.LC_CMD_AGENT_VFS_WRITE)
    (h : (LeechRPC_Command_VerifyUntrustedVfsRsp L L.LC_CMD_AGENT_VFS_LIST pMsgRsp).1 = true) :
    rdQWORD ((LeechRPC_Command_VerifyUntrustedVfsRsp L L.LC_CMD_AGENT_VFS_LIST pMsgRsp).2.pb.drop
        L.sizeof_LC_CMD_AGENT_VFS_RSP) 16
      = sizeof_VFS_FILELISTBLOB
        + rdDWORD ((LeechRPC_Command_VerifyUntrustedVfsRsp L L.LC_CMD_AGENT_VFS_LIST
            pMsgRsp).2.pb.drop L.sizeof_LC_CMD_AGENT_VFS_RSP) 8 * sizeof_VFS_FILELISTBLOB_ENTRY
    ∧ rdQWORD ((LeechRPC_Command_VerifyUntrustedVfsRsp L L.LC_CMD_AGENT_VFS_LIST pMsgRsp).2.pb.drop
        L.sizeof_LC_CMD_AGENT_VFS_RSP) 16
      < (LeechRPC_Command_VerifyUntrustedVfsRsp L L.LC_CMD_AGENT_VFS_LIST pMsgRsp).2.cb
          - L.sizeof_LC_CMD_AGENT_VFS_RSP
    ∧ ∀ i, i < rdDWORD ((LeechRPC_Command_VerifyUntrustedVfsRsp L L.LC_CMD_AGENT_VFS_LIST
          pMsgRsp).2.pb.drop L.sizeof_LC_CMD_AGENT_VFS_RSP) 8 →
        sizeof_VFS_FILELISTBLOB + (i + 1) * sizeof_VFS_FILELISTBLOB_ENTRY
          ≤ rdQWORD ((LeechRPC_Command_VerifyUntrustedVfsRsp L L.LC_CMD_AGENT_VFS_LIST
              pMsgRsp).2.pb.drop L.sizeof_LC_CMD_AGENT_VFS_RSP) 16
        ∧ rdQWORD ((LeechRPC_Command_VerifyUntrustedVfsRsp L L.LC_CMD_AGENT_VFS_LIST
              pMsgRsp).2.pb.drop L.sizeof_LC_CMD_AGENT_VFS_RSP) 16
            + rdQWORD ((LeechRPC_Command_VerifyUntrustedVfsRsp L L.LC_CMD_AGENT_VFS_LIST
                pMsgRsp).2.pb.drop L.sizeof_LC_CMD_AGENT_VFS_RSP)
                (sizeof_VFS_FILELISTBLOB + i * sizeof_VFS_FILELISTBLOB_ENTRY)
          < (LeechRPC_Command_VerifyUntrustedVfsRsp L L.LC_CMD_AGENT_VFS_LIST pMsgRsp).2.cb
              - L.sizeof_LC_CMD_AGENT_VFS_RSP
        ∧ ∃ j, rdQWORD ((LeechRPC_Command_VerifyUntrustedVfsRsp L L.LC_CMD_AGENT_VFS_LIST
                pMsgRsp).2.pb.drop L.sizeof_LC_CMD_AGENT_VFS_RSP) 16
              + rdQWORD ((LeechRPC_Command_VerifyUntrustedVfsRsp L L.LC_CMD_AGENT_VFS_LIST
                  pMsgRsp).2.pb.drop L.sizeof_LC_CMD_AGENT_VFS_RSP)
                  (sizeof_VFS_FILELISTBLOB + i * sizeof_VFS_FILELISTBLOB_ENTRY) ≤ j
            ∧ j < (LeechRPC_Command_VerifyUntrustedVfsRsp L L.LC_CMD_AGENT_VFS_LIST pMsgRsp).2.cb
                - L.sizeof_LC_CMD_AGENT_VFS_RSP
            ∧ rdBYTE ((LeechRPC_Command_VerifyUntrustedVfsRsp L L.LC_CMD_AGENT_VFS_LIST
                pMsgRsp).2.pb.drop L.sizeof_LC_CMD_AGENT_VFS_RSP) j = 0 := by
  have hok := (VerifyUntrustedVfsRsp_list_iff L pMsgRsp hr hw).1 h
  unfold VfsListOK at hok
  simp only [rdBYTE_drop, rdDWORD_drop, rdQWORD_drop, Nat.add_zero] at hok
  obtain ⟨k1, -, k3, k4, k5, -, -, k8, k9, -, k11⟩ := hok
  obtain ⟨f1, f2, f3⟩ := VerifyUntrustedVfsRsp_list_frame L pMsgRsp hr hw h
  rw [VerifyUntrustedVfsRsp_list_msg L pMsgRsp hr hw h] at f1 f2 f3 ⊢
  simp only [rdBYTE_drop, rdDWORD_drop, rdQWORD_drop]
  have hc : rdDWORD (wrQWORD pMsgRsp.pb (L.sizeof_LC_CMD_AGENT_VFS_RSP + 16)
      (sizeof_VFS_FILELISTBLOB + rdDWORD pMsgRsp.pb (L.sizeof_LC_CMD_AGENT_VFS_RSP + 8)
        * sizeof_VFS_FILELISTBLOB_ENTRY)) (L.sizeof_LC_CMD_AGENT_VFS_RSP + 8)
      = rdDWORD pMsgRsp.pb (L.sizeof_LC_CMD_AGENT_VFS_RSP + 8) :=
    rdDWORD_wrQWORD_lt _ _ _ _ (by omega)
  rw [hc]
  simp only [] at f2
  rw [f2]
  generalize rdDWORD pMsgRsp.pb (L.sizeof_LC_CMD_AGENT_VFS_RSP + 8) = c at *
  generalize rdDWORD pMsgRsp.pb (L.sizeof_LC_CMD_AGENT_VFS_RSP + 12) = t at *
  generalize rdDWORD pMsgRsp.pb L.VFS_RSP_cb = n at *
  unfold sizeof_VFS_FILELISTBLOB sizeof_VFS_FILELISTBLOB_ENTRY at *
  refine ⟨rfl, by omega, ?_⟩
  intro i hi
  have he : rdQWORD (wrQWORD pMsgRsp.pb (L.sizeof_LC_CMD_AGENT_VFS_RSP + 16) (56 + c * 48))
      (L.sizeof_LC_CMD_AGENT_VFS_RSP + (56 + i * 48))
      = rdQWORD pMsgRsp.pb (L.sizeof_LC_CMD_AGENT_VFS_RSP + (56 + i * 48)) :=
    rdQWORD_wrQWORD_ge _ _ _ _ (by omega)
  rw [he]
  have hn := k11 i hi
  refine ⟨by omega, by omega, n - 1, by omega, by omega, ?_⟩
  rw [rdBYTE_wrQWORD_ge _ _ _ _ (by omega)]
  exact k5

/-- The theorem for C23 applied to the sample `VFS_LIST` response, which is accepted: its
one entry has its name at a position inside the inner buffer. -/
theorem VerifyUntrustedVfsRsp_names_inside_witness :
    0 < rdDWORD ((LeechRPC_Command_VerifyUntrustedVfsRsp sampleLayout
          sampleLayout.LC_CMD_AGENT_VFS_LIST sampleVfsListRsp).2.pb.drop
            sampleLayout.sizeof_LC_CMD_AGENT_VFS_RSP) 8
    ∧ rdQWORD ((LeechRPC_Command_VerifyUntrustedVfsRsp sampleLayout
            sampleLayout.LC_CMD_AGENT_VFS_LIST sampleVfsListRsp).2.pb.drop
              sampleLayout.sizeof_LC_CMD_AGENT_VFS_RSP) 16
          + rdQWORD ((LeechRPC_Command_VerifyUntrustedVfsRsp sampleLayout
              sampleLayout.LC_CMD_AGENT_VFS_LIST sampleVfsListRsp).2.pb.drop
                sampleLayout.sizeof_LC_CMD_AGENT_VFS_RSP)
              (sizeof_VFS_FILELISTBLOB + 0 * sizeof_VFS_FILELISTBLOB_ENTRY)
        < (LeechRPC_Command_VerifyUntrustedVfsRsp sampleLayout
            sampleLayout.LC_CMD_AGENT_VFS_LIST sampleVfsListRsp).2.cb
            - sampleLayout.sizeof_LC_CMD_AGENT_VFS_RSP :=
  ⟨by decide, ((VerifyUntrustedVfsRsp_names_inside sampleLayout sampleVfsListRsp (by decide)
    (by decide) (by decide)).2.2 0 (by decide)).2.1⟩

/-! ### Scatter read: the reads of the response payload -/

/-- A store of a done bit through a pointer to a pending descriptor makes no entry
pending that was not: the pending entries of an array are at most as many as before. -/
theorem pending_length_wrMEM_le (L : Layout) (scatter : Nat → MEM_SCATTER) (p0 : Nat)
    (b : Bool) (hp : MEM_pending L (scatter p0) = true) (ps : List Nat) :
    ((ps.map (wrMEM scatter p0 { scatter p0 with f := b })).filter (MEM_pending L)).length
      ≤ ((ps.map scatter).filter (MEM_pending L)).length := by
  induction ps with
  | nil => simp
  | cons q rest ih =>
    rw [List.map_cons, List.map_cons]
    by_cases e : q = p0
    · subst e
      rw [wrMEM_same, List.filter_cons_of_pos hp, List.length_cons]
      by_cases h2 : MEM_pending L { scatter q with f := b } = true
      · rw [List.filter_cons_of_pos h2, List.length_cons]
        omega
      · rw [List.filter_cons_of_neg h2]
        omega
    · rw [wrMEM_of_ne _ _ _ q e]
      by_cases h2 : MEM_pending L (scatter q) = true
      · rw [List.filter_cons_of_pos h2, List.filter_cons_of_pos h2, List.length_cons,
          List.length_cons]
        omega
      · rw [List.filter_cons_of_neg h2, List.filter_cons_of_neg h2]
        exact ih

/-- The reads of the loop of lines 344-355 are in bounds when the loop starts with a
cursor between the end of the `cv` descriptors and `pMsgRsp->cb`, with at most `cv - k`
pending entries left, each of at most 4096 bytes. -/
theorem ReadScatter_loop_reads_in_bounds (L : Layout) (rsp : LEECHRPC_MSG) (cv : Nat)
    (hcb : rsp.cb < 4294967296) (hdesc : cv * L.sizeof_MEM_SCATTER ≤ rsp.cb) :
    ∀ (ps : List Nat) (k off : Nat) (M : Memory),
    (∀ p ∈ ps, (M.scatter p).cb ≤ 4096) →
    k + ((ps.map M.scatter).filter (MEM_pending L)).length ≤ cv →
    cv * L.sizeof_MEM_SCATTER ≤ off → off ≤ rsp.cb →
    ∀ r ∈ ReadScatter_loop_reads L rsp ps k off M, r.InBounds L cv rsp.cb := by
  intro ps
  induction ps with
  | nil =>
    intro k off M _ _ _ _ r hr
    simp [ReadScatter_loop_reads] at hr
  | cons p0 rest ih =>
    intro k off M hsize hcount hlo hhi r hr
    have ha : (M.scatter p0).cb ≤ 4096 := hsize p0 (List.mem_cons_self _ _)
    rw [List.map_cons] at hcount
    unfold ReadScatter_loop_reads at hr
    simp only [] at hr
    by_cases hskip : ((M.scatter p0).f || !L.MEM_SCATTER_ADDR_ISVALID (M.scatter p0).qwA) = true
    · rw [if_pos hskip] at hr
      have hp2 : MEM_pending L (M.scatter p0) = false := (skip_iff_not_pending L _).1 hskip
      rw [List.filter_cons_of_neg (by rw [hp2]; simp)] at hcount
      exact ih k off M (fun p hp => hsize p (List.mem_cons_of_mem _ hp)) hcount hlo hhi r hr
    · rw [if_neg hskip] at hr
      have hp : MEM_pending L (M.scatter p0) = true := by
        have := (skip_iff_not_pending L (M.scatter p0)).not.1 hskip
        simpa using this
      rw [List.filter_cons_of_pos hp, List.length_cons] at hcount
      have hk : k + 1 ≤ cv := by omega
      have hd : PayloadRead.InBounds L cv rsp.cb (PayloadRead.descriptor k off) :=
        ⟨hk, Nat.mul_le_mul_right _ hk, hdesc, hlo, hhi⟩
      have hsize1 : ∀ b, ∀ p ∈ rest,
          (wrMEM M.scatter p0 { M.scatter p0 with f := b } p).cb ≤ 4096 := by
        intro b p hpm
        by_cases e : p = p0
        · rw [e, wrMEM_same]
          exact ha
        · rw [wrMEM_of_ne _ _ _ p e]
          exact hsize p (List.mem_cons_of_mem _ hpm)
      have hcount1 : ∀ b, k + 1
          + ((rest.map (wrMEM M.scatter p0 { M.scatter p0 with f := b })).filter
              (MEM_pending L)).length ≤ cv := by
        intro b
        have := pending_length_wrMEM_le L M.scatter p0 b hp rest
        omega
      by_cases hbad : (rspMEM L rsp k).version ≠ L.MEM_SCATTER_VERSION
          ∨ (rspMEM L rsp k).qwA ≠ (M.scatter p0).qwA
          ∨ (M.scatter p0).cb > (rsp.cb + 4294967296 - off) % 4294967296
      · rw [if_pos hbad] at hr
        rw [List.mem_singleton.1 hr]
        exact hd
      · rw [if_neg hbad] at hr
        have hfit : off + (M.scatter p0).cb ≤ rsp.cb := by
          have := (not_or.1 (not_or.1 hbad).2).2
          omega
        by_cases hf : (rspMEM L rsp k).f = true
        · rw [if_pos hf] at hr
          rcases List.mem_cons.1 hr with h1 | h1
          · rw [h1]; exact hd
          rcases List.mem_cons.1 h1 with h2 | h2
          · rw [h2]; exact ⟨hlo, hfit, ha⟩
          · have hmod : (off + (M.scatter p0).cb) % 4294967296 = off + (M.scatter p0).cb :=
              Nat.mod_eq_of_lt (by omega)
            rw [hmod] at h2
            exact ih (k + 1) (off + (M.scatter p0).cb) _ (hsize1 _) (hcount1 _) (by omega)
              hfit r h2
        · rw [if_neg hf] at hr
          rcases List.mem_cons.1 hr with h1 | h1
          · rw [h1]; exact hd
          · exact ih (k + 1) off _ (hsize1 _) (hcount1 _) hlo hhi r h1

/-- C24: for every chunk, whatever pointers its array holds, and every response that
`LeechRPC_SubmitCommand` accepted, whose `cb` is a `DWORD`, every read that
`LeechRPC_ReadScatter_Impl` makes in the payload of the response is in bounds: a
descriptor read has an index below the count of valid inputs and lies in the first
`count * sizeof(MEM_SCATTER) <= cb` bytes, the cursor is then between that count of bytes
and `cb`, and every copied range starts behind the descriptors, ends at `cb` at most and
has at most 4096 bytes. -/
theorem ReadScatter_Impl_reads_in_bounds (L : Layout) (E : Env) (ctxLC : LC_CONTEXT)
    (w w1 : World) (M : Memory) (ppMEMs : List Nat) (pMsgRsp : LEECHRPC_MSG)
    (hsub : LeechRPC_SubmitCommand L E ctxLC w (ReadScatter_request L (ppMEMs.map M.scatter))
      L.LEECHRPC_MSGTYPE_READSCATTER_RSP = (w1, true, some pMsgRsp))
    (hcb : pMsgRsp.cb < 4294967296) :
    ∀ r ∈ LeechRPC_ReadScatter_Impl_reads L E ctxLC w M ppMEMs,
      r.InBounds L ((ppMEMs.map M.scatter).filter (MEM_pending L)).length pMsgRsp.cb := by
  intro r hr
  unfold LeechRPC_ReadScatter_Impl_reads at hr
  by_cases hvalid : (ppMEMs.map M.scatter).any (MEM_invalid L) = true
  · rw [if_pos hvalid] at hr
    exact absurd hr (List.not_mem_nil r)
  rw [if_neg hvalid, hsub] at hr
  simp only [] at hr
  by_cases hchk : pMsgRsp.qwData0 ≠ ((ppMEMs.map M.scatter).filter (MEM_pending L)).length
      ∨ pMsgRsp.cb
        < ((ppMEMs.map M.scatter).filter (MEM_pending L)).length * L.sizeof_MEM_SCATTER
  · rw [if_pos hchk] at hr
    exact absurd hr (List.not_mem_nil r)
  rw [if_neg hchk] at hr
  have hdesc : ((ppMEMs.map M.scatter).filter (MEM_pending L)).length * L.sizeof_MEM_SCATTER
      ≤ pMsgRsp.cb :=
    Nat.le_of_not_lt (not_or.1 hchk).2
  have hmod : (((ppMEMs.map M.scatter).filter (MEM_pending L)).length * L.sizeof_MEM_SCATTER)
        % 4294967296
      = ((ppMEMs.map M.scatter).filter (MEM_pending L)).length * L.sizeof_MEM_SCATTER :=
    Nat.mod_eq_of_lt (by omega)
  rw [hmod] at hr
  have hsize : ∀ p ∈ ppMEMs, (M.scatter p).cb ≤ 4096 := by
    intro p hp
    have h1 : MEM_invalid L (M.scatter p) = false := by
      have := List.any_eq_false.1 (Bool.not_eq_true _ ▸ hvalid) (M.scatter p)
        (List.mem_map.2 ⟨p, hp, rfl⟩)
      simpa using this
    unfold MEM_invalid at h1
    simp only [Bool.or_eq_false_iff, decide_eq_false_iff_not] at h1
    omega
  exact ReadScatter_loop_reads_in_bounds L pMsgRsp _ hcb hdesc ppMEMs 0 _ M hsize
    (by omega) (Nat.le_refl _) hdesc r hr

/-- The theorem for C24 applied to three small reads in an open RPC session: the reads
of the payload are two descriptors and one copy, and the copy is in bounds. -/
theorem ReadScatter_Impl_reads_in_bounds_witness :
    LeechRPC_ReadScatter_Impl_reads sampleLayout sampleEnv sampleRpcCtx
        (sampleWorld sampleMixedRsp) sampleMixedMemory sampleMixedPtrs
      = [PayloadRead.descriptor 0 384, PayloadRead.copy 384 1, PayloadRead.descriptor 1 385]
    ∧ PayloadRead.InBounds sampleLayout
        ((sampleMixedPtrs.map sampleMixedMemory.scatter).filter (MEM_pending sampleLayout)).length
        sampleMixedRsp.cb (PayloadRead.copy 384 1) :=
  ⟨by decide,
   ReadScatter_Impl_reads_in_bounds sampleLayout sampleEnv sampleRpcCtx
     (sampleWorld sampleMixedRsp)
     (LeechRPC_SubmitCommand sampleLayout sampleEnv sampleRpcCtx (sampleWorld sampleMixedRsp)
        (ReadScatter_request sampleLayout (sampleMixedPtrs.map sampleMixedMemory.scatter)) 8).1
     sampleMixedMemory sampleMixedPtrs sampleMixedRsp (Prod.ext rfl (by decide)) (by decide)
     (PayloadRead.copy 384 1) (by decide)⟩

/-! ### Open: the error information and the end of the message -/

/-- Evaluation for C25: over a pipe the server refuses the open with a response of 176
bytes, the size of `LEECHRPC_MSG_OPEN`, whose error information begins at offset 96 (80
bytes are left) and announces `cbStruct = 175` and `cwszUserText = 47`.  The test of line
660 passes (`175 < 176` and `2 * 47 + 80 < 175`): `LeechRpc_Open` fails and hands out a
copy of 175 bytes, taken from the 80 bytes that are left, after a store of the NUL unit
at the bytes 174 and 175 of the error information. -/
theorem Open_errorinfo_outside_message :
    (LeechRpc_Open sampleLayout sampleEnv { Config := samplePipeConfig }
        sampleOverrunWorld).result = false
    ∧ (LeechRpc_Open sampleLayout sampleEnv { Config := samplePipeConfig }
        sampleOverrunWorld).errorInfo.map List.length = some 175
    ∧ sampleLayout.sizeof_LEECHRPC_MSG_OPEN = 176
    ∧ sampleLayout.sizeof_LEECHRPC_MSG_HDR + sampleOverrunBody.length = 176
    ∧ (sampleLayout.viewEXT sampleOverrunBody).errorinfo.length = 80
    ∧ sampleLayout.ERRORINFO_wszUserText + 2 * 47 + 2 = 176 := by
  decide

end LeechRpc
